import Mathlib

/-!
# boost::detail::basic_condition_variable (win32)

Shallow embedding of `include/boost/thread/win32/condition_variable.hpp`.

* `long` and `unsigned` are embedded as `Int` and `Nat`; the counters stay far from the
  limits of the machine types, and no wrap-around is modelled.  For the same reason the
  ceiling `LONG_MAX` of the semaphores is never reached.
* A `detail::win32::handle` is `Option Nat`: `none` is the null handle, `some i` refers to the
  kernel semaphore object number `i`.  A duplicated handle is the same number.
* The assertions of the source (`BOOST_ASSERT`) are taken to hold: semaphore creation and
  handle duplication succeed.
-/

/-- A `detail::win32::handle`: the null handle, or a reference to a kernel semaphore. -/
abbrev handle := Option Nat

/-- The struct `list_entry`, one generation of waiters. -/
structure list_entry where
  semaphore : handle
  count : Int
  notified : Bool
deriving DecidableEq, Repr

/-- The value-initialised `list_entry()`. -/
def list_entry.fresh : list_entry := { semaphore := none, count := 0, notified := false }

/-- The constant `generation_count`. -/
def generation_count : Nat := 3

/-- The data members of `basic_condition_variable` (the array `generations` as its three
elements), together with the kernel semaphores its handles refer to: `permits i` is the count
of semaphore object `i` and `next_semaphore` is the number of the next object to be created.
`internal_mutex` is not a field: every function below that takes it in the source is one
atomic step here. -/
structure basic_condition_variable where
  total_count : Int
  active_generation_count : Nat
  generations_0 : list_entry
  generations_1 : list_entry
  generations_2 : list_entry
  wake_sem : handle
  permits : Nat → Nat
  next_semaphore : Nat

/-- The element number `i` of an array of three entries. -/
def entry_at (e0 e1 e2 : list_entry) : Nat → list_entry
  | 0 => e0
  | 1 => e1
  | 2 => e2
  | _ => list_entry.fresh

namespace basic_condition_variable

/-- The element `generations[i]`.  Only `i < generation_count` lies inside the array; the
source never reads outside it while `active_generation_count ≤ generation_count`. -/
def generations (s : basic_condition_variable) (i : Nat) : list_entry :=
  entry_at s.generations_0 s.generations_1 s.generations_2 i

/-- The assignment `generations[i] = e` (nothing is stored outside the array). -/
def set_generation (s : basic_condition_variable) : Nat → list_entry → basic_condition_variable
  | 0, e => { s with generations_0 := e }
  | 1, e => { s with generations_1 := e }
  | 2, e => { s with generations_2 := e }
  | _, _ => s

/-- Modelled from the spec: `detail::win32::ReleaseSemaphore` of `thread_primitives.hpp`, which
is not among the sources (spec 4.1, release: adds `n` permits atomically, never blocks).  A call
on the null handle fails and changes nothing; a count that is not positive adds nothing. -/
def ReleaseSemaphore (h : handle) (n : Int) (s : basic_condition_variable) :
    basic_condition_variable :=
  { s with permits := fun j => if h = some j then s.permits j + n.toNat else s.permits j }

/-- Modelled from the spec: `detail::win32::create_anonymous_semaphore(0,LONG_MAX)` of
`thread_primitives.hpp`, which is not among the sources (spec 4.1, create: a new semaphore with
the initial number of permits, here 0).  Returns the handle of the new object. -/
def create_anonymous_semaphore (s : basic_condition_variable) :
    handle × basic_condition_variable :=
  (some s.next_semaphore,
   { s with permits := fun j => if j = s.next_semaphore then 0 else s.permits j,
            next_semaphore := s.next_semaphore + 1 })

/-- Modelled from the spec: `detail::win32::WaitForSingleObject` of `thread_primitives.hpp`,
which is not among the sources (spec 4.1, wait: consumes one permit when signaled, else returns
TimedOut after the deadline), observed at the moment the call returns: `true` is the result 0
(signaled), `false` is `detail::win32::timeout`.  A wait on the null handle, which the source
never makes, consumes nothing and is not signalled. -/
def WaitForSingleObject (h : handle) (s : basic_condition_variable) :
    Bool × basic_condition_variable :=
  match h with
  | none => (false, s)
  | some i =>
    if 0 < s.permits i then
      (true, { s with permits := fun j => if j = i then s.permits j - 1 else s.permits j })
    else (false, s)

/-- The number of permits of the semaphore a handle refers to (0 for the null handle). -/
def permits_of (s : basic_condition_variable) (h : handle) : Nat :=
  match h with
  | none => 0
  | some i => s.permits i

/-- The function `no_waiters`. -/
def no_waiters (entry : list_entry) : Bool := entry.count == 0

/-- The function `dispose_entry`: `CloseHandle` gives up this handle only, the kernel object
lives on for the waiters that hold duplicates of it. -/
def dispose_entry (entry : list_entry) : list_entry :=
  let entry := if entry.semaphore ≠ none then { entry with semaphore := none } else entry
  { entry with notified := false }

/-- The function `broadcast_entry(generations[i],wake)`. -/
def broadcast_entry (i : Nat) (wake : Bool) (s : basic_condition_variable) :
    basic_condition_variable :=
  let entry := s.generations i
  let count_to_wake := entry.count
  let s := { s with total_count := s.total_count - count_to_wake }
  let s := if wake then ReleaseSemaphore s.wake_sem count_to_wake s else s
  let s := ReleaseSemaphore entry.semaphore count_to_wake s
  s.set_generation i (dispose_entry { entry with count := 0 })

/-- The loop of `std::remove_if(generations,generations+generation_count,no_waiters)` over the
indices still to visit; `result` is the position the next kept element is written to.  Elements
are plain data, so a moved-from element keeps its value. -/
def remove_if_from (s : basic_condition_variable) (result : Nat) :
    List Nat → basic_condition_variable × Nat
  | [] => (s, result)
  | i :: rest =>
    if no_waiters (s.generations i) then remove_if_from s result rest
    else remove_if_from (s.set_generation result (s.generations i)) (result + 1) rest

/-- The call `std::remove_if(generations,generations+generation_count,no_waiters)`; the second
component is the index of the returned iterator. -/
def remove_if (s : basic_condition_variable) : basic_condition_variable × Nat :=
  remove_if_from s 0 [0, 1, 2]

/-- The call `std::copy_backward(generations,generations+last,generations+d_last)`. -/
def copy_backward (s : basic_condition_variable) : Nat → Nat → basic_condition_variable
  | 0, _ => s
  | last + 1, d_last =>
    copy_backward (s.set_generation (d_last - 1) (s.generations last)) last (d_last - 1)

/-- The function `shift_generations_down`.  With `active_generation_count = 0` in its first
branch the source forms the iterator `generations-1`, which is undefined; the truncated
subtraction copies nothing there. -/
def shift_generations_down (s : basic_condition_variable) : basic_condition_variable :=
  let r := remove_if s
  let last_active_entry := r.2
  let s := r.1
  let s :=
    if last_active_entry = generation_count then broadcast_entry (generation_count - 1) false s
    else { s with active_generation_count := last_active_entry + 1 }
  let s := copy_backward s (s.active_generation_count - 1) s.active_generation_count
  s.set_generation 0 list_entry.fresh

/-- The body of the loop of `notify_one` for the loop variable `generation + 1`, that is for
`entry = generations[generation]`. -/
def notify_one_body (s : basic_condition_variable) (generation : Nat) :
    basic_condition_variable :=
  let entry := s.generations generation
  if entry.count ≠ 0 then
    let s := { s with total_count := s.total_count - 1 }
    let entry := { entry with notified := true }
    let s := ReleaseSemaphore entry.semaphore 1 s
    let entry := { entry with count := entry.count - 1 }
    if entry.count = 0 then
      let s := s.set_generation generation (dispose_entry entry)
      if generation + 1 = s.active_generation_count then
        { s with active_generation_count := s.active_generation_count - 1 }
      else s
    else s.set_generation generation entry
  else s

/-- The loop `for(generation=...;generation!=0;--generation)` of `notify_one`, entered with
the given value of the loop variable. -/
def notify_one_loop (s : basic_condition_variable) : Nat → basic_condition_variable
  | 0 => s
  | generation + 1 => notify_one_loop (notify_one_body s generation) generation

/-- The function `notify_one`. -/
def notify_one (s : basic_condition_variable) : basic_condition_variable :=
  if s.total_count ≠ 0 then
    let s := ReleaseSemaphore s.wake_sem 1 s
    notify_one_loop s s.active_generation_count
  else s

/-- The body of the loop of `notify_all` for `entry = generations[generation]`. -/
def notify_all_body (s : basic_condition_variable) (generation : Nat) :
    basic_condition_variable :=
  if (s.generations generation).count ≠ 0 then broadcast_entry generation true s else s

/-- The loop of `notify_all`, entered with the given value of the loop variable. -/
def notify_all_loop (s : basic_condition_variable) : Nat → basic_condition_variable
  | 0 => s
  | generation + 1 => notify_all_loop (notify_all_body s generation) generation

/-- The function `notify_all`. -/
def notify_all (s : basic_condition_variable) : basic_condition_variable :=
  if s.total_count ≠ 0 then
    let s := notify_all_loop s s.active_generation_count
    { s with active_generation_count := 0 }
  else s

/-- The constructor `basic_condition_variable()`; no kernel semaphore exists yet. -/
def construct : basic_condition_variable :=
  { total_count := 0, active_generation_count := 0,
    generations_0 := list_entry.fresh, generations_1 := list_entry.fresh,
    generations_2 := list_entry.fresh, wake_sem := none,
    permits := fun _ => 0, next_semaphore := 0 }

end basic_condition_variable

/-- What one thread does inside `do_wait`, in program order. -/
inductive event where
  | internal_mutex_lock
  | total_count_increment
  | external_unlock
  | bucket_count_increment
  | internal_mutex_unlock
  | bucket_wait (signalled : Bool)
  | wake_poll (signalled : Bool)
  | external_lock
deriving DecidableEq, Repr

/-- The locals of one activation of `do_wait`: the two handle managers, the two flags, the
`relocker` (its flag `unlocked` and whether the lock it refers to is held by the calling
thread), and the record of what the activation has done so far. -/
structure do_wait_frame where
  local_wake_sem : handle
  sem : handle
  first_loop : Bool
  woken : Bool
  unlocked : Bool
  lock_held : Bool
  trace : List event

namespace do_wait_frame

/-- The locals at the start of `do_wait`: empty handle managers, `first_loop=true`,
`woken=false`, and `relocker<lock_type> locker(lock)`. -/
def enter (lock_held : Bool) : do_wait_frame :=
  { local_wake_sem := none, sem := none, first_loop := true, woken := false,
    unlocked := false, lock_held := lock_held, trace := [] }

/-- Appends an event to the record. -/
def log (f : do_wait_frame) (e : event) : do_wait_frame := { f with trace := f.trace ++ [e] }

/-- The function `relocker::unlock`. -/
def relocker_unlock (f : do_wait_frame) : do_wait_frame :=
  { f.log event.external_unlock with lock_held := false, unlocked := true }

/-- The destructor `relocker::~relocker`. -/
def relocker_destroy (f : do_wait_frame) : do_wait_frame :=
  if f.unlocked then { f.log event.external_lock with lock_held := true } else f

end do_wait_frame

namespace basic_condition_variable

/-- The block of `do_wait` that runs under `internal_lock` (the first block of the loop body):
one enrollment. -/
def enroll (s : basic_condition_variable) (f : do_wait_frame) :
    basic_condition_variable × do_wait_frame :=
  let f := f.log event.internal_mutex_lock
  let s := { s with total_count := s.total_count + 1 }
  let f := f.log event.total_count_increment
  let sf : basic_condition_variable × do_wait_frame :=
    if f.first_loop then
      let f := f.relocker_unlock
      let s :=
        if s.wake_sem = none then
          let r := create_anonymous_semaphore s
          { r.2 with wake_sem := r.1 }
        else s
      let f := { f with local_wake_sem := s.wake_sem }
      let s :=
        if (s.generations 0).notified then shift_generations_down s
        else if s.active_generation_count = 0 then { s with active_generation_count := 1 }
        else s
      (s, { f with first_loop := false })
    else (s, f)
  let s := sf.1
  let f := sf.2
  let s :=
    if (s.generations 0).semaphore = none then
      let r := create_anonymous_semaphore s
      r.2.set_generation 0 { r.2.generations 0 with semaphore := r.1 }
    else s
  let s := s.set_generation 0 { s.generations 0 with count := (s.generations 0).count + 1 }
  let f := f.log event.bucket_count_increment
  let f := { f with sem := (s.generations 0).semaphore }
  (s, f.log event.internal_mutex_unlock)

/-- The wait on the bucket semaphore, `WaitForSingleObject(sem,...)`, at its return. -/
def bucket_wait (s : basic_condition_variable) (f : do_wait_frame) :
    Bool × basic_condition_variable × do_wait_frame :=
  let r := WaitForSingleObject f.sem s
  (r.1, r.2, f.log (event.bucket_wait r.1))

/-- The poll `WaitForSingleObject(local_wake_sem,0)` and `woken=(woken_result==0)`. -/
def wake_poll (s : basic_condition_variable) (f : do_wait_frame) :
    basic_condition_variable × do_wait_frame :=
  let r := WaitForSingleObject f.local_wake_sem s
  (r.2, { f.log (event.wake_poll r.1) with woken := r.1 })

end basic_condition_variable

/-- What the other threads do to the condition variable and its semaphores around one
iteration of the loop of `do_wait`: before the thread takes `internal_mutex`, while it waits on
the bucket semaphore, and between the return of that wait and the poll of the wake semaphore. -/
structure interference where
  entering : basic_condition_variable → basic_condition_variable
  blocked : basic_condition_variable → basic_condition_variable
  polling : basic_condition_variable → basic_condition_variable

/-- The result of a call of `do_wait` that has returned. -/
structure do_wait_result where
  woken : Bool
  cv : basic_condition_variable
  frame : do_wait_frame

namespace basic_condition_variable

/-- The loop `while(!woken)` of `do_wait`, one element of the list for each iteration; `none`
when the list is used up and the loop has not ended. -/
def do_wait_loop : List interference → basic_condition_variable → do_wait_frame →
    Option (basic_condition_variable × do_wait_frame)
  | [], s, f => if f.woken then some (s, f) else none
  | r :: rest, s, f =>
    if f.woken then some (s, f)
    else
      let sf := enroll (r.entering s) f
      let w := bucket_wait (r.blocked sf.1) sf.2
      if w.1 = false then some w.2
      else
        let p := wake_poll (r.polling w.2.1) w.2.2
        do_wait_loop rest p.1 p.2

/-- The function `do_wait`, called with the lock in the given state. -/
def do_wait (rounds : List interference) (s : basic_condition_variable) (lock_held : Bool) :
    Option do_wait_result :=
  match do_wait_loop rounds s (do_wait_frame.enter lock_held) with
  | none => none
  | some sf =>
    let f := sf.2.relocker_destroy
    some { woken := f.woken, cv := sf.1, frame := f }

end basic_condition_variable

/-- What the public functions with a predicate do, in program order. -/
inductive call_event where
  | pred (value : Bool)
  | wait
  | timed_wait (result : Bool)
deriving DecidableEq, Repr

/-- The result of a call of one of the public wait functions that has returned: the value
returned (`true` for the functions that return nothing), the condition variable, whether the
lock is held, and the calls made. -/
structure wait_result where
  value : Bool
  cv : basic_condition_variable
  lock_held : Bool
  calls : List call_event

namespace wait_result

/-- Puts the calls made before a recursive call in front of its record. -/
def after (r : wait_result) (calls : List call_event) : wait_result :=
  { r with calls := calls ++ r.calls }

end wait_result

namespace condition_variable

/-- The function `wait(unique_lock<mutex>& m)`: `do_wait` with the sentinel time, the result
is dropped. -/
def wait (rounds : List interference) (s : basic_condition_variable) (lock_held : Bool) :
    Option (basic_condition_variable × Bool) :=
  match s.do_wait rounds lock_held with
  | none => none
  | some r => some (r.cv, r.frame.lock_held)

/-- The function `wait(unique_lock<mutex>& m,predicate_type pred)`: each element of the list
is the value of one call of `pred()` and the interference met by the `wait(m)` after it. -/
def wait_pred : List (Bool × List interference) → basic_condition_variable → Bool →
    Option wait_result
  | [], _, _ => none
  | (p, rounds) :: rest, s, lock_held =>
    if !p then
      match wait rounds s lock_held with
      | none => none
      | some r =>
        (wait_pred rest r.1 r.2).map fun w => w.after [call_event.pred p, call_event.wait]
    else some { value := true, cv := s, lock_held := lock_held, calls := [call_event.pred p] }

/-- The function `timed_wait(unique_lock<mutex>& m,boost::system_time const& wait_until)`. -/
def timed_wait (rounds : List interference) (s : basic_condition_variable) (lock_held : Bool) :
    Option do_wait_result :=
  s.do_wait rounds lock_held

/-- The function `timed_wait(unique_lock<mutex>& m,boost::system_time const& wait_until,
predicate_type pred)`. -/
def timed_wait_pred : List (Bool × List interference) → basic_condition_variable → Bool →
    Option wait_result
  | [], _, _ => none
  | (p, rounds) :: rest, s, lock_held =>
    if !p then
      match timed_wait rounds s lock_held with
      | none => none
      | some r =>
        if !r.woken then
          some { value := false, cv := r.cv, lock_held := r.frame.lock_held,
                 calls := [call_event.pred p, call_event.timed_wait r.woken] }
        else
          (timed_wait_pred rest r.cv r.frame.lock_held).map fun w =>
            w.after [call_event.pred p, call_event.timed_wait r.woken]
    else some { value := true, cv := s, lock_held := lock_held, calls := [call_event.pred p] }

end condition_variable

namespace condition_variable_any

/-- The function `wait(lock_type& m)`. -/
def wait (rounds : List interference) (s : basic_condition_variable) (lock_held : Bool) :
    Option (basic_condition_variable × Bool) :=
  match s.do_wait rounds lock_held with
  | none => none
  | some r => some (r.cv, r.frame.lock_held)

/-- The function `wait(lock_type& m,predicate_type pred)`. -/
def wait_pred : List (Bool × List interference) → basic_condition_variable → Bool →
    Option wait_result
  | [], _, _ => none
  | (p, rounds) :: rest, s, lock_held =>
    if !p then
      match wait rounds s lock_held with
      | none => none
      | some r =>
        (wait_pred rest r.1 r.2).map fun w => w.after [call_event.pred p, call_event.wait]
    else some { value := true, cv := s, lock_held := lock_held, calls := [call_event.pred p] }

/-- The function `timed_wait(lock_type& m,boost::system_time const& wait_until)`. -/
def timed_wait (rounds : List interference) (s : basic_condition_variable) (lock_held : Bool) :
    Option do_wait_result :=
  s.do_wait rounds lock_held

/-- The function `timed_wait(lock_type& m,boost::system_time const& wait_until,
predicate_type pred)`. -/
def timed_wait_pred : List (Bool × List interference) → basic_condition_variable → Bool →
    Option wait_result
  | [], _, _ => none
  | (p, rounds) :: rest, s, lock_held =>
    if !p then
      match timed_wait rounds s lock_held with
      | none => none
      | some r =>
        if !r.woken then
          some { value := false, cv := r.cv, lock_held := r.frame.lock_held,
                 calls := [call_event.pred p, call_event.timed_wait r.woken] }
        else
          (timed_wait_pred rest r.cv r.frame.lock_held).map fun w =>
            w.after [call_event.pred p, call_event.timed_wait r.woken]
    else some { value := true, cv := s, lock_held := lock_held, calls := [call_event.pred p] }

end condition_variable_any

/-- Where a thread that has called `do_wait` stands between two of its atomic steps. -/
inductive location where
  | blocked
  | polling
  | looping
  | returned
deriving DecidableEq, Repr

/-- A thread inside (or back from) `do_wait`. -/
structure thread where
  frame : do_wait_frame
  position : location

/-- A condition variable and the threads that have called `do_wait` on it. -/
structure system where
  cv : basic_condition_variable
  threads : List thread

/-- The atomic steps of the threads that use one condition variable. -/
inductive action where
  | wait
  | bucket_wait (i : Nat)
  | wake_poll (i : Nat)
  | reenroll (i : Nat)
  | notify_one
  | notify_all
deriving DecidableEq, Repr

namespace system

/-- A freshly constructed condition variable, no thread has called it yet. -/
def start : system := { cv := basic_condition_variable.construct, threads := [] }

/-- One atomic step, `none` when the step is not possible in this state.
* `wait`: a new thread calls `do_wait` with its lock held and runs the first enrollment;
* `bucket_wait i`: the wait of thread `i` on its bucket semaphore returns, signalled when the
  semaphore has a permit, timed out otherwise (the thread then leaves `do_wait`);
* `wake_poll i`: thread `i` polls the wake semaphore, and leaves `do_wait` when it gets a permit;
* `reenroll i`: thread `i`, whose poll failed, runs the enrollment of its next iteration;
* `notify_one`, `notify_all`: some thread calls the function. -/
def step (y : system) : action → Option system
  | action.wait =>
    let sf := y.cv.enroll (do_wait_frame.enter true)
    some { cv := sf.1, threads := y.threads ++ [{ frame := sf.2, position := location.blocked }] }
  | action.bucket_wait i =>
    match y.threads[i]? with
    | some { frame := f, position := location.blocked } =>
      let w := y.cv.bucket_wait f
      some { cv := w.2.1,
             threads := y.threads.set i
               (if w.1 then { frame := w.2.2, position := location.polling }
                else { frame := w.2.2.relocker_destroy, position := location.returned }) }
    | _ => none
  | action.wake_poll i =>
    match y.threads[i]? with
    | some { frame := f, position := location.polling } =>
      let p := y.cv.wake_poll f
      some { cv := p.1,
             threads := y.threads.set i
               (if p.2.woken then { frame := p.2.relocker_destroy, position := location.returned }
                else { frame := p.2, position := location.looping }) }
    | _ => none
  | action.reenroll i =>
    match y.threads[i]? with
    | some { frame := f, position := location.looping } =>
      let sf := y.cv.enroll f
      some { cv := sf.1,
             threads := y.threads.set i { frame := sf.2, position := location.blocked } }
    | _ => none
  | action.notify_one => some { y with cv := y.cv.notify_one }
  | action.notify_all => some { y with cv := y.cv.notify_all }

/-- A sequence of atomic steps. -/
def run (y : system) : List action → Option system
  | [] => some y
  | a :: rest =>
    match y.step a with
    | none => none
    | some y1 => run y1 rest

/-- The states reached from a freshly constructed condition variable. -/
def reachable (y : system) : Prop := ∃ steps : List action, start.run steps = some y

end system

namespace basic_condition_variable

/-- Whether the loop of `notify_one` (or of `notify_all`), started at
`active_generation_count`, finds waiters in `generations[i]`: the bucket is active and its
count is not 0. -/
def hit (s : basic_condition_variable) (i : Nat) : Bool :=
  decide (i < s.active_generation_count) && decide ((s.generations i).count ≠ 0)

/-- The number of buckets among `generations[0..n)` with a count that is not 0. -/
def nonempty_below (s : basic_condition_variable) : Nat → Nat
  | 0 => 0
  | n + 1 => nonempty_below s n + (if (s.generations n).count ≠ 0 then 1 else 0)

/-- The number of buckets among `generations[0..n)` with a count that is not 0 whose semaphore
handle refers to the kernel object `j`. -/
def nonempty_on_below (s : basic_condition_variable) (j : Nat) : Nat → Nat
  | 0 => 0
  | n + 1 =>
    nonempty_on_below s j n +
      (if (s.generations n).count ≠ 0 ∧ (s.generations n).semaphore = some j then 1 else 0)

/-- What holds of one bucket between two atomic steps: its count is not negative, it has a
semaphore exactly when it has waiters, and it is marked notified only while it has waiters. -/
def entry_ok (e : list_entry) : Prop :=
  0 ≤ e.count ∧ (e.semaphore ≠ none ↔ 0 < e.count) ∧ (e.notified = true → 0 < e.count)

/-- What holds of the table inside an enrollment (`extra = 1`: `total_count` already counts a
waiter that no bucket counts yet) and between two atomic steps (`extra = 0`): at most three
active generations, three well-formed buckets, `total_count` is the sum of the three counts
plus `extra`, buckets 1 and 2 have waiters only while they are active, and bucket 0 is marked
notified only while it is active. -/
def table_ok_with (extra : Int) (s : basic_condition_variable) : Prop :=
  s.active_generation_count ≤ generation_count ∧
  entry_ok s.generations_0 ∧ entry_ok s.generations_1 ∧ entry_ok s.generations_2 ∧
  s.total_count =
    s.generations_0.count + s.generations_1.count + s.generations_2.count + extra ∧
  (0 < s.generations_1.count → 2 ≤ s.active_generation_count) ∧
  (0 < s.generations_2.count → 3 ≤ s.active_generation_count) ∧
  (s.generations_0.notified = true → 1 ≤ s.active_generation_count)

/-- What holds of the table between two atomic steps. -/
def table_ok (s : basic_condition_variable) : Prop := table_ok_with 0 s

end basic_condition_variable

/-- The events of one enrollment, by the value of `first_loop` on entry. -/
def enroll_events (first_loop : Bool) : List event :=
  if first_loop then
    [event.internal_mutex_lock, event.total_count_increment, event.external_unlock,
     event.bucket_count_increment, event.internal_mutex_unlock]
  else
    [event.internal_mutex_lock, event.total_count_increment,
     event.bucket_count_increment, event.internal_mutex_unlock]

/-- The events of the loop of `do_wait` when `stale` iterations in a row see the bucket wait
signalled and the poll of the wake semaphore fail, and one more iteration ends the loop: with
the bucket wait signalled and the poll successful (`woken = true`), or with the bucket wait
timed out (`woken = false`). -/
def iteration_events (first_loop : Bool) : Nat → Bool → List event
  | 0, woken =>
    enroll_events first_loop ++
      (if woken then [event.bucket_wait true, event.wake_poll true]
       else [event.bucket_wait false])
  | stale + 1, woken =>
    enroll_events first_loop ++ [event.bucket_wait true, event.wake_poll false] ++
      iteration_events false stale woken

/-- The events of a whole call of `do_wait`: the loop, then the destructor of the relocker. -/
def do_wait_events (stale : Nat) (woken : Bool) : List event :=
  iteration_events true stale woken ++ [event.external_lock]

namespace interference

/-- Other threads take every permit of every semaphore while the thread is blocked: its
bucket wait times out. -/
def timing_out : interference :=
  { entering := id, blocked := fun s => { s with permits := fun _ => 0 }, polling := id }

/-- Other threads release a permit on every semaphore while the thread is blocked and again
before its poll: the bucket wait is signalled and the poll succeeds. -/
def waking : interference :=
  { entering := id,
    blocked := fun s => { s with permits := fun j => s.permits j + 1 },
    polling := fun s => { s with permits := fun j => s.permits j + 1 } }

/-- Other threads release a permit on every semaphore while the thread is blocked and take
every permit before its poll: the bucket wait is signalled and the poll fails. -/
def stale : interference :=
  { entering := id,
    blocked := fun s => { s with permits := fun j => s.permits j + 1 },
    polling := fun s => { s with permits := fun _ => 0 } }

end interference

/-- The calls made by `wait(m,pred)` when `pred()` is false `k` times, each time followed by
a `wait(m)`, and then true. -/
def wait_pred_calls : Nat → List call_event
  | 0 => [call_event.pred true]
  | k + 1 => call_event.pred false :: call_event.wait :: wait_pred_calls k

/-- The calls made by `timed_wait(m,wait_until,pred)` when `pred()` is false `k` times, each
time followed by a `timed_wait(m,wait_until)` that returns `true`, and then either `pred()` is
true (`value = true`) or `pred()` is false and the `timed_wait` after it returns `false`
(`value = false`). -/
def timed_wait_pred_calls : Nat → Bool → List call_event
  | 0, value =>
    if value then [call_event.pred true] else [call_event.pred false, call_event.timed_wait false]
  | k + 1, value =>
    call_event.pred false :: call_event.timed_wait true :: timed_wait_pred_calls k value

namespace basic_condition_variable

/-- The statements of the block `if(first_loop)` of `enroll` that act on the condition
variable: the lazy creation of `wake_sem`, and the shift of the generations or the activation
of the first one. -/
def first_arrival (s : basic_condition_variable) : basic_condition_variable :=
  let s :=
    if s.wake_sem = none then
      let r := create_anonymous_semaphore s
      { r.2 with wake_sem := r.1 }
    else s
  if (s.generations 0).notified then shift_generations_down s
  else if s.active_generation_count = 0 then { s with active_generation_count := 1 }
  else s

/-- The statements of `enroll` after the block `if(first_loop)`: the lazy creation of the
semaphore of `generations[0]` and `++generations[0].count`. -/
def join_generation_0 (s : basic_condition_variable) : basic_condition_variable :=
  let s :=
    if (s.generations 0).semaphore = none then
      let r := create_anonymous_semaphore s
      r.2.set_generation 0 { r.2.generations 0 with semaphore := r.1 }
    else s
  s.set_generation 0 { s.generations 0 with count := (s.generations 0).count + 1 }

end basic_condition_variable

namespace basic_condition_variable

/-- The sum of the counts of `generations[0..n)`. -/
def count_below (s : basic_condition_variable) : Nat → Int
  | 0 => 0
  | n + 1 => count_below s n + (s.generations n).count

end basic_condition_variable

/-- Two waiters enroll and `notify_one` wakes thread 0; a third waiter arrives and shifts the
generations; the next `notify_one` takes one waiter from bucket 1 and one from bucket 0, both
buckets become empty and `active_generation_count` becomes 0; threads 1 and 2 are both
released from their bucket semaphores, thread 1 gets the only wake permit, and thread 2,
whose poll fails, enrolls again. -/
def stranded_waiter_schedule : List action :=
  [action.wait, action.wait, action.notify_one, action.bucket_wait 0, action.wake_poll 0,
   action.wait, action.notify_one, action.bucket_wait 1, action.bucket_wait 2,
   action.wake_poll 1, action.wake_poll 2, action.reenroll 2]

namespace basic_condition_variable

/-- The condition variable after `n ≥ 1` first enrollments on the freshly constructed one and
nothing else: all `n` waiters are in generation 0. -/
def all_in_generation_0 (n : Nat) (s : basic_condition_variable) : Prop :=
  s.total_count = n ∧ s.active_generation_count = 1 ∧
  s.generations_0 = { semaphore := some 1, count := n, notified := false } ∧
  s.generations_1 = list_entry.fresh ∧ s.generations_2 = list_entry.fresh ∧
  s.wake_sem = some 0 ∧ (∀ j, s.permits j = 0) ∧ s.next_semaphore = 2

end basic_condition_variable


namespace basic_condition_variable

/-- The buckets that `std::remove_if(...,no_waiters)` keeps, in their order in the array. -/
def kept_entries (s : basic_condition_variable) : List list_entry :=
  [s.generations_0, s.generations_1, s.generations_2].filter (fun e => !no_waiters e)

end basic_condition_variable

namespace basic_condition_variable

/-- What holds of the handles between two atomic steps: every handle refers to a semaphore
that has been created, and the wake semaphore and the semaphores of the three buckets are
different kernel objects. -/
def handles_ok (s : basic_condition_variable) : Prop :=
  (∀ w, s.wake_sem = some w → w < s.next_semaphore) ∧
  (∀ b, s.generations_0.semaphore = some b →
    b < s.next_semaphore ∧ s.wake_sem ≠ some b ∧
    s.generations_1.semaphore ≠ some b ∧ s.generations_2.semaphore ≠ some b) ∧
  (∀ b, s.generations_1.semaphore = some b →
    b < s.next_semaphore ∧ s.wake_sem ≠ some b ∧ s.generations_2.semaphore ≠ some b) ∧
  (∀ b, s.generations_2.semaphore = some b → b < s.next_semaphore ∧ s.wake_sem ≠ some b)

/-- The handles of `t` are those of `s`, except that some buckets may have lost theirs. -/
def handles_kept (s t : basic_condition_variable) : Prop :=
  t.wake_sem = s.wake_sem ∧ t.next_semaphore = s.next_semaphore ∧
  (t.generations_0.semaphore = s.generations_0.semaphore ∨ t.generations_0.semaphore = none) ∧
  (t.generations_1.semaphore = s.generations_1.semaphore ∨ t.generations_1.semaphore = none) ∧
  (t.generations_2.semaphore = s.generations_2.semaphore ∨ t.generations_2.semaphore = none)

end basic_condition_variable


/-- Four waiters enroll and `notify_one` is called; three more enroll (the first of them
shifts the generations) and `notify_one` is called again; two more enroll (the first of them
shifts again) and `notify_one` is called a third time: all three buckets are active with one
waiter each, and bucket 0 is notified. -/
def full_table_schedule : List action :=
  [action.wait, action.wait, action.wait, action.wait, action.notify_one,
   action.wait, action.wait, action.wait, action.notify_one,
   action.wait, action.wait, action.notify_one]


namespace basic_condition_variable

/-- The number of permits that `broadcast_entry` releases for `generations[0..n)` taken
together: for each bucket its count, when that is positive. -/
def released_below (s : basic_condition_variable) : Nat → Nat
  | 0 => 0
  | n + 1 => released_below s n + (s.generations n).count.toNat

/-- The number of permits that `broadcast_entry` releases, for `generations[0..n)` taken
together, on the bucket semaphores whose handle refers to the kernel object `j`. -/
def released_on_below (s : basic_condition_variable) (j : Nat) : Nat → Nat
  | 0 => 0
  | n + 1 =>
    released_on_below s j n +
      (if (s.generations n).semaphore = some j then (s.generations n).count.toNat else 0)

end basic_condition_variable


/-- Whether `internal_mutex` is held after the events, when `held` says whether it was
held before them. -/
def internal_mutex_held_after (held : Bool) : List event → Bool
  | [] => held
  | event.internal_mutex_lock :: rest => internal_mutex_held_after true rest
  | event.internal_mutex_unlock :: rest => internal_mutex_held_after false rest
  | _ :: rest => internal_mutex_held_after held rest

/-- Whether every wait on a semaphore among the events (the bucket wait and the poll of the
wake semaphore) is made while `internal_mutex` is not held; `held` says whether it is held
before the first event. -/
def waits_without_internal_mutex (held : Bool) : List event → Bool
  | [] => true
  | event.internal_mutex_lock :: rest => waits_without_internal_mutex true rest
  | event.internal_mutex_unlock :: rest => waits_without_internal_mutex false rest
  | event.bucket_wait _ :: rest => !held && waits_without_internal_mutex held rest
  | event.wake_poll _ :: rest => !held && waits_without_internal_mutex held rest
  | _ :: rest => waits_without_internal_mutex held rest

/-- What holds of a thread inside or back from `do_wait`: its first five events are those of
the first enrollment, in the order of the source; if it has made a sixth, that is a bucket
wait, and if it has not, it is blocked; every wait on a semaphore was made without
`internal_mutex`, and `internal_mutex` is not held now. -/
def thread_ok (t : thread) : Prop :=
  t.frame.trace.take 5 = enroll_events true ∧
  ((t.frame.trace.length = 5 ∧ t.position = location.blocked) ∨
    ∃ b, t.frame.trace[5]? = some (event.bucket_wait b)) ∧
  waits_without_internal_mutex false t.frame.trace = true ∧
  internal_mutex_held_after false t.frame.trace = false

/-- A thread inside the enrollment block of `do_wait` (the block under `internal_lock`): the
condition variable, the locals of the call, and whether `internal_lock` owns
`internal_mutex` (the member `is_locked` of `mutex::scoped_lock`). -/
structure enrollment where
  cv : basic_condition_variable
  frame : do_wait_frame
  internal_lock : Bool

namespace enrollment

/-- The statement `boost::mutex::scoped_lock internal_lock(internal_mutex);`: the constructor
`scoped_lock(mutex& m_)` calls `lock()`, that is `m.lock(); is_locked=true;`. -/
def lock_internal_mutex (c : enrollment) : enrollment :=
  { c with internal_lock := true, frame := c.frame.log event.internal_mutex_lock }

/-- The statement `detail::interlocked_write_release(&total_count,total_count+1);`. -/
def increment_total_count (c : enrollment) : enrollment :=
  { c with cv := { c.cv with total_count := c.cv.total_count + 1 },
           frame := c.frame.log event.total_count_increment }

/-- The statement `locker.unlock();`, the first one under `if(first_loop)`. -/
def unlock_external (c : enrollment) : enrollment :=
  if c.frame.first_loop then { c with frame := c.frame.relocker_unlock } else c

/-- The other statements under `if(first_loop)`: the lazy creation of `wake_sem`, its
duplication into `local_wake_sem`, the shift of the generations or the activation of the first
one, and `first_loop=false;`. -/
def first_loop_rest (c : enrollment) : enrollment :=
  if c.frame.first_loop then
    let s := c.cv
    let s :=
      if s.wake_sem = none then
        let r := basic_condition_variable.create_anonymous_semaphore s
        { r.2 with wake_sem := r.1 }
      else s
    let f := { c.frame with local_wake_sem := s.wake_sem }
    let s :=
      if (s.generations 0).notified then s.shift_generations_down
      else if s.active_generation_count = 0 then { s with active_generation_count := 1 }
      else s
    { c with cv := s, frame := { f with first_loop := false } }
  else c

/-- The statement `if(!generations[0].semaphore) generations[0].semaphore=
create_anonymous_semaphore(0,LONG_MAX);`. -/
def create_bucket_semaphore (c : enrollment) : enrollment :=
  if (c.cv.generations 0).semaphore = none then
    let r := basic_condition_variable.create_anonymous_semaphore c.cv
    { c with cv := r.2.set_generation 0 { r.2.generations 0 with semaphore := r.1 } }
  else c

/-- The statement `++generations[0].count;`. -/
def increment_bucket_count (c : enrollment) : enrollment :=
  { c with
    cv := c.cv.set_generation 0
      { c.cv.generations 0 with count := (c.cv.generations 0).count + 1 },
    frame := c.frame.log event.bucket_count_increment }

/-- The statement `sem=detail::win32::duplicate_handle(generations[0].semaphore);`. -/
def duplicate_bucket_semaphore (c : enrollment) : enrollment :=
  { c with frame := { c.frame with sem := (c.cv.generations 0).semaphore } }

/-- The end of the block: the destructor `~scoped_lock()` of `internal_lock`,
`if(locked()) m.unlock();`. -/
def unlock_internal_mutex (c : enrollment) : enrollment :=
  if c.internal_lock then
    { c with internal_lock := false, frame := c.frame.log event.internal_mutex_unlock }
  else c

end enrollment

/-- The statements of the enrollment block of `do_wait`, in program order. -/
def enroll_statements : List (enrollment → enrollment) :=
  [enrollment.lock_internal_mutex, enrollment.increment_total_count,
   enrollment.unlock_external, enrollment.first_loop_rest,
   enrollment.create_bucket_semaphore, enrollment.increment_bucket_count,
   enrollment.duplicate_bucket_semaphore, enrollment.unlock_internal_mutex]

/-- The thread after the first `k` statements of the enrollment block, entered with the
condition variable `s` and the locals `f`. -/
def enroll_snapshot (s : basic_condition_variable) (f : do_wait_frame) (k : Nat) : enrollment :=
  (enroll_statements.take k).foldl (fun c statement => statement c)
    { cv := s, frame := f, internal_lock := false }

namespace basic_condition_variable

/-- The condition variable and the locals of a thread at its wait on the bucket semaphore, in
an iteration of the loop of `do_wait` that starts with the condition variable `s` and the
locals `f`: after its enrollment and after what the other threads do while it is blocked. -/
def iteration_blocked (r : interference) (s : basic_condition_variable) (f : do_wait_frame) :
    basic_condition_variable × do_wait_frame :=
  let e := enroll (r.entering s) f
  (r.blocked e.1, e.2)

/-- The condition variable and the locals of a thread at its poll of the wake semaphore, in
an iteration of the loop of `do_wait` that starts with the condition variable `s` and the
locals `f`: after its wait on the bucket semaphore and after what the other threads do before
the poll. -/
def iteration_polling (r : interference) (s : basic_condition_variable) (f : do_wait_frame) :
    basic_condition_variable × do_wait_frame :=
  let b := iteration_blocked r s f
  let w := bucket_wait b.1 b.2
  (r.polling w.2.1, w.2.2)

/-- The iterations of the list, one after the other, when each of them finds a permit on its
bucket semaphore at the bucket wait and no permit on the wake semaphore at the poll: the
condition variable and the locals after the last one (the failed poll takes no permit and
leaves `woken=false`); `none` when one of the iterations is not of this kind. -/
def stale_iterations : List interference → basic_condition_variable → do_wait_frame →
    Option (basic_condition_variable × do_wait_frame)
  | [], s, f => some (s, f)
  | r :: rest, s, f =>
    let b := iteration_blocked r s f
    let q := iteration_polling r s f
    if 0 < permits_of b.1 b.2.sem ∧ permits_of q.1 q.2.local_wake_sem = 0 then
      stale_iterations rest q.1 { q.2.log (event.wake_poll false) with woken := false }
    else none

end basic_condition_variable

namespace basic_condition_variable

/-- The calls `wait(m)` that `wait(m,pred)` makes, one after the other, each with the
interference it meets: the condition variable and the lock after the last one; `none` when one
of them does not return. -/
def waits : List (List interference) → basic_condition_variable → Bool →
    Option (basic_condition_variable × Bool)
  | [], s, lock_held => some (s, lock_held)
  | rounds :: rest, s, lock_held =>
    match s.do_wait rounds lock_held with
    | none => none
    | some r => waits rest r.cv r.frame.lock_held

/-- The calls `timed_wait(m,wait_until)` that `timed_wait(m,wait_until,pred)` makes, one after
the other, when each of them returns `true`: the condition variable and the lock after the
last one; `none` when one of them does not return or returns `false`. -/
def timed_waits : List (List interference) → basic_condition_variable → Bool →
    Option (basic_condition_variable × Bool)
  | [], s, lock_held => some (s, lock_held)
  | rounds :: rest, s, lock_held =>
    match s.do_wait rounds lock_held with
    | none => none
    | some r => if r.woken then timed_waits rest r.cv r.frame.lock_held else none

end basic_condition_variable

/-- The values of `pred()` and the interference of the waits in a script whose calls of
`pred()` all give `false`. -/
def pred_false (waits : List (List interference)) : List (Bool × List interference) :=
  waits.map fun rounds => (false, rounds)

/-! ## Properties -/

namespace basic_condition_variable

@[simp] theorem generations_zero (s : basic_condition_variable) :
    s.generations 0 = s.generations_0 := rfl

@[simp] theorem generations_one (s : basic_condition_variable) :
    s.generations 1 = s.generations_1 := rfl

@[simp] theorem generations_two (s : basic_condition_variable) :
    s.generations 2 = s.generations_2 := rfl

theorem generations_outside (s : basic_condition_variable) (i : Nat) (h : 3 ≤ i) :
    s.generations i = list_entry.fresh := by
  rcases i with _ | _ | _ | i
  · omega
  · omega
  · omega
  · rfl

theorem set_generation_generations_0 (s : basic_condition_variable) (i : Nat)
    (e : list_entry) :
    (s.set_generation i e).generations_0 = if i = 0 then e else s.generations_0 := by
  rcases i with _ | _ | _ | i <;> simp [set_generation]

theorem set_generation_generations_1 (s : basic_condition_variable) (i : Nat)
    (e : list_entry) :
    (s.set_generation i e).generations_1 = if i = 1 then e else s.generations_1 := by
  rcases i with _ | _ | _ | i <;> simp [set_generation]

theorem set_generation_generations_2 (s : basic_condition_variable) (i : Nat)
    (e : list_entry) :
    (s.set_generation i e).generations_2 = if i = 2 then e else s.generations_2 := by
  rcases i with _ | _ | _ | i <;> simp [set_generation]

theorem entry_at_ite (a b c e : list_entry) (g i : Nat) :
    entry_at (if g = 0 then e else a) (if g = 1 then e else b) (if g = 2 then e else c) i =
      if g = i ∧ g < 3 then e else entry_at a b c i := by
  rcases g with _ | _ | _ | g <;> rcases i with _ | _ | _ | i <;> simp [entry_at]
  rw [if_neg (by omega)]

@[simp] theorem set_generation_total_count (s : basic_condition_variable) (i : Nat)
    (e : list_entry) : (s.set_generation i e).total_count = s.total_count := by
  rcases i with _ | _ | _ | i <;> rfl

@[simp] theorem set_generation_active (s : basic_condition_variable) (i : Nat)
    (e : list_entry) :
    (s.set_generation i e).active_generation_count = s.active_generation_count := by
  rcases i with _ | _ | _ | i <;> rfl

@[simp] theorem set_generation_wake_sem (s : basic_condition_variable) (i : Nat)
    (e : list_entry) : (s.set_generation i e).wake_sem = s.wake_sem := by
  rcases i with _ | _ | _ | i <;> rfl

@[simp] theorem set_generation_permits (s : basic_condition_variable) (i : Nat)
    (e : list_entry) : (s.set_generation i e).permits = s.permits := by
  rcases i with _ | _ | _ | i <;> rfl

@[simp] theorem set_generation_next (s : basic_condition_variable) (i : Nat)
    (e : list_entry) : (s.set_generation i e).next_semaphore = s.next_semaphore := by
  rcases i with _ | _ | _ | i <;> rfl

@[simp] theorem ReleaseSemaphore_total_count (h : handle) (n : Int)
    (s : basic_condition_variable) : (ReleaseSemaphore h n s).total_count = s.total_count := rfl

@[simp] theorem ReleaseSemaphore_active (h : handle) (n : Int) (s : basic_condition_variable) :
    (ReleaseSemaphore h n s).active_generation_count = s.active_generation_count := rfl

@[simp] theorem ReleaseSemaphore_generations (h : handle) (n : Int)
    (s : basic_condition_variable) : (ReleaseSemaphore h n s).generations = s.generations := rfl

@[simp] theorem ReleaseSemaphore_generations_0 (h : handle) (n : Int)
    (s : basic_condition_variable) :
    (ReleaseSemaphore h n s).generations_0 = s.generations_0 := rfl

@[simp] theorem ReleaseSemaphore_generations_1 (h : handle) (n : Int)
    (s : basic_condition_variable) :
    (ReleaseSemaphore h n s).generations_1 = s.generations_1 := rfl

@[simp] theorem ReleaseSemaphore_generations_2 (h : handle) (n : Int)
    (s : basic_condition_variable) :
    (ReleaseSemaphore h n s).generations_2 = s.generations_2 := rfl

@[simp] theorem ReleaseSemaphore_wake_sem (h : handle) (n : Int)
    (s : basic_condition_variable) : (ReleaseSemaphore h n s).wake_sem = s.wake_sem := rfl

@[simp] theorem ReleaseSemaphore_next (h : handle) (n : Int) (s : basic_condition_variable) :
    (ReleaseSemaphore h n s).next_semaphore = s.next_semaphore := rfl

theorem ReleaseSemaphore_permits (h : handle) (n : Int) (s : basic_condition_variable)
    (j : Nat) :
    (ReleaseSemaphore h n s).permits j = s.permits j + (if h = some j then n.toNat else 0) := by
  simp only [ReleaseSemaphore]
  split_ifs <;> simp

end basic_condition_variable

namespace basic_condition_variable

@[simp] theorem generations_mk (tc : Int) (a : Nat) (e0 e1 e2 : list_entry) (w : handle)
    (p : Nat → Nat) (n i : Nat) :
    (basic_condition_variable.mk tc a e0 e1 e2 w p n).generations i = entry_at e0 e1 e2 i := rfl

theorem generations_eq_entry_at (s : basic_condition_variable) (i : Nat) :
    s.generations i = entry_at s.generations_0 s.generations_1 s.generations_2 i := rfl

theorem notify_one_body_empty (s : basic_condition_variable) (g : Nat)
    (h : (s.generations g).count = 0) : notify_one_body s g = s := by
  simp [notify_one_body, h]

theorem notify_one_body_generations (s : basic_condition_variable) (g i : Nat) :
    (notify_one_body s g).generations i =
      if g = i ∧ g < 3 ∧ (s.generations g).count ≠ 0 then
        (if (s.generations g).count - 1 = 0 then
          dispose_entry { s.generations g with notified := true,
                                               count := (s.generations g).count - 1 }
         else { s.generations g with notified := true, count := (s.generations g).count - 1 })
      else s.generations i := by
  by_cases hg : g < 3
  · by_cases hi : i < 3
    · obtain ⟨tc, agc, e0, e1, e2, w, p, nx⟩ := s
      have h3 : g = 0 ∨ g = 1 ∨ g = 2 := by omega
      have h4 : i = 0 ∨ i = 1 ∨ i = 2 := by omega
      rcases h3 with h3 | h3 | h3 <;> rcases h4 with h4 | h4 | h4 <;> subst h3 <;> subst h4 <;>
        simp only [notify_one_body, generations, entry_at, set_generation, ReleaseSemaphore] <;>
        split_ifs <;> first | rfl | omega | (exfalso; omega) | (simp_all; done) | (simp_all; omega)
    · rw [generations_outside _ i (by omega), generations_outside _ i (by omega),
        if_neg (by omega)]
  · rw [notify_one_body_empty s g (by rw [generations_outside s g (by omega)]; rfl)]
    simp [hg]

theorem notify_one_body_other (s : basic_condition_variable) (g i : Nat) (h : i ≠ g) :
    (notify_one_body s g).generations i = s.generations i := by
  have hg : ¬ g = i := fun e => h e.symm
  rw [notify_one_body_generations]
  simp [hg]

theorem notify_one_body_count (s : basic_condition_variable) (g : Nat)
    (h : (s.generations g).count ≠ 0) :
    ((notify_one_body s g).generations g).count = (s.generations g).count - 1 := by
  have hg : g < 3 := by
    by_contra hc
    exact h (by rw [generations_outside s g (by omega)]; rfl)
  rw [notify_one_body_generations]
  simp only [hg, h, true_and, ne_eq, not_false_eq_true, and_self, if_true]
  split_ifs
  · simp only [dispose_entry]
    split_ifs <;> rfl
  · rfl

theorem notify_one_body_total_count (s : basic_condition_variable) (g : Nat) :
    (notify_one_body s g).total_count =
      s.total_count - (if (s.generations g).count ≠ 0 then 1 else 0) := by
  unfold notify_one_body
  simp only []
  split_ifs <;> simp

theorem notify_one_body_wake_sem (s : basic_condition_variable) (g : Nat) :
    (notify_one_body s g).wake_sem = s.wake_sem := by
  unfold notify_one_body
  simp only []
  split_ifs <;> simp

theorem notify_one_body_permits (s : basic_condition_variable) (g j : Nat) :
    (notify_one_body s g).permits j = s.permits j +
      (if (s.generations g).count ≠ 0 ∧ (s.generations g).semaphore = some j then 1 else 0) := by
  unfold notify_one_body
  simp only []
  split_ifs <;> simp_all [ReleaseSemaphore_permits]

theorem nonempty_below_congr (s t : basic_condition_variable) (n : Nat)
    (h : ∀ i, i < n → t.generations i = s.generations i) :
    nonempty_below t n = nonempty_below s n := by
  induction n with
  | zero => rfl
  | succ n ih =>
    simp only [nonempty_below]
    rw [ih (fun i hi => h i (by omega)), h n (by omega)]

theorem nonempty_on_below_congr (s t : basic_condition_variable) (j n : Nat)
    (h : ∀ i, i < n → t.generations i = s.generations i) :
    nonempty_on_below t j n = nonempty_on_below s j n := by
  induction n with
  | zero => rfl
  | succ n ih =>
    simp only [nonempty_on_below]
    rw [ih (fun i hi => h i (by omega)), h n (by omega)]

theorem notify_one_loop_spec (n : Nat) : ∀ s : basic_condition_variable,
    (∀ i, n ≤ i → (notify_one_loop s n).generations i = s.generations i) ∧
    (∀ i, i < n → (s.generations i).count ≠ 0 →
      ((notify_one_loop s n).generations i).count = (s.generations i).count - 1) ∧
    (∀ i, i < n → (s.generations i).count = 0 →
      (notify_one_loop s n).generations i = s.generations i) ∧
    (notify_one_loop s n).total_count = s.total_count - (nonempty_below s n : Nat) ∧
    (∀ j, (notify_one_loop s n).permits j = s.permits j + nonempty_on_below s j n) ∧
    (notify_one_loop s n).wake_sem = s.wake_sem := by
  induction n with
  | zero =>
    intro s
    simp [notify_one_loop, nonempty_below, nonempty_on_below]
  | succ n ih =>
    intro s
    obtain ⟨h1, h2, h3, h4, h5, h6⟩ := ih (notify_one_body s n)
    have hother : ∀ i, i < n → (notify_one_body s n).generations i = s.generations i :=
      fun i hi => notify_one_body_other s n i (by omega)
    simp only [notify_one_loop]
    refine ⟨?_, ?_, ?_, ?_, ?_, ?_⟩
    · intro i hi
      rw [h1 i (by omega), notify_one_body_other s n i (by omega)]
    · intro i hi hc
      by_cases hin : i = n
      · subst hin
        rw [h1 i (le_refl i), notify_one_body_count s i hc]
      · have hlt : i < n := by omega
        rw [← hother i hlt] at hc ⊢
        exact h2 i hlt hc
    · intro i hi hc
      by_cases hin : i = n
      · subst hin
        rw [h1 i (le_refl i), notify_one_body_empty s i hc]
      · have hlt : i < n := by omega
        rw [← hother i hlt] at hc ⊢
        exact h3 i hlt hc
    · rw [h4, notify_one_body_total_count, nonempty_below_congr s _ n hother]
      simp only [nonempty_below]
      split_ifs <;> push_cast <;> ring
    · intro j
      rw [h5 j, notify_one_body_permits, nonempty_on_below_congr s _ j n hother]
      simp only [nonempty_on_below]
      ring
    · rw [h6, notify_one_body_wake_sem]

end basic_condition_variable

/-- C1, as the code has it: in a state with `total_count != 0` (and
`active_generation_count ≤ generation_count`, so that the loop stays inside the array),
`notify_one` takes one waiter
from every active bucket that has waiters, not from the oldest one only: the count of each
such bucket drops by 1, every bucket that is inactive or empty is left as it is (count,
notified flag and semaphore handle), `total_count` drops by the number of active buckets with
waiters, each kernel semaphore receives one permit for each such bucket whose handle refers
to it and one more if it is the wake semaphore, whose handle does not change. -/
theorem notify_one_hits_every_active_bucket (s : basic_condition_variable)
    (h_total : s.total_count ≠ 0) (_h_active : s.active_generation_count ≤ generation_count) :
    (∀ i, i < generation_count → s.hit i = true →
      (s.notify_one.generations i).count = (s.generations i).count - 1) ∧
    (∀ i, i < generation_count → s.hit i = false →
      s.notify_one.generations i = s.generations i) ∧
    s.notify_one.total_count =
      s.total_count - (basic_condition_variable.nonempty_below s s.active_generation_count : Nat) ∧
    (∀ j, s.notify_one.permits j =
      s.permits j + basic_condition_variable.nonempty_on_below s j s.active_generation_count +
        (if s.wake_sem = some j then 1 else 0)) ∧
    s.notify_one.wake_sem = s.wake_sem := by
  have hn : s.notify_one =
      basic_condition_variable.notify_one_loop
        (basic_condition_variable.ReleaseSemaphore s.wake_sem 1 s) s.active_generation_count := by
    simp [basic_condition_variable.notify_one, h_total]
  obtain ⟨h1, h2, h3, h4, h5, h6⟩ :=
    basic_condition_variable.notify_one_loop_spec s.active_generation_count
      (basic_condition_variable.ReleaseSemaphore s.wake_sem 1 s)
  have hc : ∀ n, basic_condition_variable.nonempty_below
      (basic_condition_variable.ReleaseSemaphore s.wake_sem 1 s) n =
        basic_condition_variable.nonempty_below s n :=
    fun n => basic_condition_variable.nonempty_below_congr s _ n (fun _ _ => rfl)
  have hd : ∀ j n, basic_condition_variable.nonempty_on_below
      (basic_condition_variable.ReleaseSemaphore s.wake_sem 1 s) j n =
        basic_condition_variable.nonempty_on_below s j n :=
    fun j n => basic_condition_variable.nonempty_on_below_congr s _ j n (fun _ _ => rfl)
  rw [hn]
  refine ⟨?_, ?_, ?_, ?_, ?_⟩
  · intro i _ hi
    simp only [basic_condition_variable.hit, Bool.and_eq_true, decide_eq_true_eq] at hi
    exact h2 i hi.1 hi.2
  · intro i _ hi
    simp only [basic_condition_variable.hit, Bool.and_eq_false_iff, decide_eq_false_iff_not,
      not_not] at hi
    rcases hi with hi | hi
    · exact h1 i (by omega)
    · by_cases hlt : i < s.active_generation_count
      · exact h3 i hlt hi
      · exact h1 i (by omega)
  · rw [h4, hc]
    rfl
  · intro j
    rw [h5 j, hd, basic_condition_variable.ReleaseSemaphore_permits]
    simp only [Int.toNat_one]
    split_ifs <;> omega
  · rw [h6]
    rfl

/-- C1, witness: the theorem at the condition variable with one waiter, enrolled from the
freshly constructed state. -/
theorem notify_one_hits_every_active_bucket_witness :
    ((basic_condition_variable.construct.enroll (do_wait_frame.enter true)).1.notify_one.generations
        0).count = 0 ∧
    (basic_condition_variable.construct.enroll (do_wait_frame.enter true)).1.notify_one.total_count
      = 0 := by
  have h := notify_one_hits_every_active_bucket
    (basic_condition_variable.construct.enroll (do_wait_frame.enter true)).1
    (by decide) (by decide)
  refine ⟨?_, ?_⟩
  · rw [h.1 0 (by decide) (by decide)]
    decide
  · rw [h.2.2.1]
    decide

/-- C1, counterexample: after two waiters, a `notify_one` and a third waiter, buckets 0 and 1
are both active with one waiter each; the next `notify_one` does not stop at bucket 1, the
oldest: it takes the waiter of bucket 0 as well and `total_count` drops by 2. -/
theorem notify_one_oldest_only_counterexample :
    ∃ y, system.start.run [action.wait, action.wait, action.notify_one, action.wait] = some y ∧
      y.cv.total_count = 2 ∧ y.cv.active_generation_count = 2 ∧
      (y.cv.generations 1).count = 1 ∧ (y.cv.generations 0).count = 1 ∧
      (y.cv.notify_one.generations 1).count = 0 ∧
      (y.cv.notify_one.generations 0).count = 0 ∧
      y.cv.notify_one.generations 0 ≠ y.cv.generations 0 ∧
      y.cv.notify_one.total_count = 0 :=
  ⟨_, rfl, by decide, by decide, by decide, by decide, by decide, by decide, by decide,
    by decide⟩

/-- C3: with `total_count = 0`, `notify_one` and `notify_all` return the state they were given,
unchanged in every component (table, counters, wake semaphore and all permits). -/
theorem notify_without_waiters (s : basic_condition_variable) (h : s.total_count = 0) :
    s.notify_one = s ∧ s.notify_all = s := by
  simp [basic_condition_variable.notify_one, basic_condition_variable.notify_all, h]

/-- C3, witness: a notify on the freshly constructed condition variable. -/
theorem notify_without_waiters_witness :
    basic_condition_variable.construct.notify_one = basic_condition_variable.construct ∧
    basic_condition_variable.construct.notify_all = basic_condition_variable.construct :=
  notify_without_waiters basic_condition_variable.construct rfl

namespace basic_condition_variable

theorem enroll_trace (s : basic_condition_variable) (f : do_wait_frame) :
    (enroll s f).2.trace = f.trace ++ enroll_events f.first_loop := by
  cases hf : f.first_loop <;>
    simp [enroll, enroll_events, do_wait_frame.log, do_wait_frame.relocker_unlock, hf]

theorem enroll_first_loop (s : basic_condition_variable) (f : do_wait_frame) :
    (enroll s f).2.first_loop = false := by
  cases hf : f.first_loop <;>
    simp [enroll, do_wait_frame.log, do_wait_frame.relocker_unlock, hf]

theorem enroll_woken (s : basic_condition_variable) (f : do_wait_frame) :
    (enroll s f).2.woken = f.woken := by
  cases hf : f.first_loop <;>
    simp [enroll, do_wait_frame.log, do_wait_frame.relocker_unlock, hf]

theorem enroll_unlocked (s : basic_condition_variable) (f : do_wait_frame) :
    (enroll s f).2.unlocked = (f.first_loop || f.unlocked) := by
  cases hf : f.first_loop <;>
    simp [enroll, do_wait_frame.log, do_wait_frame.relocker_unlock, hf]

theorem enroll_lock_held (s : basic_condition_variable) (f : do_wait_frame) :
    (enroll s f).2.lock_held = (!f.first_loop && f.lock_held) := by
  cases hf : f.first_loop <;>
    simp [enroll, do_wait_frame.log, do_wait_frame.relocker_unlock, hf]

theorem enroll_sem (s : basic_condition_variable) (f : do_wait_frame) :
    (enroll s f).2.sem ≠ none := by
  cases hf : f.first_loop <;>
    simp only [enroll, do_wait_frame.log, do_wait_frame.relocker_unlock, hf] <;>
    split_ifs <;>
    simp_all [create_anonymous_semaphore, set_generation_generations_0,
      generations_eq_entry_at, entry_at]

theorem enroll_local_wake_sem (s : basic_condition_variable) (f : do_wait_frame)
    (h : f.first_loop = false → f.local_wake_sem ≠ none) :
    (enroll s f).2.local_wake_sem ≠ none := by
  cases hf : f.first_loop
  · simpa [enroll, do_wait_frame.log, do_wait_frame.relocker_unlock, hf] using h hf
  · simp only [enroll, do_wait_frame.log, do_wait_frame.relocker_unlock, hf]
    split_ifs <;> simp_all [create_anonymous_semaphore]

end basic_condition_variable

namespace basic_condition_variable

theorem bucket_wait_frame (s : basic_condition_variable) (f : do_wait_frame) :
    (bucket_wait s f).2.2 = f.log (event.bucket_wait (bucket_wait s f).1) := rfl

theorem wake_poll_frame (s : basic_condition_variable) (f : do_wait_frame) :
    (wake_poll s f).2 =
      { f.log (event.wake_poll (wake_poll s f).2.woken) with woken := (wake_poll s f).2.woken } :=
  rfl

theorem do_wait_loop_woken (rounds : List interference) (s : basic_condition_variable)
    (f : do_wait_frame) (h : f.woken = true) : do_wait_loop rounds s f = some (s, f) := by
  cases rounds <;> simp [do_wait_loop, h]

theorem do_wait_loop_spec (rounds : List interference) :
    ∀ (s : basic_condition_variable) (f : do_wait_frame)
      (sf : basic_condition_variable × do_wait_frame),
      f.woken = false → do_wait_loop rounds s f = some sf →
      ∃ stale, sf.2.trace = f.trace ++ iteration_events f.first_loop stale sf.2.woken ∧
        sf.2.unlocked = (f.first_loop || f.unlocked) ∧
        sf.2.lock_held = (!f.first_loop && f.lock_held) := by
  induction rounds with
  | nil =>
    intro s f sf hw h
    simp [do_wait_loop, hw] at h
  | cons r rest ih =>
    intro s f sf hw h
    simp only [do_wait_loop, hw, Bool.false_eq_true, if_false] at h
    by_cases hb : (bucket_wait (r.blocked (enroll (r.entering s) f).1)
        (enroll (r.entering s) f).2).1 = false
    · rw [if_pos hb] at h
      have hsf := (Option.some.inj h).symm
      refine ⟨0, ?_, ?_, ?_⟩
      · rw [hsf, bucket_wait_frame, hb]
        simp [do_wait_frame.log, enroll_trace, enroll_woken, hw, iteration_events]
      · rw [hsf, bucket_wait_frame]
        simp [do_wait_frame.log, enroll_unlocked]
      · rw [hsf, bucket_wait_frame]
        simp [do_wait_frame.log, enroll_lock_held]
    · rw [if_neg hb] at h
      have hb1 : (bucket_wait (r.blocked (enroll (r.entering s) f).1)
          (enroll (r.entering s) f).2).1 = true := by
        simpa using hb
      generalize hp : wake_poll
        (r.polling (bucket_wait (r.blocked (enroll (r.entering s) f).1)
          (enroll (r.entering s) f).2).2.1)
        (bucket_wait (r.blocked (enroll (r.entering s) f).1)
          (enroll (r.entering s) f).2).2.2 = p at h
      have hpf := wake_poll_frame
        (r.polling (bucket_wait (r.blocked (enroll (r.entering s) f).1)
          (enroll (r.entering s) f).2).2.1)
        (bucket_wait (r.blocked (enroll (r.entering s) f).1)
          (enroll (r.entering s) f).2).2.2
      rw [hp, bucket_wait_frame, hb1] at hpf
      cases hpw : p.2.woken
      · obtain ⟨stale, h1, h2, h3⟩ := ih p.1 p.2 sf hpw h
        refine ⟨stale + 1, ?_, ?_, ?_⟩
        · rw [h1, hpf, hpw]
          simp [do_wait_frame.log, enroll_trace, enroll_first_loop, iteration_events]
        · rw [h2, hpf]
          simp [do_wait_frame.log, enroll_unlocked, enroll_first_loop]
        · rw [h3, hpf]
          simp [do_wait_frame.log, enroll_lock_held, enroll_first_loop]
      · rw [do_wait_loop_woken rest p.1 p.2 hpw] at h
        have hsf := (Option.some.inj h).symm
        refine ⟨0, ?_, ?_, ?_⟩
        · rw [hsf]
          simp only []
          rw [hpw, hpf, hpw]
          simp [do_wait_frame.log, enroll_trace, iteration_events]
        · rw [hsf]
          simp only []
          rw [hpf]
          simp [do_wait_frame.log, enroll_unlocked]
        · rw [hsf]
          simp only []
          rw [hpf]
          simp [do_wait_frame.log, enroll_lock_held]

theorem do_wait_spec (rounds : List interference) (s : basic_condition_variable)
    (lock_held : Bool) (r : do_wait_result) (h : s.do_wait rounds lock_held = some r) :
    r.woken = r.frame.woken ∧ r.frame.lock_held = true ∧ r.frame.unlocked = true ∧
    ∃ stale, r.frame.trace = do_wait_events stale r.woken := by
  unfold do_wait at h
  cases hl : do_wait_loop rounds s (do_wait_frame.enter lock_held) with
  | none => simp [hl] at h
  | some sf =>
    obtain ⟨stale, h1, h2, h3⟩ := do_wait_loop_spec rounds s _ sf rfl hl
    simp only [hl] at h
    have hr := (Option.some.inj h).symm
    have hu : sf.2.unlocked = true := by simpa [do_wait_frame.enter] using h2
    rw [hr]
    refine ⟨?_, ?_, ?_, stale, ?_⟩ <;>
      simp [do_wait_frame.relocker_destroy, hu, do_wait_frame.log, h1, do_wait_frame.enter,
        do_wait_events]

end basic_condition_variable

theorem cons_eq_append_cons {α : Type} (e x : α) (l pre post : List α)
    (h : e :: l = pre ++ x :: post) (hne : e ≠ x) :
    ∃ rest, pre = e :: rest ∧ l = rest ++ x :: post := by
  cases pre with
  | nil =>
    simp only [List.nil_append, List.cons.injEq] at h
    exact absurd h.1 hne
  | cons p rest =>
    simp only [List.cons_append, List.cons.injEq] at h
    exact ⟨rest, by rw [h.1], h.2⟩

theorem enroll_events_false_count :
    (enroll_events false).count event.external_unlock = 0 ∧
    (enroll_events false).count event.external_lock = 0 := by
  decide

theorem iteration_events_start (first_loop : Bool) (stale : Nat) (woken : Bool) :
    ∃ b rest, iteration_events first_loop stale woken =
      enroll_events first_loop ++ event.bucket_wait b :: rest := by
  cases stale with
  | zero =>
    cases woken
    · exact ⟨false, [], rfl⟩
    · exact ⟨true, [event.wake_poll true], rfl⟩
  | succ n =>
    exact ⟨true, event.wake_poll false :: iteration_events false n woken, by
      simp [iteration_events]⟩

theorem iteration_events_suffix (first_loop : Bool) (stale : Nat) (woken : Bool) :
    (if woken then [event.bucket_wait true, event.wake_poll true, event.external_lock]
      else [event.bucket_wait false, event.external_lock]) <:+
      iteration_events first_loop stale woken ++ [event.external_lock] := by
  induction stale generalizing first_loop with
  | zero =>
    cases woken
    · exact ⟨enroll_events first_loop, by simp [iteration_events]⟩
    · exact ⟨enroll_events first_loop, by simp [iteration_events]⟩
  | succ n ih =>
    obtain ⟨t, ht⟩ := ih false
    refine ⟨enroll_events first_loop ++ [event.bucket_wait true, event.wake_poll false] ++ t, ?_⟩
    simp only [iteration_events, List.append_assoc]
    rw [← ht]

theorem iteration_events_stale (stale : Nat) :
    ∀ (first_loop woken : Bool) (pre post : List event),
      iteration_events first_loop stale woken ++ [event.external_lock] =
        pre ++ event.wake_poll false :: post →
      ∃ b rest, post = enroll_events false ++ event.bucket_wait b :: rest := by
  induction stale with
  | zero =>
    intro first_loop woken pre post h
    exfalso
    have hm : event.wake_poll false ∈
        iteration_events first_loop 0 woken ++ [event.external_lock] := by
      rw [h]
      simp
    revert hm
    cases first_loop <;> cases woken <;> decide
  | succ n ih =>
    intro first_loop woken pre post h
    have key : ∀ pre1, event.bucket_wait true :: event.wake_poll false ::
        (iteration_events false n woken ++ [event.external_lock]) =
          pre1 ++ event.wake_poll false :: post →
        ∃ b rest, post = enroll_events false ++ event.bucket_wait b :: rest := by
      intro pre1 h1
      obtain ⟨p2, _, h2⟩ := cons_eq_append_cons _ _ _ _ _ h1 (by decide)
      cases p2 with
      | nil =>
        simp only [List.nil_append, List.cons.injEq, true_and] at h2
        obtain ⟨b, rest, hr⟩ := iteration_events_start false n woken
        exact ⟨b, rest ++ [event.external_lock], by rw [← h2, hr]; simp⟩
      | cons q p3 =>
        simp only [List.cons_append, List.cons.injEq] at h2
        exact ih false woken p3 post h2.2
    cases first_loop
    · simp only [iteration_events, enroll_events, Bool.false_eq_true, if_false,
        List.cons_append, List.nil_append, List.append_assoc] at h
      obtain ⟨p1, _, h1⟩ := cons_eq_append_cons _ _ _ _ _ h (by decide)
      obtain ⟨p2, _, h2⟩ := cons_eq_append_cons _ _ _ _ _ h1 (by decide)
      obtain ⟨p3, _, h3⟩ := cons_eq_append_cons _ _ _ _ _ h2 (by decide)
      obtain ⟨p4, _, h4⟩ := cons_eq_append_cons _ _ _ _ _ h3 (by decide)
      exact key p4 h4
    · simp only [iteration_events, enroll_events, if_true,
        List.cons_append, List.nil_append, List.append_assoc] at h
      obtain ⟨p1, _, h1⟩ := cons_eq_append_cons _ _ _ _ _ h (by decide)
      obtain ⟨p2, _, h2⟩ := cons_eq_append_cons _ _ _ _ _ h1 (by decide)
      obtain ⟨p3, _, h3⟩ := cons_eq_append_cons _ _ _ _ _ h2 (by decide)
      obtain ⟨p4, _, h4⟩ := cons_eq_append_cons _ _ _ _ _ h3 (by decide)
      obtain ⟨p5, _, h5⟩ := cons_eq_append_cons _ _ _ _ _ h4 (by decide)
      exact key p5 h5

namespace basic_condition_variable

theorem bucket_wait_drained (s : basic_condition_variable) (f : do_wait_frame) :
    (bucket_wait (interference.timing_out.blocked s) f).1 = false := by
  simp only [bucket_wait, WaitForSingleObject, interference.timing_out]
  cases f.sem <;> simp

theorem wake_poll_granted (s : basic_condition_variable) (f : do_wait_frame)
    (h : f.local_wake_sem ≠ none) : (wake_poll (interference.waking.polling s) f).2.woken = true := by
  simp only [wake_poll, WaitForSingleObject, interference.waking]
  cases hs : f.local_wake_sem with
  | none => exact absurd hs h
  | some i => simp

theorem do_wait_loop_timing_out (rounds : List interference) :
    ∀ (s : basic_condition_variable) (f : do_wait_frame),
      (do_wait_loop (rounds ++ [interference.timing_out]) s f).isSome = true := by
  induction rounds with
  | nil =>
    intro s f
    simp only [List.nil_append, do_wait_loop]
    split_ifs with h1 h2 h3
    · rfl
    · rfl
    · rfl
    · exact absurd (bucket_wait_drained _ _) h2
  | cons r rest ih =>
    intro s f
    simp only [List.cons_append, do_wait_loop]
    split_ifs with h1 h2
    · rfl
    · rfl
    · exact ih _ _

theorem do_wait_loop_waking (rounds : List interference) :
    ∀ (s : basic_condition_variable) (f : do_wait_frame),
      (f.first_loop = false → f.local_wake_sem ≠ none) →
      (do_wait_loop (rounds ++ [interference.waking]) s f).isSome = true := by
  induction rounds with
  | nil =>
    intro s f hf
    simp only [List.nil_append, do_wait_loop]
    split_ifs with h1 h2 h3
    · rfl
    · rfl
    · rfl
    · exfalso
      apply h3
      apply wake_poll_granted
      rw [bucket_wait_frame]
      exact enroll_local_wake_sem _ _ hf
  | cons r rest ih =>
    intro s f hf
    simp only [List.cons_append, do_wait_loop]
    split_ifs with h1 h2
    · rfl
    · rfl
    · apply ih
      intro _
      rw [wake_poll_frame, bucket_wait_frame]
      exact enroll_local_wake_sem _ _ hf

theorem do_wait_returns (rounds : List interference) (s : basic_condition_variable)
    (lock_held : Bool) :
    (s.do_wait (rounds ++ [interference.timing_out]) lock_held).isSome = true ∧
    (s.do_wait (rounds ++ [interference.waking]) lock_held).isSome = true := by
  constructor
  · have h := do_wait_loop_timing_out rounds s (do_wait_frame.enter lock_held)
    unfold do_wait
    cases hl : do_wait_loop (rounds ++ [interference.timing_out]) s
      (do_wait_frame.enter lock_held) with
    | none => simp [hl] at h
    | some sf => rfl
  · have h := do_wait_loop_waking rounds s (do_wait_frame.enter lock_held)
      (by simp [do_wait_frame.enter])
    unfold do_wait
    cases hl : do_wait_loop (rounds ++ [interference.waking]) s
      (do_wait_frame.enter lock_held) with
    | none => simp [hl] at h
    | some sf => rfl

end basic_condition_variable

theorem wait_pred_calls_last (k : Nat) :
    (wait_pred_calls k).getLast? = some (call_event.pred true) := by
  induction k with
  | zero => rfl
  | succ n ih =>
    cases h : wait_pred_calls n with
    | nil => simp [h] at ih
    | cons a l =>
      rw [h] at ih
      simpa [wait_pred_calls, h, List.getLast?_cons_cons] using ih

theorem timed_wait_pred_calls_last (k : Nat) (value : Bool) :
    (timed_wait_pred_calls k value).getLast? =
      some (if value then call_event.pred true else call_event.timed_wait false) := by
  induction k with
  | zero => cases value <;> rfl
  | succ n ih =>
    cases h : timed_wait_pred_calls n value with
    | nil => simp [h] at ih
    | cons a l =>
      rw [h] at ih
      simpa [timed_wait_pred_calls, h, List.getLast?_cons_cons] using ih

theorem timed_wait_pred_calls_suffix (k : Nat) :
    [call_event.pred false, call_event.timed_wait false] <:+ timed_wait_pred_calls k false := by
  induction k with
  | zero => exact ⟨[], rfl⟩
  | succ n ih =>
    obtain ⟨t, ht⟩ := ih
    exact ⟨call_event.pred false :: call_event.timed_wait true :: t, by
      simp [timed_wait_pred_calls, ← ht]⟩

theorem suffix_last (a b : call_event) (l : List call_event) (h : [a, b] <:+ l) :
    l.getLast? = some b := by
  obtain ⟨p, hp⟩ := h
  rw [← hp]
  simp

namespace condition_variable

theorem wait_pred_spec (script : List (Bool × List interference)) :
    ∀ (s : basic_condition_variable) (lock_held : Bool) (w : wait_result),
      wait_pred script s lock_held = some w → ∃ k, w.calls = wait_pred_calls k := by
  induction script with
  | nil =>
    intro s lock_held w h
    simp [wait_pred] at h
  | cons c rest ih =>
    intro s lock_held w h
    obtain ⟨p, rounds⟩ := c
    cases p with
    | true =>
      simp only [wait_pred, Bool.not_true, Bool.false_eq_true, if_false,
        Option.some.injEq] at h
      exact ⟨0, by rw [← h]; rfl⟩
    | false =>
      simp only [wait_pred, Bool.not_false, if_true] at h
      cases hw : wait rounds s lock_held with
      | none => simp [hw] at h
      | some r =>
        simp only [hw, Option.map_eq_some'] at h
        obtain ⟨w1, h1, h2⟩ := h
        obtain ⟨k, hk⟩ := ih r.1 r.2 w1 h1
        exact ⟨k + 1, by rw [← h2]; simp [wait_result.after, hk, wait_pred_calls]⟩

theorem timed_wait_pred_spec (script : List (Bool × List interference)) :
    ∀ (s : basic_condition_variable) (lock_held : Bool) (w : wait_result),
      timed_wait_pred script s lock_held = some w →
      ∃ k, w.calls = timed_wait_pred_calls k w.value := by
  induction script with
  | nil =>
    intro s lock_held w h
    simp [timed_wait_pred] at h
  | cons c rest ih =>
    intro s lock_held w h
    obtain ⟨p, rounds⟩ := c
    cases p with
    | true =>
      simp only [timed_wait_pred, Bool.not_true, Bool.false_eq_true, if_false,
        Option.some.injEq] at h
      exact ⟨0, by rw [← h]; rfl⟩
    | false =>
      simp only [timed_wait_pred, Bool.not_false, if_true] at h
      cases hw : timed_wait rounds s lock_held with
      | none => simp [hw] at h
      | some r =>
        simp only [hw] at h
        cases hr : r.woken with
        | false =>
          simp only [hr, Bool.not_false, if_true, Option.some.injEq] at h
          exact ⟨0, by rw [← h]; rfl⟩
        | true =>
          simp only [hr, Bool.not_true, Bool.false_eq_true, if_false,
            Option.map_eq_some'] at h
          obtain ⟨w1, h1, h2⟩ := h
          obtain ⟨k, hk⟩ := ih r.cv r.frame.lock_held w1 h1
          exact ⟨k + 1, by rw [← h2]; simp [wait_result.after, hk, timed_wait_pred_calls]⟩

end condition_variable

namespace condition_variable_any

theorem wait_pred_any_spec (script : List (Bool × List interference)) :
    ∀ (s : basic_condition_variable) (lock_held : Bool) (w : wait_result),
      wait_pred script s lock_held = some w → ∃ k, w.calls = wait_pred_calls k := by
  induction script with
  | nil =>
    intro s lock_held w h
    simp [wait_pred] at h
  | cons c rest ih =>
    intro s lock_held w h
    obtain ⟨p, rounds⟩ := c
    cases p with
    | true =>
      simp only [wait_pred, Bool.not_true, Bool.false_eq_true, if_false,
        Option.some.injEq] at h
      exact ⟨0, by rw [← h]; rfl⟩
    | false =>
      simp only [wait_pred, Bool.not_false, if_true] at h
      cases hw : wait rounds s lock_held with
      | none => simp [hw] at h
      | some r =>
        simp only [hw, Option.map_eq_some'] at h
        obtain ⟨w1, h1, h2⟩ := h
        obtain ⟨k, hk⟩ := ih r.1 r.2 w1 h1
        exact ⟨k + 1, by rw [← h2]; simp [wait_result.after, hk, wait_pred_calls]⟩

theorem timed_wait_pred_any_spec (script : List (Bool × List interference)) :
    ∀ (s : basic_condition_variable) (lock_held : Bool) (w : wait_result),
      timed_wait_pred script s lock_held = some w →
      ∃ k, w.calls = timed_wait_pred_calls k w.value := by
  induction script with
  | nil =>
    intro s lock_held w h
    simp [timed_wait_pred] at h
  | cons c rest ih =>
    intro s lock_held w h
    obtain ⟨p, rounds⟩ := c
    cases p with
    | true =>
      simp only [timed_wait_pred, Bool.not_true, Bool.false_eq_true, if_false,
        Option.some.injEq] at h
      exact ⟨0, by rw [← h]; rfl⟩
    | false =>
      simp only [timed_wait_pred, Bool.not_false, if_true] at h
      cases hw : timed_wait rounds s lock_held with
      | none => simp [hw] at h
      | some r =>
        simp only [hw] at h
        cases hr : r.woken with
        | false =>
          simp only [hr, Bool.not_false, if_true, Option.some.injEq] at h
          exact ⟨0, by rw [← h]; rfl⟩
        | true =>
          simp only [hr, Bool.not_true, Bool.false_eq_true, if_false,
            Option.map_eq_some'] at h
          obtain ⟨w1, h1, h2⟩ := h
          obtain ⟨k, hk⟩ := ih r.cv r.frame.lock_held w1 h1
          exact ⟨k + 1, by rw [← h2]; simp [wait_result.after, hk, timed_wait_pred_calls]⟩

end condition_variable_any

namespace basic_condition_variable

theorem shift_one_bucket (s : basic_condition_variable) (h0 : s.generations_0.count ≠ 0)
    (h1 : s.generations_1.count = 0) (h2 : s.generations_2.count = 0) :
    shift_generations_down s =
      { s with active_generation_count := 2, generations_0 := list_entry.fresh,
               generations_1 := s.generations_0 } := by
  obtain ⟨tc, agc, e0, e1, e2, w, p, nx⟩ := s
  simp only at h0 h1 h2
  simp [shift_generations_down, remove_if, remove_if_from, no_waiters, generations, entry_at,
    set_generation, generation_count, copy_backward, h0, h1, h2]

theorem shift_two_buckets (s : basic_condition_variable) (h0 : s.generations_0.count ≠ 0)
    (h1 : s.generations_1.count ≠ 0) (h2 : s.generations_2.count = 0) :
    shift_generations_down s =
      { s with active_generation_count := 3, generations_0 := list_entry.fresh,
               generations_1 := s.generations_0, generations_2 := s.generations_1 } := by
  obtain ⟨tc, agc, e0, e1, e2, w, p, nx⟩ := s
  simp only at h0 h1 h2
  simp [shift_generations_down, remove_if, remove_if_from, no_waiters, generations, entry_at,
    set_generation, generation_count, copy_backward, h0, h1, h2]

theorem shift_two_buckets_gap (s : basic_condition_variable) (h0 : s.generations_0.count ≠ 0)
    (h1 : s.generations_1.count = 0) (h2 : s.generations_2.count ≠ 0) :
    shift_generations_down s =
      { s with active_generation_count := 3, generations_0 := list_entry.fresh,
               generations_1 := s.generations_0 } := by
  obtain ⟨tc, agc, e0, e1, e2, w, p, nx⟩ := s
  simp only at h0 h1 h2
  simp [shift_generations_down, remove_if, remove_if_from, no_waiters, generations, entry_at,
    set_generation, generation_count, copy_backward, h0, h1, h2]

theorem shift_three_buckets (s : basic_condition_variable) (h0 : s.generations_0.count ≠ 0)
    (h1 : s.generations_1.count ≠ 0) (h2 : s.generations_2.count ≠ 0)
    (ha : s.active_generation_count = 3) :
    shift_generations_down s =
      { ReleaseSemaphore s.generations_2.semaphore s.generations_2.count s with
          total_count := s.total_count - s.generations_2.count,
          generations_0 := list_entry.fresh,
          generations_1 := s.generations_0, generations_2 := s.generations_1 } := by
  obtain ⟨tc, agc, e0, e1, e2, w, p, nx⟩ := s
  simp only at h0 h1 h2 ha
  subst ha
  simp [shift_generations_down, remove_if, remove_if_from, no_waiters, generations, entry_at,
    set_generation, generation_count, copy_backward, broadcast_entry, ReleaseSemaphore, h0, h1,
    h2]

end basic_condition_variable

namespace basic_condition_variable

theorem enroll_cv (s : basic_condition_variable) (f : do_wait_frame) :
    (enroll s f).1 =
      join_generation_0
        (if f.first_loop then first_arrival { s with total_count := s.total_count + 1 }
         else { s with total_count := s.total_count + 1 }) := by
  cases hf : f.first_loop <;>
    simp [enroll, hf, join_generation_0, first_arrival, do_wait_frame.log]

theorem table_ok_construct : table_ok construct := by
  simp [table_ok, table_ok_with, entry_ok, construct, list_entry.fresh, generation_count]

theorem entry_ok_fresh : entry_ok list_entry.fresh := by
  simp [entry_ok, list_entry.fresh]

theorem entry_ok_pos (e : list_entry) (h : entry_ok e) (hc : e.count ≠ 0) : 0 < e.count := by
  have := h.1
  omega

theorem join_generation_0_table_ok (s : basic_condition_variable) (h : table_ok_with 1 s) :
    table_ok (join_generation_0 s) := by
  obtain ⟨tc, agc, ⟨m0, c0, n0⟩, e1, e2, w, p, nx⟩ := s
  obtain ⟨ha, ⟨p0, q0, r0⟩, k1, k2, ht, a1, a2, a0⟩ := h
  simp only at ha p0 q0 r0 k1 k2 ht a1 a2 a0
  have hg : (join_generation_0
      { total_count := tc, active_generation_count := agc,
        generations_0 := { semaphore := m0, count := c0, notified := n0 },
        generations_1 := e1, generations_2 := e2, wake_sem := w, permits := p,
        next_semaphore := nx }).generations_0 =
      { semaphore := if m0 = none then some nx else m0, count := c0 + 1, notified := n0 } := by
    by_cases hm : m0 = none <;>
      simp [join_generation_0, generations, entry_at, set_generation,
        create_anonymous_semaphore, hm]
  have hrest : ∀ t, t = join_generation_0
      { total_count := tc, active_generation_count := agc,
        generations_0 := { semaphore := m0, count := c0, notified := n0 },
        generations_1 := e1, generations_2 := e2, wake_sem := w, permits := p,
        next_semaphore := nx } →
      t.total_count = tc ∧ t.active_generation_count = agc ∧ t.generations_1 = e1 ∧
        t.generations_2 = e2 := by
    intro t ht
    rw [ht]
    by_cases hm : m0 = none <;>
      simp [join_generation_0, generations, entry_at, set_generation,
        create_anonymous_semaphore, hm]
  obtain ⟨h1, h2, h3, h4⟩ := hrest _ rfl
  refine ⟨?_, ?_, ?_, ?_, ?_, ?_, ?_, ?_⟩
  · rw [h2]; exact ha
  · rw [hg]
    refine ⟨by simp only; omega, ?_, ?_⟩
    · simp only
      constructor
      · intro _; omega
      · intro _
        by_cases hm : m0 = none
        · simp [hm]
        · simp [hm]
    · simp only
      intro _; omega
  · rw [h3]; exact k1
  · rw [h4]; exact k2
  · rw [h1, hg, h3, h4]; simp only; omega
  · rw [h3, h2]; exact a1
  · rw [h4, h2]; exact a2
  · rw [hg, h2]; exact a0

end basic_condition_variable

namespace basic_condition_variable

theorem table_ok_with_of_fields (d : Int) (s t : basic_condition_variable)
    (h : table_ok_with d s) (h1 : t.total_count = s.total_count)
    (h2 : t.active_generation_count = s.active_generation_count)
    (h3 : t.generations_0 = s.generations_0) (h4 : t.generations_1 = s.generations_1)
    (h5 : t.generations_2 = s.generations_2) : table_ok_with d t := by
  unfold table_ok_with at h ⊢
  rw [h1, h2, h3, h4, h5]
  exact h

theorem shift_table_ok (d : Int) (s : basic_condition_variable) (h : table_ok_with d s)
    (hn : s.generations_0.notified = true) : table_ok_with d (shift_generations_down s) := by
  obtain ⟨ha, k0, k1, k2, ht, a1, a2, a0⟩ := h
  have hc0 : 0 < s.generations_0.count := k0.2.2 hn
  have h0 : s.generations_0.count ≠ 0 := by omega
  have hf := entry_ok_fresh
  by_cases h1 : s.generations_1.count = 0
  · by_cases h2 : s.generations_2.count = 0
    · rw [shift_one_bucket s h0 h1 h2]
      refine ⟨by simp [generation_count], hf, k0, k2, ?_, ?_, ?_, ?_⟩
      · simp only [list_entry.fresh]; omega
      · intro _; exact le_refl 2
      · simp only; intro _; omega
      · simp [list_entry.fresh]
    · rw [shift_two_buckets_gap s h0 h1 h2]
      refine ⟨by simp [generation_count], hf, k0, k2, ?_, ?_, ?_, ?_⟩
      · simp only [list_entry.fresh]; omega
      · intro _; simp
      · intro _; exact le_refl 3
      · simp [list_entry.fresh]
  · by_cases h2 : s.generations_2.count = 0
    · rw [shift_two_buckets s h0 h1 h2]
      refine ⟨by simp [generation_count], hf, k0, k1, ?_, ?_, ?_, ?_⟩
      · simp only [list_entry.fresh]; omega
      · intro _; simp
      · intro _; exact le_refl 3
      · simp [list_entry.fresh]
    · have hp2 : 0 < s.generations_2.count := entry_ok_pos _ k2 h2
      have h3 : s.active_generation_count = 3 := by
        have := a2 hp2
        simp only [generation_count] at ha
        omega
      rw [shift_three_buckets s h0 h1 h2 h3]
      refine ⟨?_, hf, k0, k1, ?_, ?_, ?_, ?_⟩
      · simp only [ReleaseSemaphore_active]; exact ha
      · simp only [list_entry.fresh]; omega
      · simp only [ReleaseSemaphore_active]; intro _; omega
      · simp only [ReleaseSemaphore_active]; intro _; omega
      · simp [list_entry.fresh]

theorem first_arrival_table_ok (s : basic_condition_variable) (h : table_ok_with 1 s) :
    table_ok_with 1 (first_arrival s) := by
  have key : ∀ t : basic_condition_variable, table_ok_with 1 t →
      table_ok_with 1
        (if (t.generations 0).notified = true then shift_generations_down t
         else if t.active_generation_count = 0 then { t with active_generation_count := 1 }
         else t) := by
    intro t ht
    split_ifs with hn hz
    · exact shift_table_ok 1 t ht hn
    · obtain ⟨ha, k0, k1, k2, hs, a1, a2, a0⟩ := ht
      refine ⟨by simp [generation_count], k0, k1, k2, hs, ?_, ?_, ?_⟩
      · intro hc; have := a1 hc; omega
      · intro hc; have := a2 hc; omega
      · intro _; exact le_refl 1
    · exact ht
  unfold first_arrival
  by_cases hw : s.wake_sem = none
  · simp only [hw, if_true]
    exact key _ (table_ok_with_of_fields 1 s _ h rfl rfl rfl rfl rfl)
  · simp only [hw, if_false]
    exact key s h

theorem enroll_table_ok (s : basic_condition_variable) (f : do_wait_frame)
    (h : table_ok s) : table_ok (enroll s f).1 := by
  rw [enroll_cv]
  apply join_generation_0_table_ok
  have hb : table_ok_with 1 { s with total_count := s.total_count + 1 } := by
    obtain ⟨ha, k0, k1, k2, hs, a1, a2, a0⟩ := h
    exact ⟨ha, k0, k1, k2, by simp only; omega, a1, a2, a0⟩
  split_ifs
  · exact first_arrival_table_ok _ hb
  · exact hb

theorem WaitForSingleObject_table_ok (h : handle) (s : basic_condition_variable)
    (hs : table_ok s) : table_ok (WaitForSingleObject h s).2 := by
  unfold WaitForSingleObject
  cases h with
  | none => exact hs
  | some i =>
    simp only
    split_ifs
    · exact table_ok_with_of_fields 0 s _ hs rfl rfl rfl rfl rfl
    · exact hs

end basic_condition_variable

namespace basic_condition_variable

theorem notify_one_body_active (s : basic_condition_variable) (g : Nat) :
    (notify_one_body s g).active_generation_count = s.active_generation_count ∨
    ((s.generations g).count - 1 = 0 ∧ g + 1 = s.active_generation_count ∧
      (notify_one_body s g).active_generation_count = s.active_generation_count - 1) := by
  unfold notify_one_body
  simp only []
  split_ifs with h1 h2 h3
  · right
    simp only [set_generation_active, ReleaseSemaphore_active] at h3 ⊢
    exact ⟨h2, h3, trivial⟩
  · left
    simp
  · left
    simp
  · left
    rfl

theorem notify_one_body_hit (s : basic_condition_variable) (g : Nat) (hg : g < 3)
    (hc : (s.generations g).count ≠ 0) :
    (notify_one_body s g).generations g =
      if (s.generations g).count - 1 = 0 then
        dispose_entry { s.generations g with notified := true,
                                             count := (s.generations g).count - 1 }
      else { s.generations g with notified := true, count := (s.generations g).count - 1 } := by
  rw [notify_one_body_generations, if_pos ⟨rfl, hg, hc⟩]

theorem dispose_entry_eq (e : list_entry) :
    dispose_entry e = { semaphore := none, count := e.count, notified := false } := by
  obtain ⟨m, c, n⟩ := e
  cases m <;> simp [dispose_entry]

theorem entry_ok_notified (e : list_entry) (h : entry_ok e) (hc : e.count ≠ 0) :
    entry_ok
      (if e.count - 1 = 0 then
        dispose_entry { e with notified := true, count := e.count - 1 }
       else { e with notified := true, count := e.count - 1 }) := by
  obtain ⟨p0, q0, r0⟩ := h
  have hpos : 0 < e.count := by omega
  split_ifs with h1
  · rw [dispose_entry_eq]
    refine ⟨?_, ?_, ?_⟩
    · show 0 ≤ e.count - 1
      omega
    · show (none : handle) ≠ none ↔ 0 < e.count - 1
      constructor
      · intro hx; exact absurd rfl hx
      · intro hx; omega
    · show false = true → 0 < e.count - 1
      intro hx; exact absurd hx (by decide)
  · refine ⟨?_, ?_, ?_⟩
    · show 0 ≤ e.count - 1
      omega
    · show e.semaphore ≠ none ↔ 0 < e.count - 1
      constructor
      · intro _; omega
      · intro _; exact q0.2 hpos
    · show true = true → 0 < e.count - 1
      intro _; omega

theorem notified_entry_count (e : list_entry) :
    (if e.count - 1 = 0 then
        dispose_entry { e with notified := true, count := e.count - 1 }
      else { e with notified := true, count := e.count - 1 }).count = e.count - 1 := by
  split_ifs
  · rw [dispose_entry_eq]
  · rfl

theorem notify_one_body_table_ok (s : basic_condition_variable) (g : Nat) (h : table_ok s)
    (hg : g < s.active_generation_count) :
    table_ok (notify_one_body s g) ∧ g ≤ (notify_one_body s g).active_generation_count := by
  obtain ⟨ha, k0, k1, k2, ht, a1, a2, a0⟩ := h
  simp only [generation_count] at ha
  by_cases hc : (s.generations g).count = 0
  · rw [notify_one_body_empty s g hc]
    exact ⟨⟨ha, k0, k1, k2, ht, a1, a2, a0⟩, by omega⟩
  · have et := notify_one_body_total_count s g
    rw [if_pos hc] at et
    have hcase := notify_one_body_active s g
    have h3 : g = 0 ∨ g = 1 ∨ g = 2 := by omega
    rcases h3 with h3 | h3 | h3 <;> subst h3
    · have e0 := notify_one_body_hit s 0 (by decide) hc
      have e1 := notify_one_body_other s 0 1 (by decide)
      have e2 := notify_one_body_other s 0 2 (by decide)
      simp only [generations_zero, generations_one, generations_two] at e0 e1 e2 hc hcase
      have hk := entry_ok_notified _ k0 hc
      have hn := notified_entry_count s.generations_0
      have hpos := entry_ok_pos _ k0 hc
      rw [← e0] at hk hn
      refine ⟨⟨?_, hk, ?_, ?_, ?_, ?_, ?_, ?_⟩, by omega⟩
      · simp only [generation_count]; rcases hcase with hcase | hcase <;> omega
      · rw [e1]; exact k1
      · rw [e2]; exact k2
      · rw [et, hn, e1, e2]; omega
      · rw [e1]; intro hx; have := a1 hx; rcases hcase with hcase | hcase <;> omega
      · rw [e2]; intro hx; have := a2 hx; rcases hcase with hcase | hcase <;> omega
      · intro hx; have := hk.2.2 hx; rcases hcase with hcase | hcase <;> omega
    · have e0 := notify_one_body_other s 1 0 (by decide)
      have e1 := notify_one_body_hit s 1 (by decide) hc
      have e2 := notify_one_body_other s 1 2 (by decide)
      simp only [generations_zero, generations_one, generations_two] at e0 e1 e2 hc hcase
      have hk := entry_ok_notified _ k1 hc
      have hn := notified_entry_count s.generations_1
      have hpos := entry_ok_pos _ k1 hc
      rw [← e1] at hk hn
      refine ⟨⟨?_, ?_, hk, ?_, ?_, ?_, ?_, ?_⟩, by rcases hcase with hcase | hcase <;> omega⟩
      · simp only [generation_count]; rcases hcase with hcase | hcase <;> omega
      · rw [e0]; exact k0
      · rw [e2]; exact k2
      · rw [et, hn, e0, e2]; omega
      · rw [hn]; intro hx; rcases hcase with hcase | hcase <;> omega
      · rw [e2]; intro hx; have := a2 hx; rcases hcase with hcase | hcase <;> omega
      · rw [e0]; intro hx; rcases hcase with hcase | hcase <;> omega
    · have e0 := notify_one_body_other s 2 0 (by decide)
      have e1 := notify_one_body_other s 2 1 (by decide)
      have e2 := notify_one_body_hit s 2 (by decide) hc
      simp only [generations_zero, generations_one, generations_two] at e0 e1 e2 hc hcase
      have hk := entry_ok_notified _ k2 hc
      have hn := notified_entry_count s.generations_2
      have hpos := entry_ok_pos _ k2 hc
      rw [← e2] at hk hn
      refine ⟨⟨?_, ?_, ?_, hk, ?_, ?_, ?_, ?_⟩, by rcases hcase with hcase | hcase <;> omega⟩
      · simp only [generation_count]; rcases hcase with hcase | hcase <;> omega
      · rw [e0]; exact k0
      · rw [e1]; exact k1
      · rw [et, hn, e0, e1]; omega
      · rw [e1]; intro hx; have := a1 hx; rcases hcase with hcase | hcase <;> omega
      · rw [hn]; intro hx; rcases hcase with hcase | hcase <;> omega
      · rw [e0]; intro hx; rcases hcase with hcase | hcase <;> omega

theorem notify_one_loop_table_ok (n : Nat) : ∀ s : basic_condition_variable,
    table_ok s → n ≤ s.active_generation_count → table_ok (notify_one_loop s n) := by
  induction n with
  | zero => intro s h _; exact h
  | succ n ih =>
    intro s h hn
    obtain ⟨h1, h2⟩ := notify_one_body_table_ok s n h (by omega)
    exact ih _ h1 h2

theorem notify_one_table_ok (s : basic_condition_variable) (h : table_ok s) :
    table_ok s.notify_one := by
  unfold notify_one
  split_ifs
  · exact notify_one_loop_table_ok _ _
      (table_ok_with_of_fields 0 s _ h rfl rfl rfl rfl rfl) (le_refl _)
  · exact h

end basic_condition_variable

namespace basic_condition_variable

theorem notify_all_body_empty (s : basic_condition_variable) (g : Nat)
    (h : (s.generations g).count = 0) : notify_all_body s g = s := by
  simp [notify_all_body, h]

theorem notify_all_body_generations (s : basic_condition_variable) (g i : Nat) :
    (notify_all_body s g).generations i =
      if g = i ∧ g < 3 ∧ (s.generations g).count ≠ 0 then
        { semaphore := none, count := 0, notified := false }
      else s.generations i := by
  by_cases hg : g < 3
  · by_cases hi : i < 3
    · obtain ⟨tc, agc, e0, e1, e2, w, p, nx⟩ := s
      have h3 : g = 0 ∨ g = 1 ∨ g = 2 := by omega
      have h4 : i = 0 ∨ i = 1 ∨ i = 2 := by omega
      rcases h3 with h3 | h3 | h3 <;> rcases h4 with h4 | h4 | h4 <;> subst h3 <;> subst h4 <;>
        simp only [notify_all_body, broadcast_entry, generations, entry_at, set_generation,
          ReleaseSemaphore, dispose_entry_eq] <;>
        split_ifs <;> first | rfl | omega | (exfalso; omega) | simp_all
    · rw [generations_outside _ i (by omega), generations_outside _ i (by omega),
        if_neg (by omega)]
  · rw [notify_all_body_empty s g (by rw [generations_outside s g (by omega)]; rfl)]
    simp [hg]

theorem notify_all_body_total_count (s : basic_condition_variable) (g : Nat) :
    (notify_all_body s g).total_count = s.total_count - (s.generations g).count := by
  unfold notify_all_body
  split_ifs with h
  · unfold broadcast_entry
    simp only [set_generation_total_count, ReleaseSemaphore_total_count]
    split_ifs <;> rfl
  · simp only [ne_eq, not_not] at h
    rw [h]
    simp

theorem notify_all_body_active (s : basic_condition_variable) (g : Nat) :
    (notify_all_body s g).active_generation_count = s.active_generation_count := by
  unfold notify_all_body
  split_ifs with h
  · unfold broadcast_entry
    simp only [set_generation_active, ReleaseSemaphore_active]
    split_ifs <;> rfl
  · rfl

theorem count_below_congr (s t : basic_condition_variable) (n : Nat)
    (h : ∀ i, i < n → t.generations i = s.generations i) :
    count_below t n = count_below s n := by
  induction n with
  | zero => rfl
  | succ n ih =>
    simp only [count_below]
    rw [ih (fun i hi => h i (by omega)), h n (by omega)]

theorem notify_all_loop_spec (n : Nat) : ∀ s : basic_condition_variable,
    (∀ i, (notify_all_loop s n).generations i =
      if i < n ∧ (s.generations i).count ≠ 0 then
        { semaphore := none, count := 0, notified := false }
      else s.generations i) ∧
    (notify_all_loop s n).total_count = s.total_count - count_below s n ∧
    (notify_all_loop s n).active_generation_count = s.active_generation_count := by
  induction n with
  | zero =>
    intro s
    simp [notify_all_loop, count_below]
  | succ n ih =>
    intro s
    obtain ⟨h1, h2, h3⟩ := ih (notify_all_body s n)
    have hother : ∀ i, i < n → (notify_all_body s n).generations i = s.generations i := by
      intro i hi
      rw [notify_all_body_generations, if_neg (by omega)]
    simp only [notify_all_loop]
    refine ⟨?_, ?_, ?_⟩
    · intro i
      rw [h1 i]
      by_cases hin : i = n
      · subst hin
        rw [if_neg (by omega), notify_all_body_generations]
        by_cases hi3 : i < 3
        · by_cases hc : (s.generations i).count ≠ 0
          · rw [if_pos ⟨rfl, hi3, hc⟩, if_pos ⟨by omega, hc⟩]
          · rw [if_neg (fun hx => hc hx.2.2), if_neg (fun hx => hc hx.2)]
        · have hz : (s.generations i).count = 0 := by
            rw [generations_outside s i (by omega)]; rfl
          rw [if_neg (fun hx => hi3 hx.2.1), if_neg (fun hx => hx.2 hz)]
      · by_cases hlt : i < n
        · rw [hother i hlt]
          by_cases hc : (s.generations i).count ≠ 0
          · rw [if_pos ⟨hlt, hc⟩, if_pos ⟨by omega, hc⟩]
          · rw [if_neg (fun hx => hc hx.2), if_neg (fun hx => hc hx.2)]
        · rw [if_neg (fun hx => hlt hx.1), if_neg (fun hx => by omega),
            notify_all_body_generations, if_neg (fun hx => hin hx.1.symm)]
    · rw [h2, notify_all_body_total_count, count_below_congr s _ n hother]
      simp only [count_below]
      ring
    · rw [h3, notify_all_body_active]

end basic_condition_variable

namespace basic_condition_variable

theorem notify_all_fields (s : basic_condition_variable) (h : s.total_count ≠ 0) :
    (∀ i, s.notify_all.generations i =
      if i < s.active_generation_count ∧ (s.generations i).count ≠ 0 then
        { semaphore := none, count := 0, notified := false }
      else s.generations i) ∧
    s.notify_all.total_count = s.total_count - count_below s s.active_generation_count ∧
    s.notify_all.active_generation_count = 0 := by
  obtain ⟨h1, h2, _⟩ := notify_all_loop_spec s.active_generation_count s
  have hn : s.notify_all =
      { notify_all_loop s s.active_generation_count with active_generation_count := 0 } := by
    simp [notify_all, h]
  rw [hn]
  exact ⟨h1, h2, rfl⟩

theorem notify_all_table_ok (s : basic_condition_variable) (h : table_ok s) :
    table_ok s.notify_all := by
  by_cases hz : s.total_count = 0
  · have : s.notify_all = s := by simp [notify_all, hz]
    rw [this]
    exact h
  · obtain ⟨hg, ht, hact⟩ := notify_all_fields s hz
    have e0 := hg 0
    have e1 := hg 1
    have e2 := hg 2
    simp only [generations_zero, generations_one, generations_two] at e0 e1 e2
    obtain ⟨ha, k0, k1, k2, hsum, a1, a2, a0⟩ := h
    simp only [generation_count] at ha
    have hempty : entry_ok { semaphore := none, count := 0, notified := false } := by
      simp [entry_ok]
    have hc0 : s.notify_all.generations_0.count =
        if 0 < s.active_generation_count then 0 else s.generations_0.count := by
      rw [e0]
      split_ifs with hx hy hy
      · rfl
      · exact absurd hx.1 hy
      · simp only [not_and, ne_eq, not_not] at hx; exact hx hy
      · rfl
    have hc1 : s.notify_all.generations_1.count =
        if 1 < s.active_generation_count then 0 else s.generations_1.count := by
      rw [e1]
      split_ifs with hx hy hy
      · rfl
      · exact absurd hx.1 hy
      · simp only [not_and, ne_eq, not_not] at hx; exact hx hy
      · rfl
    have hc2 : s.notify_all.generations_2.count =
        if 2 < s.active_generation_count then 0 else s.generations_2.count := by
      rw [e2]
      split_ifs with hx hy hy
      · rfl
      · exact absurd hx.1 hy
      · simp only [not_and, ne_eq, not_not] at hx; exact hx hy
      · rfl
    have p0 := k0.1
    have p1 := k1.1
    have p2 := k2.1
    have hcb : count_below s s.active_generation_count =
        (if 0 < s.active_generation_count then s.generations_0.count else 0) +
        (if 1 < s.active_generation_count then s.generations_1.count else 0) +
        (if 2 < s.active_generation_count then s.generations_2.count else 0) := by
      have h4 : s.active_generation_count = 0 ∨ s.active_generation_count = 1 ∨
          s.active_generation_count = 2 ∨ s.active_generation_count = 3 := by omega
      rcases h4 with h4 | h4 | h4 | h4 <;> rw [h4] <;> simp [count_below]
    refine ⟨?_, ?_, ?_, ?_, ?_, ?_, ?_, ?_⟩
    · rw [hact]; exact Nat.zero_le _
    · rw [e0]; split_ifs
      · exact hempty
      · exact k0
    · rw [e1]; split_ifs
      · exact hempty
      · exact k1
    · rw [e2]; split_ifs
      · exact hempty
      · exact k2
    · rw [ht, hc0, hc1, hc2, hcb, hsum]
      split_ifs <;> omega
    · rw [hc1, hact]
      split_ifs with hx
      · intro h0; exact absurd h0 (lt_irrefl 0)
      · intro h0; have := a1 h0; omega
    · rw [hc2, hact]
      split_ifs with hx
      · intro h0; exact absurd h0 (lt_irrefl 0)
      · intro h0; have := a2 h0; omega
    · rw [e0, hact]
      split_ifs with hx
      · intro h0; exact absurd h0 (by decide)
      · intro h0
        have hp := k0.2.2 h0
        have ha0 := a0 h0
        exact absurd (⟨by omega, by omega⟩ : 0 < s.active_generation_count ∧
          s.generations_0.count ≠ 0) hx

theorem reachable_induction (P : basic_condition_variable → Prop) (h0 : P construct)
    (h_enroll : ∀ s f, P s → P (enroll s f).1)
    (h_wait : ∀ s h, P s → P (WaitForSingleObject h s).2)
    (h_one : ∀ s, P s → P s.notify_one) (h_all : ∀ s, P s → P s.notify_all) :
    ∀ y : system, y.reachable → P y.cv := by
  have step_ok : ∀ (y y1 : system) (a : action), P y.cv → y.step a = some y1 → P y1.cv := by
    intro y y1 a hy hs
    cases a with
    | wait =>
      simp only [system.step, Option.some.injEq] at hs
      rw [← hs]
      exact h_enroll _ _ hy
    | bucket_wait i =>
      simp only [system.step] at hs
      split at hs
      · simp only [Option.some.injEq] at hs
        rw [← hs]
        exact h_wait _ _ hy
      · exact absurd hs (by simp)
    | wake_poll i =>
      simp only [system.step] at hs
      split at hs
      · simp only [Option.some.injEq] at hs
        rw [← hs]
        exact h_wait _ _ hy
      · exact absurd hs (by simp)
    | reenroll i =>
      simp only [system.step] at hs
      split at hs
      · simp only [Option.some.injEq] at hs
        rw [← hs]
        exact h_enroll _ _ hy
      · exact absurd hs (by simp)
    | notify_one =>
      simp only [system.step, Option.some.injEq] at hs
      rw [← hs]
      exact h_one _ hy
    | notify_all =>
      simp only [system.step, Option.some.injEq] at hs
      rw [← hs]
      exact h_all _ hy
  have run_ok : ∀ (steps : List action) (y y1 : system), P y.cv →
      y.run steps = some y1 → P y1.cv := by
    intro steps
    induction steps with
    | nil =>
      intro y y1 hy hr
      simp only [system.run, Option.some.injEq] at hr
      rw [← hr]
      exact hy
    | cons a rest ih =>
      intro y y1 hy hr
      simp only [system.run] at hr
      cases hs : y.step a with
      | none => simp [hs] at hr
      | some y2 =>
        simp only [hs] at hr
        exact ih y2 y1 (step_ok y y2 a hy hs) hr
  intro y hy
  obtain ⟨steps, hr⟩ := hy
  exact run_ok steps system.start y h0 hr

theorem reachable_table_ok (y : system) (h : y.reachable) : table_ok y.cv :=
  reachable_induction table_ok table_ok_construct enroll_table_ok
    (fun s h hs => WaitForSingleObject_table_ok h s hs) notify_one_table_ok
    notify_all_table_ok y h

end basic_condition_variable

/-- C8: the schedule `stranded_waiter_schedule` is possible from the freshly constructed
condition variable, and it ends with `active_generation_count = 0` although bucket 0 has
count 1 and a semaphore: the re-enrollment of thread 2 does not activate generation 0, as a
first enrollment would. -/
theorem reenroll_leaves_no_active_generation :
    ∃ y, system.start.run stranded_waiter_schedule = some y ∧
      y.cv.active_generation_count = 0 ∧ (y.cv.generations 0).count = 1 ∧
      (y.cv.generations 0).semaphore ≠ none ∧ y.cv.total_count = 1 ∧
      y.cv.notify_all.total_count = 1 ∧ (y.cv.notify_all.generations 0).count = 1 :=
  ⟨_, rfl, by decide, by decide, by decide, by decide, by decide, by decide⟩

/-- C9: in every reachable state `total_count` is at least the sum of the counts of the active
buckets, but the two are not always equal: after `stranded_waiter_schedule` the waiter that
enrolled again is counted by `total_count` and by bucket 0, which is not active. -/
theorem total_count_and_active_counts :
    (∀ y : system, y.reachable →
      basic_condition_variable.count_below y.cv y.cv.active_generation_count
        ≤ y.cv.total_count) ∧
    (∃ y : system, y.reachable ∧ y.cv.total_count = 1 ∧
      basic_condition_variable.count_below y.cv y.cv.active_generation_count = 0) := by
  constructor
  · intro y hy
    obtain ⟨ha, k0, k1, k2, hsum, _, _, _⟩ := basic_condition_variable.reachable_table_ok y hy
    simp only [generation_count] at ha
    have p0 := k0.1
    have p1 := k1.1
    have p2 := k2.1
    have h4 : y.cv.active_generation_count = 0 ∨ y.cv.active_generation_count = 1 ∨
        y.cv.active_generation_count = 2 ∨ y.cv.active_generation_count = 3 := by omega
    rcases h4 with h4 | h4 | h4 | h4 <;> rw [h4] <;>
      simp only [basic_condition_variable.count_below,
        basic_condition_variable.generations_zero, basic_condition_variable.generations_one,
        basic_condition_variable.generations_two] <;> omega
  · exact ⟨_, ⟨stranded_waiter_schedule, rfl⟩, by decide, by decide⟩

/-- C10: in every reachable state each of the three buckets has a semaphore handle exactly
when its count is positive. -/
theorem semaphore_iff_waiters (y : system) (h : y.reachable) (i : Nat)
    (hi : i < generation_count) :
    (y.cv.generations i).semaphore ≠ none ↔ 0 < (y.cv.generations i).count := by
  obtain ⟨_, k0, k1, k2, _⟩ := basic_condition_variable.reachable_table_ok y h
  simp only [generation_count] at hi
  have h3 : i = 0 ∨ i = 1 ∨ i = 2 := by omega
  rcases h3 with h3 | h3 | h3 <;> subst h3
  · exact k0.2.1
  · exact k1.2.1
  · exact k2.2.1

/-- C10, witness: after two enrollments, a `notify_one`, a third enrollment and another
`notify_one`, bucket 1 has lost its only waiter and has no semaphore. -/
theorem semaphore_iff_waiters_witness :
    ∃ y, system.start.run
        [action.wait, action.wait, action.notify_one, action.wait, action.notify_one] = some y ∧
      ((y.cv.generations 1).semaphore ≠ none ↔ 0 < (y.cv.generations 1).count) ∧
      (y.cv.generations 1).count = 0 :=
  ⟨_, rfl,
    semaphore_iff_waiters _
      ⟨[action.wait, action.wait, action.notify_one, action.wait, action.notify_one], rfl⟩ 1
      (by decide),
    by decide⟩

namespace basic_condition_variable

theorem enroll_construct (f : do_wait_frame) (hf : f.first_loop = true) :
    all_in_generation_0 1 (enroll construct f).1 := by
  rw [enroll_cv, if_pos hf]
  refine ⟨?_, ?_, ?_, ?_, ?_, ?_, ?_, ?_⟩ <;>
    simp [join_generation_0, first_arrival, construct, create_anonymous_semaphore,
      generations, entry_at, set_generation, list_entry.fresh]

theorem enroll_all_in_generation_0 (n : Nat) (s : basic_condition_variable)
    (f : do_wait_frame) (hf : f.first_loop = true)
    (h : all_in_generation_0 n s) : all_in_generation_0 (n + 1) (enroll s f).1 := by
  obtain ⟨tc, agc, e0, e1, e2, w, p, nx⟩ := s
  obtain ⟨h1, h2, h3, h4, h5, h6, h7, h8⟩ := h
  simp only at h1 h2 h3 h4 h5 h6 h7 h8
  subst h1 h2 h3 h4 h5 h6 h8
  rw [enroll_cv, if_pos hf]
  refine ⟨?_, ?_, ?_, ?_, ?_, ?_, ?_, ?_⟩ <;>
    simp [join_generation_0, first_arrival, create_anonymous_semaphore,
      generations, entry_at, set_generation, list_entry.fresh, h7]

theorem run_waits (m : Nat) : ∀ (n : Nat) (y : system), all_in_generation_0 n y.cv →
    ∃ y1, y.run (List.replicate m action.wait) = some y1 ∧ all_in_generation_0 (n + m) y1.cv := by
  induction m with
  | zero =>
    intro n y h
    exact ⟨y, rfl, h⟩
  | succ m ih =>
    intro n y h
    obtain ⟨y1, h1, h2⟩ := ih (n + 1)
      { cv := (y.cv.enroll (do_wait_frame.enter true)).1,
        threads := y.threads ++
          [{ frame := (y.cv.enroll (do_wait_frame.enter true)).2,
             position := location.blocked }] }
      (enroll_all_in_generation_0 n y.cv _ rfl h)
    refine ⟨y1, ?_, ?_⟩
    · simp only [List.replicate_succ, system.run, system.step]
      exact h1
    · have : n + 1 + m = n + (m + 1) := by omega
      rw [← this]
      exact h2

theorem run_waits_start (n : Nat) (hn : 1 ≤ n) :
    ∃ y, system.start.run (List.replicate n action.wait) = some y ∧
      all_in_generation_0 n y.cv := by
  obtain ⟨m, rfl⟩ : ∃ m, n = m + 1 := ⟨n - 1, by omega⟩
  obtain ⟨y1, h1, h2⟩ := run_waits m 1
    { cv := (construct.enroll (do_wait_frame.enter true)).1,
      threads := [{ frame := (construct.enroll (do_wait_frame.enter true)).2,
                    position := location.blocked }] }
    (enroll_construct _ rfl)
  refine ⟨y1, ?_, ?_⟩
  · have hr : List.replicate (m + 1) action.wait = action.wait :: List.replicate m action.wait :=
      rfl
    rw [hr]
    simp only [system.run, system.step, system.start, List.nil_append]
    exact h1
  · have : 1 + m = m + 1 := by omega
    rw [← this]
    exact h2

theorem run_append (a b : List action) : ∀ (y : system),
    y.run (a ++ b) = (y.run a).bind (fun y1 => y1.run b) := by
  induction a with
  | nil => intro y; rfl
  | cons x rest ih =>
    intro y
    simp only [List.cons_append, system.run]
    cases y.step x with
    | none => rfl
    | some y2 => exact ih y2

end basic_condition_variable

namespace basic_condition_variable

theorem notify_all_all_in_generation_0 (n : Nat) (s : basic_condition_variable) (hn : 1 ≤ n)
    (h : all_in_generation_0 n s) :
    s.notify_all.total_count = 0 ∧ s.notify_all.active_generation_count = 0 ∧
    (∀ i, i < generation_count → (s.notify_all.generations i).count = 0) ∧
    s.notify_all.permits_of s.notify_all.wake_sem = n := by
  obtain ⟨tc, agc, e0, e1, e2, w, p, nx⟩ := s
  obtain ⟨h1, h2, h3, h4, h5, h6, h7, h8⟩ := h
  simp only at h1 h2 h3 h4 h5 h6 h7 h8
  subst h1 h2 h3 h4 h5 h6 h8
  have hne : (n : Int) ≠ 0 := by omega
  refine ⟨?_, ?_, ?_, ?_⟩
  · simp [notify_all, notify_all_loop, notify_all_body, broadcast_entry, generations, entry_at,
      set_generation, ReleaseSemaphore, hne]
  · simp [notify_all, hne]
  · intro i hi
    simp only [generation_count] at hi
    have h3 : i = 0 ∨ i = 1 ∨ i = 2 := by omega
    rcases h3 with h3 | h3 | h3 <;> subst h3 <;>
      simp [notify_all, notify_all_loop, notify_all_body, broadcast_entry, generations,
        entry_at, set_generation, ReleaseSemaphore, dispose_entry_eq, list_entry.fresh, hne]
  · simp [notify_all, notify_all_loop, notify_all_body, broadcast_entry, generations, entry_at,
      set_generation, ReleaseSemaphore, permits_of, hne, h7]

theorem notify_one_all_in_generation_0 (n : Nat) (s : basic_condition_variable) (hn : 2 ≤ n)
    (h : all_in_generation_0 n s) :
    s.notify_one.total_count = n - 1 ∧ s.notify_one.active_generation_count = 1 ∧
    s.notify_one.generations_0 = { semaphore := some 1, count := n - 1, notified := true } ∧
    s.notify_one.generations_1 = list_entry.fresh ∧
    s.notify_one.generations_2 = list_entry.fresh ∧ s.notify_one.wake_sem = some 0 := by
  obtain ⟨tc, agc, e0, e1, e2, w, p, nx⟩ := s
  obtain ⟨h1, h2, h3, h4, h5, h6, h7, h8⟩ := h
  simp only at h1 h2 h3 h4 h5 h6 h7 h8
  subst h1 h2 h3 h4 h5 h6 h8
  have hne : (n : Int) ≠ 0 := by omega
  have hne1 : ¬ ((n : Int) - 1 = 0) := by omega
  refine ⟨?_, ?_, ?_, ?_, ?_, ?_⟩ <;>
    simp [notify_one, notify_one_loop, notify_one_body, generations, entry_at,
      set_generation, ReleaseSemaphore, hne, hne1]

theorem enroll_after_notify_one (n : Nat) (s : basic_condition_variable) (f : do_wait_frame)
    (hf : f.first_loop = true) (hn : 2 ≤ n)
    (h0 : s.generations_0 = { semaphore := some 1, count := n - 1, notified := true })
    (h1 : s.generations_1 = list_entry.fresh) (h2 : s.generations_2 = list_entry.fresh)
    (hw : s.wake_sem = some 0) (ht : s.total_count = n - 1) :
    ((enroll s f).1.generations 0).count = 1 ∧ ((enroll s f).1.generations 0).notified = false ∧
    ((enroll s f).1.generations 1).count = n - 1 ∧
    ((enroll s f).1.generations 1).notified = true ∧
    (enroll s f).1.active_generation_count = 2 ∧ (enroll s f).1.total_count = n := by
  obtain ⟨tc, agc, e0, e1, e2, w, p, nx⟩ := s
  simp only at h0 h1 h2 hw ht
  subst h0 h1 h2 hw ht
  have hne1 : ¬ ((n : Int) - 1 = 0) := by omega
  rw [enroll_cv, if_pos hf]
  have hs : first_arrival
      { total_count := (n : Int) - 1 + 1, active_generation_count := agc,
        generations_0 := { semaphore := some 1, count := (n : Int) - 1, notified := true },
        generations_1 := list_entry.fresh, generations_2 := list_entry.fresh,
        wake_sem := some 0, permits := p, next_semaphore := nx } =
      { total_count := (n : Int) - 1 + 1, active_generation_count := 2,
        generations_0 := list_entry.fresh,
        generations_1 := { semaphore := some 1, count := (n : Int) - 1, notified := true },
        generations_2 := list_entry.fresh,
        wake_sem := some 0, permits := p, next_semaphore := nx } := by
    simp only [first_arrival, generations, entry_at]
    simp only [reduceCtorEq, if_false, if_true]
    rw [shift_one_bucket _ hne1 rfl rfl]
  rw [hs]
  refine ⟨?_, ?_, ?_, ?_, ?_, ?_⟩ <;>
    simp [join_generation_0, create_anonymous_semaphore, generations, entry_at,
      set_generation, list_entry.fresh]

end basic_condition_variable

/-- C2, as the code has it: in every reachable state in which bucket 0 is empty or at least
one generation is active, `notify_all` leaves `total_count = 0` and count 0 in every bucket;
`active_generation_count` is 0 afterwards when `total_count` was not 0 before the call, and a
call with `total_count = 0` changes nothing.  For every `n`, `n` first enrollments followed by
one `notify_all` end with `total_count = 0`, `active_generation_count = 0`, count 0 in every
bucket and `n` permits on the wake semaphore. -/
theorem notify_all_releases_enrolled :
    (∀ y : system, y.reachable →
      ((y.cv.generations 0).count = 0 ∨ 1 ≤ y.cv.active_generation_count) →
      y.cv.notify_all.total_count = 0 ∧
      (∀ i, i < generation_count → (y.cv.notify_all.generations i).count = 0) ∧
      (y.cv.total_count ≠ 0 → y.cv.notify_all.active_generation_count = 0) ∧
      (y.cv.total_count = 0 → y.cv.notify_all = y.cv)) ∧
    (∀ n : Nat, ∃ y,
      system.start.run (List.replicate n action.wait ++ [action.notify_all]) = some y ∧
      y.cv.total_count = 0 ∧ y.cv.active_generation_count = 0 ∧
      (∀ i, i < generation_count → (y.cv.generations i).count = 0) ∧
      y.cv.permits_of y.cv.wake_sem = n) := by
  constructor
  · intro y hy hb
    have hok := basic_condition_variable.reachable_table_ok y hy
    have hok2 := basic_condition_variable.notify_all_table_ok y.cv hok
    obtain ⟨ha, k0, k1, k2, hsum, a1, a2, a0⟩ := hok
    simp only [basic_condition_variable.generations_zero] at hb
    have hcounts : ∀ i, i < generation_count → (y.cv.notify_all.generations i).count = 0 := by
      intro i hi
      simp only [generation_count] at hi
      by_cases hz : y.cv.total_count = 0
      · have hid : y.cv.notify_all = y.cv := by
          simp [basic_condition_variable.notify_all, hz]
        rw [hid]
        have p0 := k0.1
        have p1 := k1.1
        have p2 := k2.1
        have h3 : i = 0 ∨ i = 1 ∨ i = 2 := by omega
        rcases h3 with h3 | h3 | h3 <;> subst h3 <;>
          simp only [basic_condition_variable.generations_zero,
            basic_condition_variable.generations_one,
            basic_condition_variable.generations_two] <;> omega
      · obtain ⟨hg, _, _⟩ := basic_condition_variable.notify_all_fields y.cv hz
        rw [hg i]
        split_ifs with hx
        · rfl
        · have p0 := k0.1
          have p1 := k1.1
          have p2 := k2.1
          have h3 : i = 0 ∨ i = 1 ∨ i = 2 := by omega
          rcases h3 with h3 | h3 | h3 <;> subst h3 <;>
            simp only [basic_condition_variable.generations_zero,
              basic_condition_variable.generations_one,
              basic_condition_variable.generations_two, not_and, ne_eq, not_not] at hx ⊢
          · rcases hb with hb | hb
            · exact hb
            · exact hx (by omega)
          · by_contra hc
            have := a1 (by omega)
            exact hc (hx (by omega))
          · by_contra hc
            have := a2 (by omega)
            exact hc (hx (by omega))
    refine ⟨?_, hcounts, ?_, ?_⟩
    · have h0 := hcounts 0 (by decide)
      have h1 := hcounts 1 (by decide)
      have h2 := hcounts 2 (by decide)
      simp only [basic_condition_variable.generations_zero,
        basic_condition_variable.generations_one,
        basic_condition_variable.generations_two] at h0 h1 h2
      rw [hok2.2.2.2.2.1, h0, h1, h2]
      rfl
    · intro hz
      exact (basic_condition_variable.notify_all_fields y.cv hz).2.2
    · intro hz
      simp [basic_condition_variable.notify_all, hz]
  · intro n
    rcases Nat.eq_zero_or_pos n with hn | hn
    · subst hn
      exact ⟨_, rfl, by decide, by decide, by decide, by decide⟩
    · obtain ⟨y1, hr, hf⟩ := basic_condition_variable.run_waits_start n hn
      obtain ⟨h1, h2, h3, h4⟩ :=
        basic_condition_variable.notify_all_all_in_generation_0 n y1.cv hn hf
      refine ⟨{ y1 with cv := y1.cv.notify_all }, ?_, h1, h2, h3, h4⟩
      rw [basic_condition_variable.run_append, hr]
      rfl

/-- C2, witness: ten waiters enroll and one `notify_all` follows; and a `notify_all` in the
state with one waiter in each of the generations 0 and 1. -/
theorem notify_all_releases_enrolled_witness :
    (∃ y, system.start.run (List.replicate 10 action.wait ++ [action.notify_all]) = some y ∧
      y.cv.total_count = 0 ∧ y.cv.active_generation_count = 0 ∧
      (∀ i, i < generation_count → (y.cv.generations i).count = 0) ∧
      y.cv.permits_of y.cv.wake_sem = 10) ∧
    (∃ y, system.start.run [action.wait, action.wait, action.notify_one, action.wait] = some y ∧
      y.cv.total_count = 2 ∧ y.cv.notify_all.total_count = 0) :=
  ⟨notify_all_releases_enrolled.2 10,
   ⟨_, rfl, by decide,
    (notify_all_releases_enrolled.1 _
      ⟨[action.wait, action.wait, action.notify_one, action.wait], rfl⟩
      (Or.inr (by decide))).1⟩⟩

/-- C2, counterexample: after three enrollments, a `notify_one`, a fourth enrollment and two
more `notify_one`, no waiter is left (`total_count = 0`) but generation 0 is still counted as
active; `notify_all` then returns at once and `active_generation_count` stays 1. -/
theorem notify_all_active_generation_counterexample :
    ∃ y, system.start.run
        [action.wait, action.wait, action.wait, action.notify_one, action.wait,
         action.notify_one, action.notify_one] = some y ∧
      y.cv.total_count = 0 ∧ y.cv.notify_all.active_generation_count = 1 :=
  ⟨_, rfl, by decide, by decide⟩

/-- C7: for every `n ≥ 2`, after `n` first enrollments and one `notify_one` bucket 0 is
notified with count `n - 1`, so that the next first enrollment shifts the generations: it
ends with bucket 0 not notified with count 1, bucket 1 notified with count `n - 1`,
`active_generation_count = 2` and `total_count = n`. -/
theorem generation_shift_scenario (n : Nat) (hn : 2 ≤ n) :
    (∃ y, system.start.run (List.replicate n action.wait ++ [action.notify_one]) = some y ∧
      (y.cv.generations 0).notified = true ∧ (y.cv.generations 0).count = n - 1) ∧
    (∃ y, system.start.run
        (List.replicate n action.wait ++ [action.notify_one, action.wait]) = some y ∧
      (y.cv.generations 0).count = 1 ∧ (y.cv.generations 0).notified = false ∧
      (y.cv.generations 1).count = n - 1 ∧ (y.cv.generations 1).notified = true ∧
      y.cv.active_generation_count = 2 ∧ y.cv.total_count = n) := by
  obtain ⟨y1, hr, hf⟩ := basic_condition_variable.run_waits_start n (by omega)
  obtain ⟨h1, h2, h3, h4, h5, h6⟩ :=
    basic_condition_variable.notify_one_all_in_generation_0 n y1.cv hn hf
  constructor
  · refine ⟨{ y1 with cv := y1.cv.notify_one }, ?_, ?_, ?_⟩
    · rw [basic_condition_variable.run_append, hr]
      rfl
    · simp only [basic_condition_variable.generations_zero]
      rw [h3]
    · simp only [basic_condition_variable.generations_zero]
      rw [h3]
  · refine ⟨{ cv := (y1.cv.notify_one.enroll (do_wait_frame.enter true)).1,
              threads := y1.threads ++
                [{ frame := (y1.cv.notify_one.enroll (do_wait_frame.enter true)).2,
                   position := location.blocked }] }, ?_, ?_⟩
    · rw [basic_condition_variable.run_append, hr]
      rfl
    · exact basic_condition_variable.enroll_after_notify_one n y1.cv.notify_one _ rfl hn h3 h4
        h5 h6 h1

/-- C7, witness: the scenario with five waiters. -/
theorem generation_shift_scenario_witness :
    ∃ y, system.start.run
        (List.replicate 5 action.wait ++ [action.notify_one, action.wait]) = some y ∧
      (y.cv.generations 0).count = 1 ∧ (y.cv.generations 0).notified = false ∧
      (y.cv.generations 1).count = ((5 : Nat) : Int) - 1 ∧
      (y.cv.generations 1).notified = true ∧
      y.cv.active_generation_count = 2 ∧ y.cv.total_count = ((5 : Nat) : Int) :=
  (generation_shift_scenario 5 (by decide)).2

namespace basic_condition_variable

theorem no_waiters_of_zero (e : list_entry) (h : e.count = 0) : (!no_waiters e) = false := by
  simp [no_waiters, h]

theorem no_waiters_of_ne (e : list_entry) (h : ¬ e.count = 0) : (!no_waiters e) = true := by
  simp [no_waiters, h]

theorem shift_compacts_spec (s : basic_condition_variable)
    (h : (kept_entries s).length ≤ 2) :
    (shift_generations_down s).active_generation_count = (kept_entries s).length + 1 ∧
    (∀ k, k < (kept_entries s).length →
      (kept_entries s)[k]? = some ((shift_generations_down s).generations (k + 1))) ∧
    (shift_generations_down s).generations 0 = list_entry.fresh ∧
    (shift_generations_down s).total_count = s.total_count ∧
    (shift_generations_down s).wake_sem = s.wake_sem ∧
    (shift_generations_down s).permits = s.permits := by
  obtain ⟨tc, agc, e0, e1, e2, w, p, nx⟩ := s
  by_cases h0 : e0.count = 0 <;> by_cases h1 : e1.count = 0 <;> by_cases h2 : e2.count = 0
  all_goals
    first
    | have b0 := no_waiters_of_zero e0 h0
    | have b0 := no_waiters_of_ne e0 h0
  all_goals
    first
    | have b1 := no_waiters_of_zero e1 h1
    | have b1 := no_waiters_of_ne e1 h1
  all_goals
    first
    | have b2 := no_waiters_of_zero e2 h2
    | have b2 := no_waiters_of_ne e2 h2
  all_goals
    simp only [kept_entries, List.filter, b0, b1, b2, List.length_cons, List.length_nil] at h ⊢
  all_goals
    first
    | omega
    | (refine ⟨?_, ?_, ?_, ?_, ?_, ?_⟩
       · simp [shift_generations_down, remove_if, remove_if_from, no_waiters, generations,
           entry_at, set_generation, generation_count, copy_backward, h0, h1, h2]
       · intro k hk
         have hk3 : k = 0 ∨ k = 1 := by omega
         rcases hk3 with hk3 | hk3 <;> subst hk3 <;>
           first
           | omega
           | simp [shift_generations_down, remove_if, remove_if_from, no_waiters, generations,
               entry_at, set_generation, generation_count, copy_backward, h0, h1, h2]
       · simp [shift_generations_down, remove_if, remove_if_from, no_waiters, generations,
           entry_at, set_generation, generation_count, copy_backward, h0, h1, h2]
       · simp [shift_generations_down, remove_if, remove_if_from, no_waiters, generations,
           entry_at, set_generation, generation_count, copy_backward, h0, h1, h2]
       · simp [shift_generations_down, remove_if, remove_if_from, no_waiters, generations,
           entry_at, set_generation, generation_count, copy_backward, h0, h1, h2]
       · simp [shift_generations_down, remove_if, remove_if_from, no_waiters, generations,
           entry_at, set_generation, generation_count, copy_backward, h0, h1, h2])

end basic_condition_variable

namespace basic_condition_variable

theorem handles_ok_construct : handles_ok construct := by
  simp [handles_ok, construct, list_entry.fresh]

theorem handles_kept_refl (s : basic_condition_variable) : handles_kept s s :=
  ⟨rfl, rfl, Or.inl rfl, Or.inl rfl, Or.inl rfl⟩

theorem handles_kept_trans (s t u : basic_condition_variable) (h1 : handles_kept s t)
    (h2 : handles_kept t u) : handles_kept s u := by
  obtain ⟨a1, b1, c1, d1, e1⟩ := h1
  obtain ⟨a2, b2, c2, d2, e2⟩ := h2
  refine ⟨a2.trans a1, b2.trans b1, ?_, ?_, ?_⟩
  · rcases c2 with c2 | c2
    · rw [c2]; exact c1
    · exact Or.inr c2
  · rcases d2 with d2 | d2
    · rw [d2]; exact d1
    · exact Or.inr d2
  · rcases e2 with e2 | e2
    · rw [e2]; exact e1
    · exact Or.inr e2

theorem handles_ok_of_kept (s t : basic_condition_variable) (h : handles_ok s)
    (hk : handles_kept s t) : handles_ok t := by
  obtain ⟨hw, h0, h1, h2⟩ := h
  obtain ⟨a, b, c, d, e⟩ := hk
  refine ⟨?_, ?_, ?_, ?_⟩
  · intro w hx
    rw [a] at hx; rw [b]; exact hw w hx
  · intro x hx
    rcases c with c | c
    · rw [c] at hx
      obtain ⟨k1, k2, k3, k4⟩ := h0 x hx
      refine ⟨by rw [b]; exact k1, by rw [a]; exact k2, ?_, ?_⟩
      · rcases d with d | d <;> rw [d]
        · exact k3
        · simp
      · rcases e with e | e <;> rw [e]
        · exact k4
        · simp
    · rw [c] at hx; exact absurd hx (by simp)
  · intro x hx
    rcases d with d | d
    · rw [d] at hx
      obtain ⟨k1, k2, k3⟩ := h1 x hx
      refine ⟨by rw [b]; exact k1, by rw [a]; exact k2, ?_⟩
      rcases e with e | e <;> rw [e]
      · exact k3
      · simp
    · rw [d] at hx; exact absurd hx (by simp)
  · intro x hx
    rcases e with e | e
    · rw [e] at hx
      obtain ⟨k1, k2⟩ := h2 x hx
      exact ⟨by rw [b]; exact k1, by rw [a]; exact k2⟩
    · rw [e] at hx; exact absurd hx (by simp)

theorem notify_one_body_next (s : basic_condition_variable) (g : Nat) :
    (notify_one_body s g).next_semaphore = s.next_semaphore := by
  unfold notify_one_body
  simp only []
  split_ifs <;> simp

theorem notify_one_body_kept (s : basic_condition_variable) (g : Nat) :
    handles_kept s (notify_one_body s g) := by
  have e0 := notify_one_body_generations s g 0
  have e1 := notify_one_body_generations s g 1
  have e2 := notify_one_body_generations s g 2
  simp only [generations_zero, generations_one, generations_two] at e0 e1 e2
  refine ⟨notify_one_body_wake_sem s g, notify_one_body_next s g, ?_, ?_, ?_⟩
  · rw [e0]
    split_ifs with hx hy
    · right; rw [dispose_entry_eq]
    · left; obtain ⟨rfl, _⟩ := hx; rfl
    · left; rfl
  · rw [e1]
    split_ifs with hx hy
    · right; rw [dispose_entry_eq]
    · left; obtain ⟨rfl, _⟩ := hx; rfl
    · left; rfl
  · rw [e2]
    split_ifs with hx hy
    · right; rw [dispose_entry_eq]
    · left; obtain ⟨rfl, _⟩ := hx; rfl
    · left; rfl

theorem notify_one_loop_kept (n : Nat) : ∀ s : basic_condition_variable,
    handles_kept s (notify_one_loop s n) := by
  induction n with
  | zero => intro s; exact handles_kept_refl s
  | succ n ih =>
    intro s
    exact handles_kept_trans _ _ _ (notify_one_body_kept s n) (ih _)

theorem notify_one_kept (s : basic_condition_variable) : handles_kept s s.notify_one := by
  unfold notify_one
  split_ifs
  · exact handles_kept_trans s (ReleaseSemaphore s.wake_sem 1 s) _
      ⟨rfl, rfl, Or.inl rfl, Or.inl rfl, Or.inl rfl⟩ (notify_one_loop_kept _ _)
  · exact handles_kept_refl s

theorem notify_all_body_kept (s : basic_condition_variable) (g : Nat) :
    handles_kept s (notify_all_body s g) := by
  have e0 := notify_all_body_generations s g 0
  have e1 := notify_all_body_generations s g 1
  have e2 := notify_all_body_generations s g 2
  simp only [generations_zero, generations_one, generations_two] at e0 e1 e2
  have hw : (notify_all_body s g).wake_sem = s.wake_sem := by
    unfold notify_all_body broadcast_entry
    split_ifs <;> simp
  have hn : (notify_all_body s g).next_semaphore = s.next_semaphore := by
    unfold notify_all_body broadcast_entry
    split_ifs <;> simp
  refine ⟨hw, hn, ?_, ?_, ?_⟩
  · rw [e0]
    split_ifs
    · right; rfl
    · left; rfl
  · rw [e1]
    split_ifs
    · right; rfl
    · left; rfl
  · rw [e2]
    split_ifs
    · right; rfl
    · left; rfl

theorem notify_all_loop_kept (n : Nat) : ∀ s : basic_condition_variable,
    handles_kept s (notify_all_loop s n) := by
  induction n with
  | zero => intro s; exact handles_kept_refl s
  | succ n ih =>
    intro s
    exact handles_kept_trans _ _ _ (notify_all_body_kept s n) (ih _)

theorem notify_all_kept (s : basic_condition_variable) : handles_kept s s.notify_all := by
  unfold notify_all
  split_ifs
  · exact handles_kept_trans s (notify_all_loop s s.active_generation_count) _
      (notify_all_loop_kept _ _) ⟨rfl, rfl, Or.inl rfl, Or.inl rfl, Or.inl rfl⟩
  · exact handles_kept_refl s

theorem WaitForSingleObject_kept (h : handle) (s : basic_condition_variable) :
    handles_kept s (WaitForSingleObject h s).2 := by
  unfold WaitForSingleObject
  cases h with
  | none => exact handles_kept_refl s
  | some i =>
    simp only
    split_ifs
    · exact ⟨rfl, rfl, Or.inl rfl, Or.inl rfl, Or.inl rfl⟩
    · exact handles_kept_refl s

end basic_condition_variable

namespace basic_condition_variable

theorem handles_ok_of_fields (s t : basic_condition_variable) (h : handles_ok s)
    (h1 : t.wake_sem = s.wake_sem) (h2 : t.next_semaphore = s.next_semaphore)
    (h3 : t.generations_0 = s.generations_0) (h4 : t.generations_1 = s.generations_1)
    (h5 : t.generations_2 = s.generations_2) : handles_ok t := by
  unfold handles_ok at h ⊢
  rw [h1, h2, h3, h4, h5]
  exact h

theorem join_generation_0_handles_ok (s : basic_condition_variable) (h : handles_ok s) :
    handles_ok (join_generation_0 s) := by
  obtain ⟨tc, agc, ⟨m0, c0, n0⟩, e1, e2, w, p, nx⟩ := s
  obtain ⟨hw, h0, h1, h2⟩ := h
  simp only at hw h0 h1 h2
  cases hm : m0 with
  | some b =>
    subst hm
    have hj : join_generation_0
        { total_count := tc, active_generation_count := agc,
          generations_0 := { semaphore := some b, count := c0, notified := n0 },
          generations_1 := e1, generations_2 := e2, wake_sem := w, permits := p,
          next_semaphore := nx } =
        { total_count := tc, active_generation_count := agc,
          generations_0 := { semaphore := some b, count := c0 + 1, notified := n0 },
          generations_1 := e1, generations_2 := e2, wake_sem := w, permits := p,
          next_semaphore := nx } := by
      simp [join_generation_0, generations, entry_at, set_generation]
    rw [hj]
    exact ⟨hw, h0, h1, h2⟩
  | none =>
    subst hm
    have hj : join_generation_0
        { total_count := tc, active_generation_count := agc,
          generations_0 := { semaphore := none, count := c0, notified := n0 },
          generations_1 := e1, generations_2 := e2, wake_sem := w, permits := p,
          next_semaphore := nx } =
        { total_count := tc, active_generation_count := agc,
          generations_0 := { semaphore := some nx, count := c0 + 1, notified := n0 },
          generations_1 := e1, generations_2 := e2, wake_sem := w,
          permits := fun j => if j = nx then 0 else p j,
          next_semaphore := nx + 1 } := by
      simp [join_generation_0, generations, entry_at, set_generation,
        create_anonymous_semaphore]
    rw [hj]
    refine ⟨?_, ?_, ?_, ?_⟩
    · intro x hx
      have := hw x hx
      simp only
      omega
    · intro x hx
      simp only [Option.some.injEq] at hx
      subst hx
      refine ⟨by simp, ?_, ?_, ?_⟩
      · intro hc
        have := hw _ hc
        omega
      · intro hc
        have := (h1 _ hc).1
        omega
      · intro hc
        have := (h2 _ hc).1
        omega
    · intro x hx
      obtain ⟨k1, k2, k3⟩ := h1 x hx
      exact ⟨by simp only; omega, k2, k3⟩
    · intro x hx
      obtain ⟨k1, k2⟩ := h2 x hx
      exact ⟨by simp only; omega, k2⟩

theorem shift_handles_ok (d : Int) (s : basic_condition_variable) (ht : table_ok_with d s)
    (h : handles_ok s) (hn : s.generations_0.notified = true) :
    handles_ok (shift_generations_down s) := by
  obtain ⟨ha, k0, k1, k2, _, a1, a2, a0⟩ := ht
  obtain ⟨hw, h0, h1, h2⟩ := h
  have hc0 : 0 < s.generations_0.count := k0.2.2 hn
  have hne0 : s.generations_0.count ≠ 0 := by omega
  by_cases c1 : s.generations_1.count = 0
  · by_cases c2 : s.generations_2.count = 0
    · rw [shift_one_bucket s hne0 c1 c2]
      refine ⟨hw, ?_, ?_, h2⟩
      · intro b hb; exact absurd hb (by simp [list_entry.fresh])
      · intro b hb
        obtain ⟨x1, x2, x3, x4⟩ := h0 b hb
        exact ⟨x1, x2, x4⟩
    · rw [shift_two_buckets_gap s hne0 c1 c2]
      refine ⟨hw, ?_, ?_, h2⟩
      · intro b hb; exact absurd hb (by simp [list_entry.fresh])
      · intro b hb
        obtain ⟨x1, x2, x3, x4⟩ := h0 b hb
        exact ⟨x1, x2, x4⟩
  · by_cases c2 : s.generations_2.count = 0
    · rw [shift_two_buckets s hne0 c1 c2]
      refine ⟨hw, ?_, ?_, ?_⟩
      · intro b hb; exact absurd hb (by simp [list_entry.fresh])
      · intro b hb
        obtain ⟨x1, x2, x3, x4⟩ := h0 b hb
        exact ⟨x1, x2, x3⟩
      · intro b hb
        obtain ⟨x1, x2, x3⟩ := h1 b hb
        exact ⟨x1, x2⟩
    · have hp2 : 0 < s.generations_2.count := entry_ok_pos _ k2 c2
      have h3 : s.active_generation_count = 3 := by
        have := a2 hp2
        simp only [generation_count] at ha
        omega
      rw [shift_three_buckets s hne0 c1 c2 h3]
      refine ⟨hw, ?_, ?_, ?_⟩
      · intro b hb; exact absurd hb (by simp [list_entry.fresh])
      · intro b hb
        obtain ⟨x1, x2, x3, x4⟩ := h0 b hb
        exact ⟨x1, x2, x3⟩
      · intro b hb
        obtain ⟨x1, x2, x3⟩ := h1 b hb
        exact ⟨x1, x2⟩

theorem first_arrival_handles_ok (s : basic_condition_variable) (ht : table_ok_with 1 s)
    (h : handles_ok s) : handles_ok (first_arrival s) := by
  have key : ∀ t : basic_condition_variable, table_ok_with 1 t → handles_ok t →
      handles_ok
        (if (t.generations 0).notified = true then shift_generations_down t
         else if t.active_generation_count = 0 then { t with active_generation_count := 1 }
         else t) := by
    intro t ht1 ht2
    split_ifs with hn hz
    · exact shift_handles_ok 1 t ht1 ht2 hn
    · exact handles_ok_of_fields t _ ht2 rfl rfl rfl rfl rfl
    · exact ht2
  unfold first_arrival
  by_cases hw : s.wake_sem = none
  · simp only [hw, if_true]
    apply key
    · exact table_ok_with_of_fields 1 s _ ht rfl rfl rfl rfl rfl
    · obtain ⟨_, h0, h1, h2⟩ := h
      simp only [create_anonymous_semaphore]
      refine ⟨?_, ?_, ?_, ?_⟩
      · intro w hx
        simp only [Option.some.injEq] at hx
        simp only
        omega
      · intro b hb
        obtain ⟨x1, x2, x3, x4⟩ := h0 b hb
        refine ⟨by simp only; omega, ?_, x3, x4⟩
        simp only [ne_eq, Option.some.injEq]
        omega
      · intro b hb
        obtain ⟨x1, x2, x3⟩ := h1 b hb
        refine ⟨by simp only; omega, ?_, x3⟩
        simp only [ne_eq, Option.some.injEq]
        omega
      · intro b hb
        obtain ⟨x1, x2⟩ := h2 b hb
        refine ⟨by simp only; omega, ?_⟩
        simp only [ne_eq, Option.some.injEq]
        omega
  · simp only [hw, if_false]
    exact key s ht h

theorem enroll_handles_ok (s : basic_condition_variable) (f : do_wait_frame)
    (ht : table_ok s) (h : handles_ok s) : handles_ok (enroll s f).1 := by
  rw [enroll_cv]
  apply join_generation_0_handles_ok
  have hb : table_ok_with 1 { s with total_count := s.total_count + 1 } := by
    obtain ⟨ha, k0, k1, k2, hs, a1, a2, a0⟩ := ht
    exact ⟨ha, k0, k1, k2, by simp only; omega, a1, a2, a0⟩
  have hh : handles_ok { s with total_count := s.total_count + 1 } :=
    handles_ok_of_fields s _ h rfl rfl rfl rfl rfl
  split_ifs
  · exact first_arrival_handles_ok _ hb hh
  · exact hh

theorem reachable_handles_ok (y : system) (h : y.reachable) :
    table_ok y.cv ∧ handles_ok y.cv :=
  reachable_induction (fun s => table_ok s ∧ handles_ok s)
    ⟨table_ok_construct, handles_ok_construct⟩
    (fun s f hs => ⟨enroll_table_ok s f hs.1, enroll_handles_ok s f hs.1 hs.2⟩)
    (fun s h hs => ⟨WaitForSingleObject_table_ok h s hs.1,
      handles_ok_of_kept s _ hs.2 (WaitForSingleObject_kept h s)⟩)
    (fun s hs => ⟨notify_one_table_ok s hs.1, handles_ok_of_kept s _ hs.2 (notify_one_kept s)⟩)
    (fun s hs => ⟨notify_all_table_ok s hs.1, handles_ok_of_kept s _ hs.2 (notify_all_kept s)⟩)
    y h

end basic_condition_variable

namespace basic_condition_variable

theorem copy_backward_active (last : Nat) : ∀ (s : basic_condition_variable) (d_last : Nat),
    (copy_backward s last d_last).active_generation_count = s.active_generation_count := by
  induction last with
  | zero => intro s d_last; rfl
  | succ n ih =>
    intro s d_last
    simp only [copy_backward]
    rw [ih, set_generation_active]

theorem shift_full_active (s : basic_condition_variable) (h0 : s.generations_0.count ≠ 0)
    (h1 : s.generations_1.count ≠ 0) (h2 : s.generations_2.count ≠ 0) :
    (shift_generations_down s).active_generation_count = s.active_generation_count := by
  obtain ⟨tc, agc, e0, e1, e2, w, p, nx⟩ := s
  simp only at h0 h1 h2
  simp [shift_generations_down, remove_if, remove_if_from, no_waiters, generations, entry_at,
    set_generation, generation_count, copy_backward_active, broadcast_entry, ReleaseSemaphore,
    h0, h1, h2]

theorem kept_entries_length_le (s : basic_condition_variable) : (kept_entries s).length ≤ 3 := by
  unfold kept_entries
  exact (List.length_filter_le _ _).trans (by simp)

theorem kept_entries_full (s : basic_condition_variable) (h : ¬ (kept_entries s).length ≤ 2) :
    s.generations_0.count ≠ 0 ∧ s.generations_1.count ≠ 0 ∧ s.generations_2.count ≠ 0 := by
  by_cases h0 : s.generations_0.count = 0 <;> by_cases h1 : s.generations_1.count = 0 <;>
    by_cases h2 : s.generations_2.count = 0
  all_goals
    first
    | have b0 := no_waiters_of_zero _ h0
    | have b0 := no_waiters_of_ne _ h0
  all_goals
    first
    | have b1 := no_waiters_of_zero _ h1
    | have b1 := no_waiters_of_ne _ h1
  all_goals
    first
    | have b2 := no_waiters_of_zero _ h2
    | have b2 := no_waiters_of_ne _ h2
  all_goals
    first
    | exact ⟨h0, h1, h2⟩
    | (exfalso
       apply h
       simp only [kept_entries, List.filter, b0, b1, b2, List.length_cons, List.length_nil]
       omega)

theorem notify_one_empty_bucket (s : basic_condition_variable) (i : Nat)
    (h : (s.generations i).count = 0) : s.notify_one.generations i = s.generations i := by
  unfold notify_one
  split_ifs
  · obtain ⟨h1, _, h3, _⟩ :=
      notify_one_loop_spec s.active_generation_count (ReleaseSemaphore s.wake_sem 1 s)
    by_cases hi : i < s.active_generation_count
    · exact h3 i hi h
    · exact h1 i (by omega)
  · rfl

theorem notify_all_empty_bucket (s : basic_condition_variable) (i : Nat)
    (h : (s.generations i).count = 0) : s.notify_all.generations i = s.generations i := by
  by_cases hz : s.total_count = 0
  · have : s.notify_all = s := by simp [notify_all, hz]
    rw [this]
  · rw [(notify_all_fields s hz).1 i, if_neg (fun hx => hx.2 h)]

end basic_condition_variable

/-- C11: in every reachable state `active_generation_count ≤ 3` and the count of every bucket
is at least 0.  `shift_generations_down`, called with `active_generation_count ≤ 3`, returns
with `active_generation_count ≤ 3`; and neither `notify_one` nor `notify_all` changes a bucket
whose count is 0 (no count is decremented below 0). -/
theorem generation_bounds :
    (∀ y : system, y.reachable →
      y.cv.active_generation_count ≤ generation_count ∧
      ∀ i, i < generation_count → 0 ≤ (y.cv.generations i).count) ∧
    (∀ s : basic_condition_variable, s.active_generation_count ≤ generation_count →
      s.shift_generations_down.active_generation_count ≤ generation_count) ∧
    (∀ (s : basic_condition_variable) (i : Nat), (s.generations i).count = 0 →
      s.notify_one.generations i = s.generations i ∧
      s.notify_all.generations i = s.generations i) := by
  refine ⟨?_, ?_, ?_⟩
  · intro y hy
    obtain ⟨ha, k0, k1, k2, _⟩ := basic_condition_variable.reachable_table_ok y hy
    refine ⟨ha, ?_⟩
    intro i hi
    simp only [generation_count] at hi
    have h3 : i = 0 ∨ i = 1 ∨ i = 2 := by omega
    rcases h3 with h3 | h3 | h3 <;> subst h3
    · exact k0.1
    · exact k1.1
    · exact k2.1
  · intro s hs
    by_cases hk : (basic_condition_variable.kept_entries s).length ≤ 2
    · rw [(basic_condition_variable.shift_compacts_spec s hk).1]
      simp only [generation_count]
      omega
    · obtain ⟨h0, h1, h2⟩ := basic_condition_variable.kept_entries_full s hk
      rw [basic_condition_variable.shift_full_active s h0 h1 h2]
      exact hs
  · intro s i h
    exact ⟨basic_condition_variable.notify_one_empty_bucket s i h,
      basic_condition_variable.notify_all_empty_bucket s i h⟩

/-- C11, witness: the bounds in the state with three active generations. -/
theorem generation_bounds_witness :
    ∃ y, system.start.run full_table_schedule = some y ∧
      y.cv.active_generation_count = 3 ∧
      y.cv.active_generation_count ≤ generation_count ∧
      y.cv.shift_generations_down.active_generation_count ≤ generation_count :=
  ⟨_, rfl, by decide, (generation_bounds.1 _ ⟨full_table_schedule, rfl⟩).1,
    generation_bounds.2.1 _ (by decide)⟩

/-- C12: when bucket 0 is notified, all three buckets have waiters and
`active_generation_count = 3`, `shift_generations_down` broadcasts the oldest bucket with
`wake = false`: `total_count` drops by the count of bucket 2, the semaphore of bucket 2
receives that many permits and no other semaphore receives any (so the wake semaphore, a
different kernel object, keeps its permits), `active_generation_count` is 3 afterwards and
the table is a fresh empty bucket, the old bucket 0 and the old bucket 1.  In every reachable
state in which all three buckets have waiters, `active_generation_count` is 3 and the handle
of the wake semaphore is not the handle of bucket 2. -/
theorem shift_evicts_oldest :
    (∀ s : basic_condition_variable, s.generations_0.notified = true →
      0 < s.generations_0.count → 0 < s.generations_1.count → 0 < s.generations_2.count →
      s.active_generation_count = generation_count →
      s.shift_generations_down.total_count = s.total_count - s.generations_2.count ∧
      (∀ j, s.shift_generations_down.permits j =
        s.permits j +
          (if s.generations_2.semaphore = some j then s.generations_2.count.toNat else 0)) ∧
      (s.wake_sem ≠ s.generations_2.semaphore →
        s.shift_generations_down.permits_of s.shift_generations_down.wake_sem =
          s.permits_of s.wake_sem) ∧
      s.shift_generations_down.wake_sem = s.wake_sem ∧
      s.shift_generations_down.active_generation_count = 3 ∧
      s.shift_generations_down.generations 0 = list_entry.fresh ∧
      s.shift_generations_down.generations 1 = s.generations 0 ∧
      s.shift_generations_down.generations 2 = s.generations 1) ∧
    (∀ y : system, y.reachable →
      0 < y.cv.generations_0.count → 0 < y.cv.generations_1.count →
      0 < y.cv.generations_2.count →
      y.cv.active_generation_count = generation_count ∧
      y.cv.wake_sem ≠ y.cv.generations_2.semaphore) := by
  constructor
  · intro s _ h0 h1 h2 ha
    simp only [generation_count] at ha
    rw [basic_condition_variable.shift_three_buckets s (by omega) (by omega) (by omega) ha]
    refine ⟨rfl, ?_, ?_, rfl, by simp [ha], rfl, rfl, rfl⟩
    · intro j
      simp only [basic_condition_variable.ReleaseSemaphore]
      split_ifs <;> simp
    · intro hw
      simp only [basic_condition_variable.ReleaseSemaphore,
        basic_condition_variable.permits_of]
      cases hws : s.wake_sem with
      | none => rfl
      | some w =>
        simp only
        rw [if_neg]
        intro hc
        exact hw (by rw [hws, hc])
  · intro y hy h0 h1 h2
    obtain ⟨ht, hh⟩ := basic_condition_variable.reachable_handles_ok y hy
    obtain ⟨ha, _, _, k2, _, _, a2, _⟩ := ht
    obtain ⟨_, _, _, x2⟩ := hh
    refine ⟨?_, ?_⟩
    · have := a2 h2
      simp only [generation_count] at ha ⊢
      omega
    · intro hc
      cases hs : y.cv.generations_2.semaphore with
      | none =>
        have := k2.2.1.2 h2
        exact this hs
      | some b =>
        exact (x2 b hs).2 (by rw [hc, hs])

/-- C12, witness: the shift in the reachable state with three buckets of one waiter each. -/
theorem shift_evicts_oldest_witness :
    ∃ y, system.start.run full_table_schedule = some y ∧
      y.cv.generations_0.notified = true ∧ y.cv.total_count = 3 ∧
      y.cv.shift_generations_down.total_count = 2 ∧
      y.cv.shift_generations_down.active_generation_count = 3 :=
  ⟨_, rfl, by decide, by decide,
    ((shift_evicts_oldest.1 _ (by decide) (by decide) (by decide) (by decide)
      (by decide)).1.trans (by decide)),
    (shift_evicts_oldest.1 _ (by decide) (by decide) (by decide) (by decide)
      (by decide)).2.2.2.2.1⟩

/-- C13: when at most two buckets have a count that is not 0 (whether or not bucket 0 is
notified), `shift_generations_down` sets `active_generation_count` to the number of those
buckets plus 1, places them in their original order at the indices 1, 2, ... with count,
semaphore and notified flag unchanged, makes bucket 0 the empty bucket, and leaves
`total_count`, the wake semaphore and all permits unchanged. -/
theorem shift_compacts (s : basic_condition_variable)
    (h : (basic_condition_variable.kept_entries s).length ≤ 2) :
    s.shift_generations_down.active_generation_count =
      (basic_condition_variable.kept_entries s).length + 1 ∧
    (∀ k, k < (basic_condition_variable.kept_entries s).length →
      (basic_condition_variable.kept_entries s)[k]? =
        some (s.shift_generations_down.generations (k + 1))) ∧
    s.shift_generations_down.generations 0 = list_entry.fresh ∧
    s.shift_generations_down.total_count = s.total_count ∧
    s.shift_generations_down.wake_sem = s.wake_sem ∧
    s.shift_generations_down.permits = s.permits :=
  basic_condition_variable.shift_compacts_spec s h

/-- C13, witness: the shift after five enrollments and one `notify_one`: one bucket is kept. -/
theorem shift_compacts_witness :
    ∃ y, system.start.run
        [action.wait, action.wait, action.wait, action.wait, action.wait,
         action.notify_one] = some y ∧
      y.cv.generations_0.notified = true ∧
      y.cv.shift_generations_down.active_generation_count = 2 ∧
      (y.cv.shift_generations_down.generations 1).count = 4 :=
  ⟨_, rfl, by decide, (shift_compacts _ (by decide)).1.trans (by decide), by decide⟩

/-- C19: in every reachable state `total_count` is the sum of the counts of the three
buckets, active or not, and is not negative; a wait on a semaphore, signalled or timed out,
changes neither `total_count` nor any bucket. -/
theorem total_count_is_sum :
    (∀ y : system, y.reachable →
      y.cv.total_count =
        (y.cv.generations 0).count + (y.cv.generations 1).count + (y.cv.generations 2).count ∧
      0 ≤ y.cv.total_count) ∧
    (∀ (h : handle) (s : basic_condition_variable),
      (basic_condition_variable.WaitForSingleObject h s).2.total_count = s.total_count ∧
      (basic_condition_variable.WaitForSingleObject h s).2.generations = s.generations) := by
  constructor
  · intro y hy
    obtain ⟨_, k0, k1, k2, hs, _⟩ := basic_condition_variable.reachable_table_ok y hy
    have p0 := k0.1
    have p1 := k1.1
    have p2 := k2.1
    simp only [basic_condition_variable.generations_zero,
      basic_condition_variable.generations_one, basic_condition_variable.generations_two]
    constructor <;> omega
  · intro h s
    unfold basic_condition_variable.WaitForSingleObject
    cases h with
    | none => exact ⟨rfl, rfl⟩
    | some i =>
      simp only
      split_ifs
      · exact ⟨rfl, rfl⟩
      · exact ⟨rfl, rfl⟩

/-- C19, witness: the sum in the state with three buckets of one waiter each. -/
theorem total_count_is_sum_witness :
    ∃ y, system.start.run full_table_schedule = some y ∧
      y.cv.total_count = 3 ∧
      y.cv.total_count =
        (y.cv.generations 0).count + (y.cv.generations 1).count + (y.cv.generations 2).count :=
  ⟨_, rfl, by decide, (total_count_is_sum.1 _ ⟨full_table_schedule, rfl⟩).1⟩

namespace basic_condition_variable

theorem notify_all_body_wake_sem (s : basic_condition_variable) (g : Nat) :
    (notify_all_body s g).wake_sem = s.wake_sem :=
  (notify_all_body_kept s g).1

theorem notify_all_body_permits (s : basic_condition_variable) (g j : Nat) :
    (notify_all_body s g).permits j =
      s.permits j + (if s.wake_sem = some j then (s.generations g).count.toNat else 0) +
        (if (s.generations g).semaphore = some j then (s.generations g).count.toNat else 0) := by
  by_cases hc : (s.generations g).count = 0
  · rw [notify_all_body_empty s g hc, hc]
    simp
  · have hb : notify_all_body s g = broadcast_entry g true s := by
      simp [notify_all_body, hc]
    rw [hb]
    simp only [broadcast_entry, set_generation_permits, if_true, ReleaseSemaphore_permits,
      ReleaseSemaphore_wake_sem]

theorem released_below_congr (s t : basic_condition_variable) (n : Nat)
    (h : ∀ i, i < n → t.generations i = s.generations i) :
    released_below t n = released_below s n := by
  induction n with
  | zero => rfl
  | succ n ih =>
    simp only [released_below]
    rw [ih (fun i hi => h i (by omega)), h n (by omega)]

theorem released_on_below_congr (s t : basic_condition_variable) (j n : Nat)
    (h : ∀ i, i < n → t.generations i = s.generations i) :
    released_on_below t j n = released_on_below s j n := by
  induction n with
  | zero => rfl
  | succ n ih =>
    simp only [released_on_below]
    rw [ih (fun i hi => h i (by omega)), h n (by omega)]

theorem notify_all_loop_permits (n : Nat) : ∀ (s : basic_condition_variable) (j : Nat),
    (notify_all_loop s n).permits j =
      s.permits j + (if s.wake_sem = some j then released_below s n else 0) +
        released_on_below s j n ∧
    (notify_all_loop s n).wake_sem = s.wake_sem := by
  induction n with
  | zero =>
    intro s j
    simp [notify_all_loop, released_below, released_on_below]
  | succ n ih =>
    intro s j
    obtain ⟨h1, h2⟩ := ih (notify_all_body s n) j
    have hother : ∀ i, i < n → (notify_all_body s n).generations i = s.generations i := by
      intro i hi
      rw [notify_all_body_generations, if_neg (by omega)]
    simp only [notify_all_loop]
    refine ⟨?_, by rw [h2, notify_all_body_wake_sem]⟩
    rw [h1, notify_all_body_permits, notify_all_body_wake_sem,
      released_below_congr s _ n hother, released_on_below_congr s _ j n hother]
    simp only [released_below, released_on_below]
    split_ifs <;> omega

theorem released_below_eq_count (s : basic_condition_variable) (n : Nat)
    (h : ∀ i, i < n → 0 ≤ (s.generations i).count) :
    (released_below s n : Int) = count_below s n := by
  induction n with
  | zero => rfl
  | succ n ih =>
    simp only [released_below, count_below]
    have := h n (by omega)
    rw [← ih (fun i hi => h i (by omega))]
    push_cast
    omega

theorem released_on_below_none (s : basic_condition_variable) (j n : Nat)
    (h : ∀ i, (s.generations i).semaphore ≠ some j) : released_on_below s j n = 0 := by
  induction n with
  | zero => rfl
  | succ n ih =>
    simp only [released_on_below]
    rw [ih, if_neg (h n)]

theorem handles_ok_wake (s : basic_condition_variable) (h : handles_ok s) (w : Nat)
    (hw : s.wake_sem = some w) (i : Nat) : (s.generations i).semaphore ≠ some w := by
  obtain ⟨_, h0, h1, h2⟩ := h
  intro hc
  by_cases hi : i < 3
  · have h3 : i = 0 ∨ i = 1 ∨ i = 2 := by omega
    rcases h3 with h3 | h3 | h3 <;> subst h3 <;>
      simp only [generations_zero, generations_one, generations_two] at hc
    · exact (h0 w hc).2.1 hw
    · exact (h1 w hc).2.1 hw
    · exact (h2 w hc).2 hw
  · rw [generations_outside s i (by omega)] at hc
    simp [list_entry.fresh] at hc

theorem handles_ok_distinct (s : basic_condition_variable) (h : handles_ok s) (i k b : Nat)
    (hik : i ≠ k) (hi : (s.generations i).semaphore = some b) :
    (s.generations k).semaphore ≠ some b := by
  obtain ⟨_, h0, h1, h2⟩ := h
  intro hk
  have hi3 : i < 3 := by
    by_contra hc
    rw [generations_outside s i (by omega)] at hi
    simp [list_entry.fresh] at hi
  have hk3 : k < 3 := by
    by_contra hc
    rw [generations_outside s k (by omega)] at hk
    simp [list_entry.fresh] at hk
  have a3 : i = 0 ∨ i = 1 ∨ i = 2 := by omega
  have b3 : k = 0 ∨ k = 1 ∨ k = 2 := by omega
  rcases a3 with a3 | a3 | a3 <;> rcases b3 with b3 | b3 | b3 <;> subst a3 <;> subst b3 <;>
    simp only [generations_zero, generations_one, generations_two] at hi hk
  · exact hik rfl
  · exact (h0 b hi).2.2.1 hk
  · exact (h0 b hi).2.2.2 hk
  · exact (h0 b hk).2.2.1 hi
  · exact hik rfl
  · exact (h1 b hi).2.2 hk
  · exact (h0 b hk).2.2.2 hi
  · exact (h1 b hk).2.2 hi
  · exact hik rfl

theorem released_on_below_single (s : basic_condition_variable) (i b : Nat) (n : Nat)
    (hi : (s.generations i).semaphore = some b)
    (hd : ∀ k, k ≠ i → (s.generations k).semaphore ≠ some b) :
    released_on_below s b n = if i < n then (s.generations i).count.toNat else 0 := by
  induction n with
  | zero => rfl
  | succ n ih =>
    simp only [released_on_below]
    rw [ih]
    by_cases hin : n = i
    · subst hin
      rw [if_neg (by omega), if_pos hi, if_pos (by omega)]
      omega
    · rw [if_neg (hd n hin)]
      by_cases hlt : i < n
      · rw [if_pos hlt, if_pos (by omega)]
        rfl
      · rw [if_neg hlt, if_neg (by omega)]

end basic_condition_variable

/-- C14: in a state with `total_count != 0` (and `active_generation_count ≤ generation_count`),
`notify_all` calls `broadcast_entry(entry,true)` for each active bucket whose count is not 0:
such a bucket becomes empty (count 0, no semaphore, not notified), every other bucket is
unchanged, `total_count` decreases by the sum of the counts of the active buckets,
`active_generation_count` becomes 0, and each kernel semaphore receives the counts of the
active buckets whose handle refers to it, plus all of them if it is the wake semaphore.  In a
reachable state, where counts are not negative and all handles are different, the wake
semaphore gains exactly the number by which `total_count` decreases and the semaphore of each
drained bucket gains exactly the count of that bucket. -/
theorem notify_all_drains :
    (∀ s : basic_condition_variable, s.total_count ≠ 0 →
      s.active_generation_count ≤ generation_count →
      (∀ g, basic_condition_variable.notify_all_body s g =
        if (s.generations g).count ≠ 0 then basic_condition_variable.broadcast_entry g true s
        else s) ∧
      (∀ i, i < s.active_generation_count → (s.generations i).count ≠ 0 →
        s.notify_all.generations i = { semaphore := none, count := 0, notified := false }) ∧
      (∀ i, s.active_generation_count ≤ i ∨ (s.generations i).count = 0 →
        s.notify_all.generations i = s.generations i) ∧
      s.notify_all.total_count =
        s.total_count - basic_condition_variable.count_below s s.active_generation_count ∧
      s.notify_all.active_generation_count = 0 ∧
      s.notify_all.wake_sem = s.wake_sem ∧
      (∀ j, s.notify_all.permits j =
        s.permits j +
          (if s.wake_sem = some j then
            basic_condition_variable.released_below s s.active_generation_count else 0) +
          basic_condition_variable.released_on_below s j s.active_generation_count)) ∧
    (∀ y : system, y.reachable → y.cv.total_count ≠ 0 →
      ((basic_condition_variable.released_below y.cv y.cv.active_generation_count : Nat) : Int) =
        basic_condition_variable.count_below y.cv y.cv.active_generation_count ∧
      (∀ w, y.cv.wake_sem = some w →
        y.cv.notify_all.permits w =
          y.cv.permits w +
            basic_condition_variable.released_below y.cv y.cv.active_generation_count) ∧
      (∀ i b, i < y.cv.active_generation_count → (y.cv.generations i).semaphore = some b →
        y.cv.notify_all.permits b = y.cv.permits b + (y.cv.generations i).count.toNat)) := by
  constructor
  · intro s hz _
    obtain ⟨hg, ht, ha⟩ := basic_condition_variable.notify_all_fields s hz
    have hn : s.notify_all =
        { basic_condition_variable.notify_all_loop s s.active_generation_count with
          active_generation_count := 0 } := by
      simp [basic_condition_variable.notify_all, hz]
    refine ⟨fun g => rfl, ?_, ?_, ht, ha, ?_, ?_⟩
    · intro i hi hc
      rw [hg i, if_pos ⟨hi, hc⟩]
    · intro i hi
      rw [hg i, if_neg]
      intro hx
      rcases hi with hi | hi
      · omega
      · exact hx.2 hi
    · rw [hn]
      exact (basic_condition_variable.notify_all_loop_permits _ s 0).2
    · intro j
      rw [hn]
      exact (basic_condition_variable.notify_all_loop_permits _ s j).1
  · intro y hy hz
    obtain ⟨htab, hh⟩ := basic_condition_variable.reachable_handles_ok y hy
    have hn : y.cv.notify_all =
        { basic_condition_variable.notify_all_loop y.cv y.cv.active_generation_count with
          active_generation_count := 0 } := by
      simp [basic_condition_variable.notify_all, hz]
    have hperm := fun j =>
      (basic_condition_variable.notify_all_loop_permits y.cv.active_generation_count y.cv j).1
    have hnonneg : ∀ i, 0 ≤ (y.cv.generations i).count := by
      intro i
      obtain ⟨_, k0, k1, k2, _⟩ := htab
      by_cases hi : i < 3
      · have h3 : i = 0 ∨ i = 1 ∨ i = 2 := by omega
        rcases h3 with h3 | h3 | h3 <;> subst h3
        · exact k0.1
        · exact k1.1
        · exact k2.1
      · rw [basic_condition_variable.generations_outside _ i (by omega)]
        exact le_refl 0
    refine ⟨basic_condition_variable.released_below_eq_count _ _ (fun i _ => hnonneg i), ?_, ?_⟩
    · intro w hw
      rw [hn]
      show (basic_condition_variable.notify_all_loop y.cv
        y.cv.active_generation_count).permits w = _
      rw [hperm w, if_pos hw,
        basic_condition_variable.released_on_below_none y.cv w _
          (basic_condition_variable.handles_ok_wake y.cv hh w hw)]
      rfl
    · intro i b hi hb
      rw [hn]
      show (basic_condition_variable.notify_all_loop y.cv
        y.cv.active_generation_count).permits b = _
      rw [hperm b, basic_condition_variable.released_on_below_single y.cv i b _ hb
        (fun k hk => basic_condition_variable.handles_ok_distinct y.cv hh i k b
          (fun e => hk e.symm) hb), if_pos hi, if_neg]
      · omega
      · intro hw
        exact basic_condition_variable.handles_ok_wake y.cv hh b hw i hb

/-- C14, witness: `notify_all` in the reachable state with three buckets of one waiter
each. -/
theorem notify_all_drains_witness :
    ∃ y, system.start.run full_table_schedule = some y ∧ y.cv.total_count = 3 ∧
      y.cv.notify_all.total_count = 0 ∧ y.cv.notify_all.active_generation_count = 0 ∧
      y.cv.wake_sem = some 0 ∧ y.cv.notify_all.permits 0 = y.cv.permits 0 + 3 :=
  ⟨_, rfl, by decide,
    ((notify_all_drains.1 _ (by decide) (by decide)).2.2.2.1.trans (by decide)),
    (notify_all_drains.1 _ (by decide) (by decide)).2.2.2.2.1,
    by decide,
    ((notify_all_drains.2 _ ⟨full_table_schedule, rfl⟩ (by decide)).2.1 0
      (by decide)).trans (by decide)⟩

namespace basic_condition_variable

end basic_condition_variable

/-- C16, as the code has it: when the decrement of `notify_one` takes the count of a bucket
from 1 to 0, the bucket is disposed (no semaphore, not notified), and
`active_generation_count` is decremented by one if the bucket is the oldest active one at that
moment (`generation == active_generation_count`, that is index
`active_generation_count - 1`) and left unchanged otherwise. -/
theorem notify_one_empties_bucket (s : basic_condition_variable) (g : Nat)
    (hg : g < generation_count) (h : (s.generations g).count = 1) :
    (basic_condition_variable.notify_one_body s g).generations g =
      { semaphore := none, count := 0, notified := false } ∧
    (basic_condition_variable.notify_one_body s g).active_generation_count =
      (if g + 1 = s.active_generation_count then s.active_generation_count - 1
       else s.active_generation_count) := by
  simp only [generation_count] at hg
  constructor
  · rw [basic_condition_variable.notify_one_body_hit s g hg (by rw [h]; decide), h]
    simp [basic_condition_variable.dispose_entry_eq]
  · have hcase := basic_condition_variable.notify_one_body_active s g
    split_ifs with hx
    · unfold basic_condition_variable.notify_one_body
      simp [h, hx]
    · rcases hcase with hcase | hcase
      · exact hcase
      · exact absurd hcase.2.1 hx

/-- C16, witness: with one waiter in bucket 0 and no other bucket active, the decrement of
`notify_one` empties bucket 0, the oldest active bucket, and `active_generation_count`
becomes 0. -/
theorem notify_one_empties_bucket_witness :
    ∃ y, system.start.run [action.wait] = some y ∧
      (basic_condition_variable.notify_one_body y.cv 0).generations 0 =
        { semaphore := none, count := 0, notified := false } ∧
      (basic_condition_variable.notify_one_body y.cv 0).active_generation_count = 0 :=
  ⟨_, rfl, (notify_one_empties_bucket _ 0 (by decide) (by decide)).1,
    (notify_one_empties_bucket _ 0 (by decide) (by decide)).2.trans (by decide)⟩

/-- C16, counterexample: with one waiter in bucket 0 and two in bucket 1, `notify_one`
empties bucket 0, the youngest active bucket, and `active_generation_count` stays 2; with two
waiters in bucket 0 and one in bucket 1, `notify_one` empties bucket 1, which is not the
youngest, and `active_generation_count` drops from 2 to 1. -/
theorem youngest_bucket_counterexample :
    (∃ y, system.start.run
        [action.wait, action.wait, action.wait, action.notify_one, action.wait] = some y ∧
      (y.cv.generations 0).count = 1 ∧ (y.cv.generations 1).count = 2 ∧
      y.cv.active_generation_count = 2 ∧
      (y.cv.notify_one.generations 0).count = 0 ∧
      y.cv.notify_one.active_generation_count = 2) ∧
    (∃ y, system.start.run
        [action.wait, action.wait, action.notify_one, action.wait, action.wait] = some y ∧
      (y.cv.generations 0).count = 2 ∧ (y.cv.generations 1).count = 1 ∧
      y.cv.active_generation_count = 2 ∧
      (y.cv.notify_one.generations 1).count = 0 ∧
      (y.cv.notify_one.generations 0).count = 1 ∧
      y.cv.notify_one.active_generation_count = 1) :=
  ⟨⟨_, rfl, by decide, by decide, by decide, by decide, by decide⟩,
   ⟨_, rfl, by decide, by decide, by decide, by decide, by decide, by decide⟩⟩

namespace basic_condition_variable

theorem reachable_system_induction (P : system → Prop) (h0 : P system.start)
    (hstep : ∀ (y y1 : system) (a : action), P y → y.step a = some y1 → P y1) :
    ∀ y : system, y.reachable → P y := by
  have run_ok : ∀ (steps : List action) (y y1 : system), P y →
      y.run steps = some y1 → P y1 := by
    intro steps
    induction steps with
    | nil =>
      intro y y1 hy hr
      simp only [system.run, Option.some.injEq] at hr
      rw [← hr]
      exact hy
    | cons a rest ih =>
      intro y y1 hy hr
      simp only [system.run] at hr
      cases hs : y.step a with
      | none => simp [hs] at hr
      | some y2 =>
        simp only [hs] at hr
        exact ih y2 y1 (hstep y y2 a hy hs) hr
  intro y hy
  obtain ⟨steps, hr⟩ := hy
  exact run_ok steps system.start y h0 hr

theorem join_generation_0_wake_sem (s : basic_condition_variable) :
    (join_generation_0 s).wake_sem = s.wake_sem := by
  obtain ⟨tc, agc, ⟨m0, c0, n0⟩, e1, e2, w, p, nx⟩ := s
  cases m0 <;>
    simp [join_generation_0, generations, entry_at, set_generation, create_anonymous_semaphore]

theorem copy_backward_wake_sem (last : Nat) : ∀ (s : basic_condition_variable) (d_last : Nat),
    (copy_backward s last d_last).wake_sem = s.wake_sem := by
  induction last with
  | zero => intro s d_last; rfl
  | succ n ih =>
    intro s d_last
    simp only [copy_backward]
    rw [ih, set_generation_wake_sem]

theorem remove_if_from_wake_sem (l : List Nat) : ∀ (s : basic_condition_variable) (r : Nat),
    (remove_if_from s r l).1.wake_sem = s.wake_sem := by
  induction l with
  | nil => intro s r; rfl
  | cons i rest ih =>
    intro s r
    simp only [remove_if_from]
    split_ifs
    · exact ih s r
    · rw [ih, set_generation_wake_sem]

theorem shift_wake_sem (s : basic_condition_variable) :
    (shift_generations_down s).wake_sem = s.wake_sem := by
  unfold shift_generations_down
  simp only [set_generation_wake_sem, copy_backward_wake_sem]
  split_ifs
  · simp only [broadcast_entry, set_generation_wake_sem, ReleaseSemaphore_wake_sem]
    simp only [Bool.false_eq_true, if_false]
    exact remove_if_from_wake_sem _ _ _
  · exact remove_if_from_wake_sem _ _ _

theorem first_arrival_wake_sem (s : basic_condition_variable) :
    (first_arrival s).wake_sem ≠ none := by
  unfold first_arrival
  by_cases hw : s.wake_sem = none
  · simp only [hw, if_true]
    split_ifs
    · rw [shift_wake_sem]; simp [create_anonymous_semaphore]
    · simp [create_anonymous_semaphore]
    · simp [create_anonymous_semaphore]
  · simp only [hw, if_false]
    split_ifs
    · rw [shift_wake_sem]; exact hw
    · exact hw
    · exact hw

theorem enroll_wake_sem (s : basic_condition_variable) (f : do_wait_frame)
    (h : f.first_loop = true ∨ s.wake_sem ≠ none) : (enroll s f).1.wake_sem ≠ none := by
  rw [enroll_cv, join_generation_0_wake_sem]
  split_ifs with hf
  · exact first_arrival_wake_sem _
  · rcases h with h | h
    · exact absurd h hf
    · exact h

theorem reachable_wake_sem (y : system) (h : y.reachable) :
    y.cv.wake_sem = none → y.threads = [] ∧ y.cv.total_count = 0 := by
  refine reachable_system_induction
    (fun y => y.cv.wake_sem = none → y.threads = [] ∧ y.cv.total_count = 0) ?_ ?_ y h
  · intro _
    exact ⟨rfl, rfl⟩
  · intro y y1 a hy hs
    have hthread : ∀ (i : Nat) (t : thread), y.threads[i]? = some t → y.cv.wake_sem ≠ none := by
      intro i t ht hc
      have := (hy hc).1
      rw [this] at ht
      simp at ht
    cases a with
    | wait =>
      simp only [system.step, Option.some.injEq] at hs
      rw [← hs]
      intro hc
      exact absurd hc (enroll_wake_sem _ _ (Or.inl rfl))
    | bucket_wait i =>
      simp only [system.step] at hs
      split at hs
      · rename_i f heq
        simp only [Option.some.injEq] at hs
        rw [← hs]
        intro hc
        have hk := (WaitForSingleObject_kept f.sem y.cv).1
        exact absurd (hk.symm.trans hc) (hthread i _ heq)
      · exact absurd hs (by simp)
    | wake_poll i =>
      simp only [system.step] at hs
      split at hs
      · rename_i f heq
        simp only [Option.some.injEq] at hs
        rw [← hs]
        intro hc
        have hk := (WaitForSingleObject_kept f.local_wake_sem y.cv).1
        exact absurd (hk.symm.trans hc) (hthread i _ heq)
      · exact absurd hs (by simp)
    | reenroll i =>
      simp only [system.step] at hs
      split at hs
      · rename_i f heq
        simp only [Option.some.injEq] at hs
        rw [← hs]
        intro hc
        exact absurd hc (enroll_wake_sem _ _ (Or.inr (hthread i _ heq)))
      · exact absurd hs (by simp)
    | notify_one =>
      simp only [system.step, Option.some.injEq] at hs
      rw [← hs]
      intro hc
      have hk := (notify_one_kept y.cv).1
      obtain ⟨h1, h2⟩ := hy (hk.symm.trans hc)
      refine ⟨h1, ?_⟩
      show y.cv.notify_one.total_count = 0
      simp [notify_one, h2]
    | notify_all =>
      simp only [system.step, Option.some.injEq] at hs
      rw [← hs]
      intro hc
      have hk := (notify_all_kept y.cv).1
      obtain ⟨h1, h2⟩ := hy (hk.symm.trans hc)
      refine ⟨h1, ?_⟩
      show y.cv.notify_all.total_count = 0
      simp [notify_all, h2]

end basic_condition_variable

/-- C20: in every reachable state `total_count != 0` implies that `wake_sem` is not the null
handle, so that the permit that `notify_one` releases on `wake_sem`, and the permits that
`notify_all` releases on it, do reach the wake semaphore: in such a state `notify_one` adds
exactly one permit to it. -/
theorem wake_sem_exists (y : system) (h : y.reachable) (ht : y.cv.total_count ≠ 0) :
    y.cv.wake_sem ≠ none ∧
    ∃ w, y.cv.wake_sem = some w ∧ y.cv.notify_one.permits w = y.cv.permits w + 1 := by
  have hne : y.cv.wake_sem ≠ none := by
    intro hc
    exact ht (basic_condition_variable.reachable_wake_sem y h hc).2
  refine ⟨hne, ?_⟩
  cases hw : y.cv.wake_sem with
  | none => exact absurd hw hne
  | some w =>
    refine ⟨w, rfl, ?_⟩
    obtain ⟨_, hh⟩ := basic_condition_variable.reachable_handles_ok y h
    have hn : y.cv.notify_one =
        basic_condition_variable.notify_one_loop
          (basic_condition_variable.ReleaseSemaphore y.cv.wake_sem 1 y.cv)
          y.cv.active_generation_count := by
      simp [basic_condition_variable.notify_one, ht]
    obtain ⟨_, _, _, _, h5, _⟩ :=
      basic_condition_variable.notify_one_loop_spec y.cv.active_generation_count
        (basic_condition_variable.ReleaseSemaphore y.cv.wake_sem 1 y.cv)
    rw [hn, h5 w, basic_condition_variable.ReleaseSemaphore_permits, if_pos hw]
    have hz : ∀ n, basic_condition_variable.nonempty_on_below
        (basic_condition_variable.ReleaseSemaphore y.cv.wake_sem 1 y.cv) w n = 0 := by
      intro n
      induction n with
      | zero => rfl
      | succ n ih =>
        simp only [basic_condition_variable.nonempty_on_below]
        rw [ih, if_neg]
        intro hx
        exact basic_condition_variable.handles_ok_wake y.cv hh w hw n hx.2
    rw [hz]
    simp

/-- C20, witness: one waiter has enrolled. -/
theorem wake_sem_exists_witness :
    ∃ y, system.start.run [action.wait] = some y ∧ y.cv.total_count = 1 ∧
      y.cv.wake_sem ≠ none :=
  ⟨_, rfl, by decide, (wake_sem_exists _ ⟨[action.wait], rfl⟩ (by decide)).1⟩

theorem internal_mutex_held_after_append (a b : List event) : ∀ held : Bool,
    internal_mutex_held_after held (a ++ b) =
      internal_mutex_held_after (internal_mutex_held_after held a) b := by
  induction a with
  | nil => intro held; rfl
  | cons e rest ih =>
    intro held
    cases e <;> simp only [List.cons_append, internal_mutex_held_after, List.append_eq, ih]

theorem waits_without_internal_mutex_append (a b : List event) : ∀ held : Bool,
    waits_without_internal_mutex held (a ++ b) =
      (waits_without_internal_mutex held a &&
        waits_without_internal_mutex (internal_mutex_held_after held a) b) := by
  induction a with
  | nil => intro held; simp [waits_without_internal_mutex, internal_mutex_held_after]
  | cons e rest ih =>
    intro held
    cases e <;>
      simp only [List.cons_append, internal_mutex_held_after, waits_without_internal_mutex,
        List.append_eq, ih, Bool.and_assoc]

/-- The events that one atomic step of a thread can add to its record. -/
theorem thread_ok_extend (tr suffix : List event) (p : location)
    (h1 : tr.take 5 = enroll_events true)
    (h2 : (tr.length = 5 ∧ ∃ b rest, suffix = event.bucket_wait b :: rest) ∨
      ∃ b, tr[5]? = some (event.bucket_wait b))
    (h3 : waits_without_internal_mutex false tr = true)
    (h4 : internal_mutex_held_after false tr = false)
    (h5 : waits_without_internal_mutex false suffix = true)
    (h6 : internal_mutex_held_after false suffix = false)
    (f : do_wait_frame) (hf : f.trace = tr ++ suffix) :
    thread_ok { frame := f, position := p } := by
  have hlen : 5 ≤ tr.length := by
    have := congrArg List.length h1
    simp only [List.length_take, enroll_events, if_true, List.length_cons, List.length_nil]
      at this
    omega
  refine ⟨?_, ?_, ?_, ?_⟩
  · show f.trace.take 5 = _
    rw [hf, List.take_append_of_le_length hlen]
    exact h1
  · right
    show ∃ b, f.trace[5]? = _
    rw [hf]
    rcases h2 with ⟨hl, b, rest, hb⟩ | ⟨b, hb⟩
    · refine ⟨b, ?_⟩
      rw [List.getElem?_append_right (by omega), hl, hb]
      simp
    · refine ⟨b, ?_⟩
      have hlt : 5 < tr.length := by
        by_contra hc
        rw [List.getElem?_eq_none (by omega)] at hb
        simp at hb
      rw [List.getElem?_append_left hlt]
      exact hb
  · show waits_without_internal_mutex false f.trace = true
    rw [hf, waits_without_internal_mutex_append, h3, h4, h5]
    rfl
  · show internal_mutex_held_after false f.trace = false
    rw [hf, internal_mutex_held_after_append, h4, h6]

theorem relocker_destroy_trace (f : do_wait_frame) :
    f.relocker_destroy.trace = f.trace ++ (if f.unlocked then [event.external_lock] else []) := by
  unfold do_wait_frame.relocker_destroy
  split_ifs <;> simp [do_wait_frame.log]

theorem enroll_events_balanced (b : Bool) :
    waits_without_internal_mutex false (enroll_events b) = true ∧
    internal_mutex_held_after false (enroll_events b) = false := by
  cases b <;> decide

theorem thread_ok_not_blocked (t : thread) (h : thread_ok t)
    (hp : t.position ≠ location.blocked) :
    ∃ b, t.frame.trace[5]? = some (event.bucket_wait b) := by
  rcases h.2.1 with ⟨_, hb⟩ | hb
  · exact absurd hb hp
  · exact hb

theorem reachable_thread_ok (y : system) (h : y.reachable) :
    ∀ t, t ∈ y.threads → thread_ok t := by
  refine basic_condition_variable.reachable_system_induction
    (fun y => ∀ t, t ∈ y.threads → thread_ok t) ?_ ?_ y h
  · intro t ht
    simp [system.start] at ht
  · intro y y1 a hy hs
    cases a with
    | wait =>
      simp only [system.step, Option.some.injEq] at hs
      rw [← hs]
      intro t ht
      simp only [List.mem_append, List.mem_singleton] at ht
      rcases ht with ht | ht
      · exact hy t ht
      · rw [ht]
        have htr := basic_condition_variable.enroll_trace y.cv (do_wait_frame.enter true)
        simp only [do_wait_frame.enter, List.nil_append] at htr
        refine ⟨?_, ?_, ?_, ?_⟩
        · show List.take 5 (y.cv.enroll (do_wait_frame.enter true)).2.trace = _
          rw [show (y.cv.enroll (do_wait_frame.enter true)).2.trace = enroll_events true
            from htr]
          rfl
        · left
          refine ⟨?_, rfl⟩
          show (y.cv.enroll (do_wait_frame.enter true)).2.trace.length = 5
          rw [show (y.cv.enroll (do_wait_frame.enter true)).2.trace = enroll_events true
            from htr]
          rfl
        · show waits_without_internal_mutex false
            (y.cv.enroll (do_wait_frame.enter true)).2.trace = true
          rw [show (y.cv.enroll (do_wait_frame.enter true)).2.trace = enroll_events true
            from htr]
          rfl
        · show internal_mutex_held_after false
            (y.cv.enroll (do_wait_frame.enter true)).2.trace = false
          rw [show (y.cv.enroll (do_wait_frame.enter true)).2.trace = enroll_events true
            from htr]
          rfl
    | bucket_wait i =>
      simp only [system.step] at hs
      split at hs
      · rename_i f heq
        simp only [Option.some.injEq] at hs
        rw [← hs]
        intro t ht
        rcases List.mem_or_eq_of_mem_set ht with ht | ht
        · exact hy t ht
        · have hold := hy _ (List.getElem?_mem heq)
          obtain ⟨o1, o2, o3, o4⟩ := hold
          have h2 : ∀ rest, (f.trace.length = 5 ∧
              ∃ b r, event.bucket_wait (y.cv.bucket_wait f).1 :: rest = event.bucket_wait b :: r) ∨
              ∃ b, f.trace[5]? = some (event.bucket_wait b) := by
            intro rest
            rcases o2 with ⟨hl, _⟩ | hb
            · exact Or.inl ⟨hl, _, _, rfl⟩
            · exact Or.inr hb
          rw [ht]
          split_ifs
          · exact thread_ok_extend f.trace [event.bucket_wait (y.cv.bucket_wait f).1] _ o1
              (h2 []) o3 o4 rfl rfl _ rfl
          · cases hu : f.unlocked
            · refine thread_ok_extend f.trace [event.bucket_wait (y.cv.bucket_wait f).1] _ o1
                (h2 []) o3 o4 rfl rfl _ ?_
              rw [relocker_destroy_trace, basic_condition_variable.bucket_wait_frame]
              simp [do_wait_frame.log, hu]
            · refine thread_ok_extend f.trace
                [event.bucket_wait (y.cv.bucket_wait f).1, event.external_lock] _ o1
                (h2 [event.external_lock]) o3 o4 rfl rfl _ ?_
              rw [relocker_destroy_trace, basic_condition_variable.bucket_wait_frame]
              simp [do_wait_frame.log, hu]
      · exact absurd hs (by simp)
    | wake_poll i =>
      simp only [system.step] at hs
      split at hs
      · rename_i f heq
        simp only [Option.some.injEq] at hs
        rw [← hs]
        intro t ht
        rcases List.mem_or_eq_of_mem_set ht with ht | ht
        · exact hy t ht
        · have hold := hy _ (List.getElem?_mem heq)
          have hnb := thread_ok_not_blocked _ hold (by simp)
          obtain ⟨o1, _, o3, o4⟩ := hold
          rw [ht]
          split_ifs
          · cases hu : f.unlocked
            · refine thread_ok_extend f.trace [event.wake_poll (y.cv.wake_poll f).2.woken] _ o1
                (Or.inr hnb) o3 o4 rfl rfl _ ?_
              rw [relocker_destroy_trace, basic_condition_variable.wake_poll_frame]
              simp [do_wait_frame.log, hu]
            · refine thread_ok_extend f.trace
                [event.wake_poll (y.cv.wake_poll f).2.woken, event.external_lock] _ o1
                (Or.inr hnb) o3 o4 rfl rfl _ ?_
              rw [relocker_destroy_trace, basic_condition_variable.wake_poll_frame]
              simp [do_wait_frame.log, hu]
          · refine thread_ok_extend f.trace [event.wake_poll (y.cv.wake_poll f).2.woken] _ o1
              (Or.inr hnb) o3 o4 rfl rfl _ ?_
            rw [basic_condition_variable.wake_poll_frame]
            simp [do_wait_frame.log]
      · exact absurd hs (by simp)
    | reenroll i =>
      simp only [system.step] at hs
      split at hs
      · rename_i f heq
        simp only [Option.some.injEq] at hs
        rw [← hs]
        intro t ht
        rcases List.mem_or_eq_of_mem_set ht with ht | ht
        · exact hy t ht
        · have hold := hy _ (List.getElem?_mem heq)
          have hnb := thread_ok_not_blocked _ hold (by simp)
          obtain ⟨o1, _, o3, o4⟩ := hold
          rw [ht]
          exact thread_ok_extend f.trace (enroll_events f.first_loop) _ o1 (Or.inr hnb) o3 o4
            (enroll_events_balanced _).1 (enroll_events_balanced _).2 _
            (basic_condition_variable.enroll_trace y.cv f)
      · exact absurd hs (by simp)
    | notify_one =>
      simp only [system.step, Option.some.injEq] at hs
      rw [← hs]
      exact hy
    | notify_all =>
      simp only [system.step, Option.some.injEq] at hs
      rw [← hs]
      exact hy

theorem iteration_events_balanced (stale : Nat) : ∀ (first_loop woken : Bool),
    waits_without_internal_mutex false (iteration_events first_loop stale woken) = true ∧
    internal_mutex_held_after false (iteration_events first_loop stale woken) = false := by
  induction stale with
  | zero => intro first_loop woken; cases first_loop <;> cases woken <;> decide
  | succ n ih =>
    intro first_loop woken
    obtain ⟨h1, h2⟩ := ih false woken
    have h3 : waits_without_internal_mutex false
        (enroll_events first_loop ++ [event.bucket_wait true, event.wake_poll false]) = true ∧
        internal_mutex_held_after false
        (enroll_events first_loop ++ [event.bucket_wait true, event.wake_poll false]) = false := by
      cases first_loop <;> decide
    simp only [iteration_events]
    rw [waits_without_internal_mutex_append, h3.1, h3.2, h1, internal_mutex_held_after_append,
      h3.2, h2]
    exact ⟨rfl, rfl⟩

namespace basic_condition_variable

theorem bucket_wait_timed_out (s : basic_condition_variable) (f : do_wait_frame)
    (h : (bucket_wait s f).1 = false) :
    (bucket_wait s f).2.1 = s ∧
    (bucket_wait s f).2.2 = f.log (event.bucket_wait false) := by
  have hf := bucket_wait_frame s f
  rw [h] at hf
  refine ⟨?_, hf⟩
  simp only [bucket_wait, WaitForSingleObject] at h ⊢
  cases hs : f.sem with
  | none => rfl
  | some i =>
    simp only [hs] at h ⊢
    split_ifs with hp
    · simp [hp] at h
    · rfl

theorem nonempty_below_pos (s : basic_condition_variable) (i : Nat)
    (hc : (s.generations i).count ≠ 0) : ∀ n, i < n → 1 ≤ nonempty_below s n := by
  intro n
  induction n with
  | zero => intro h; omega
  | succ n ih =>
    intro h
    simp only [nonempty_below]
    by_cases hin : i = n
    · subst hin
      rw [if_pos hc]
      omega
    · have := ih (by omega)
      omega

end basic_condition_variable

/-- C17: when the bucket wait of an iteration of `do_wait` times out, the loop ends there:
the condition variable is the one the enrollment of that iteration and the other threads
have left, `do_wait` changes nothing more in it, makes no poll of the wake semaphore and
returns `false`.  The waiter stays counted: after one enrollment and its timeout
`total_count` and the count of bucket 0 are still 1, and a `notify_one` that follows takes
both to 0; in general a `notify_one` in a state with `total_count != 0` where bucket 0 is
active with a count that is not 0 decrements that count and lowers `total_count`, whether or
not the waiters are still there. -/
theorem timed_out_waiter_stays_enrolled :
    (∀ (r : interference) (rest : List interference) (s : basic_condition_variable)
        (f : do_wait_frame), f.woken = false →
      (basic_condition_variable.bucket_wait (r.blocked ((r.entering s).enroll f).1)
        ((r.entering s).enroll f).2).1 = false →
      basic_condition_variable.do_wait_loop (r :: rest) s f =
        some (r.blocked ((r.entering s).enroll f).1,
              ((r.entering s).enroll f).2.log (event.bucket_wait false))) ∧
    (∀ (r : interference) (rest : List interference) (s : basic_condition_variable),
      (basic_condition_variable.bucket_wait
        (r.blocked ((r.entering s).enroll (do_wait_frame.enter true)).1)
        ((r.entering s).enroll (do_wait_frame.enter true)).2).1 = false →
      ∃ res, s.do_wait (r :: rest) true = some res ∧ res.woken = false ∧
        res.cv = r.blocked ((r.entering s).enroll (do_wait_frame.enter true)).1 ∧
        res.frame.trace =
          enroll_events true ++ [event.bucket_wait false, event.external_lock]) ∧
    (∃ y, system.start.run [action.wait, action.bucket_wait 0] = some y ∧
      y.threads.map (fun t => (t.position, t.frame.woken)) = [(location.returned, false)] ∧
      y.cv.total_count = 1 ∧ (y.cv.generations 0).count = 1 ∧
      y.cv.notify_one.total_count = 0 ∧ (y.cv.notify_one.generations 0).count = 0) ∧
    (∀ s : basic_condition_variable, s.total_count ≠ 0 → 0 < s.active_generation_count →
      (s.generations 0).count ≠ 0 →
      (s.notify_one.generations 0).count = (s.generations 0).count - 1 ∧
      s.notify_one.total_count ≤ s.total_count - 1) := by
  have loop : ∀ (r : interference) (rest : List interference) (s : basic_condition_variable)
      (f : do_wait_frame), f.woken = false →
      (basic_condition_variable.bucket_wait (r.blocked ((r.entering s).enroll f).1)
        ((r.entering s).enroll f).2).1 = false →
      basic_condition_variable.do_wait_loop (r :: rest) s f =
        some (r.blocked ((r.entering s).enroll f).1,
              ((r.entering s).enroll f).2.log (event.bucket_wait false)) := by
    intro r rest s f hw ht
    obtain ⟨h1, h2⟩ := basic_condition_variable.bucket_wait_timed_out _ _ ht
    simp only [basic_condition_variable.do_wait_loop, hw, Bool.false_eq_true, if_false, ht,
      if_true]
    exact congrArg some (Prod.ext h1 h2)
  refine ⟨loop, ?_, ?_, ?_⟩
  · intro r rest s ht
    have hl := loop r rest s (do_wait_frame.enter true) rfl ht
    have hu := basic_condition_variable.enroll_unlocked (r.entering s) (do_wait_frame.enter true)
    have htr := basic_condition_variable.enroll_trace (r.entering s) (do_wait_frame.enter true)
    have hwk := basic_condition_variable.enroll_woken (r.entering s) (do_wait_frame.enter true)
    simp only [do_wait_frame.enter, Bool.true_or, List.nil_append] at hu htr hwk
    have hd : s.do_wait (r :: rest) true =
        some { woken := ((((r.entering s).enroll (do_wait_frame.enter true)).2.log
                 (event.bucket_wait false)).relocker_destroy).woken,
               cv := r.blocked ((r.entering s).enroll (do_wait_frame.enter true)).1,
               frame := (((r.entering s).enroll (do_wait_frame.enter true)).2.log
                 (event.bucket_wait false)).relocker_destroy } := by
      simp only [basic_condition_variable.do_wait, hl]
    refine ⟨_, hd, ?_, rfl, ?_⟩
    · simp [do_wait_frame.relocker_destroy, do_wait_frame.log, do_wait_frame.enter, hu, hwk]
    · simp [do_wait_frame.relocker_destroy, do_wait_frame.log, do_wait_frame.enter, hu, htr]
  · exact ⟨_, rfl, by decide, by decide, by decide, by decide, by decide⟩
  · intro s hz ha hc
    have hn : s.notify_one =
        basic_condition_variable.notify_one_loop
          (basic_condition_variable.ReleaseSemaphore s.wake_sem 1 s)
          s.active_generation_count := by
      simp [basic_condition_variable.notify_one, hz]
    obtain ⟨_, h2, _, h4, _, _⟩ :=
      basic_condition_variable.notify_one_loop_spec s.active_generation_count
        (basic_condition_variable.ReleaseSemaphore s.wake_sem 1 s)
    rw [hn]
    refine ⟨h2 0 ha hc, ?_⟩
    rw [h4]
    have := basic_condition_variable.nonempty_below_pos
      (basic_condition_variable.ReleaseSemaphore s.wake_sem 1 s) 0 hc _ ha
    show s.total_count - _ ≤ _
    omega

/-- C17, witness: a first call on the freshly constructed condition variable whose bucket
wait times out. -/
theorem timed_out_waiter_stays_enrolled_witness :
    ∃ res, basic_condition_variable.construct.do_wait [interference.timing_out] true =
        some res ∧
      res.woken = false ∧ res.cv.total_count = 1 ∧ (res.cv.generations 0).count = 1 ∧
      res.frame.trace = enroll_events true ++ [event.bucket_wait false, event.external_lock] := by
  obtain ⟨res, h1, h2, h3, h4⟩ :=
    timed_out_waiter_stays_enrolled.2.1 interference.timing_out []
      basic_condition_variable.construct (basic_condition_variable.bucket_wait_drained _ _)
  refine ⟨res, h1, h2, ?_, ?_, h4⟩
  · rw [h3]; decide
  · rw [h3]; decide

theorem enroll_snapshot_block (s : basic_condition_variable) (f : do_wait_frame) :
    s.enroll f = ((enroll_snapshot s f 7).cv,
      (enroll_snapshot s f 7).frame.log event.internal_mutex_unlock) := by
  simp only [basic_condition_variable.enroll, enroll_snapshot, enroll_statements, List.take,
    List.foldl, enrollment.lock_internal_mutex, enrollment.increment_total_count,
    enrollment.unlock_external, enrollment.first_loop_rest, enrollment.create_bucket_semaphore,
    enrollment.increment_bucket_count, enrollment.duplicate_bucket_semaphore,
    do_wait_frame.log, do_wait_frame.relocker_unlock]
  cases hf : f.first_loop
  · simp only [Bool.false_eq_true, if_false]
    split_ifs <;> rfl
  · simp only [if_true]
    split_ifs <;> rfl

theorem enroll_snapshot_internal_lock (s : basic_condition_variable) (f : do_wait_frame)
    (k : Nat) (h1 : 1 ≤ k) (h7 : k ≤ 7) : (enroll_snapshot s f k).internal_lock = true := by
  have hk : k = 1 ∨ k = 2 ∨ k = 3 ∨ k = 4 ∨ k = 5 ∨ k = 6 ∨ k = 7 := by omega
  rcases hk with hk | hk | hk | hk | hk | hk | hk <;> subst hk <;>
    simp only [enroll_snapshot, enroll_statements, List.take, List.foldl,
      enrollment.lock_internal_mutex, enrollment.increment_total_count,
      enrollment.unlock_external, enrollment.first_loop_rest,
      enrollment.create_bucket_semaphore, enrollment.increment_bucket_count,
      enrollment.duplicate_bucket_semaphore, do_wait_frame.log,
      do_wait_frame.relocker_unlock] <;>
    cases hf : f.first_loop <;>
    simp only [Bool.false_eq_true, if_false, if_true] <;>
    split_ifs <;> rfl


theorem enroll_snapshot_last (s : basic_condition_variable) (f : do_wait_frame) :
    enroll_snapshot s f 8 =
      { enroll_snapshot s f 7 with
        internal_lock := false,
        frame := (enroll_snapshot s f 7).frame.log event.internal_mutex_unlock } := by
  have h7 := enroll_snapshot_internal_lock s f 7 (by decide) (by decide)
  have h8 : enroll_snapshot s f 8 =
      enrollment.unlock_internal_mutex (enroll_snapshot s f 7) := rfl
  rw [h8]
  simp only [enrollment.unlock_internal_mutex, h7, if_true]

theorem enroll_snapshot_eq (s : basic_condition_variable) (f : do_wait_frame) :
    s.enroll f = ((enroll_snapshot s f 8).cv, (enroll_snapshot s f 8).frame) := by
  rw [enroll_snapshot_last, enroll_snapshot_block]

/-- C18: the enrollment block of `do_wait` is its statements in program order
(`enroll_statements`; `enroll` is the state after the last of them), and in the first
iteration of a call their effects on the state come in this order: `internal_mutex` is
acquired and nothing else changes; `total_count` is incremented while the external lock is
still as on entry and no bucket has changed; the external lock is released, with the
incremented `total_count` in place; the count of bucket 0 is incremented, with the external
lock released and `internal_mutex` still held; `internal_mutex` is released.  In every
iteration, first or later, `internal_mutex` is held from the first statement of the block to
the last but one and is released by the last one, and the wait on the bucket semaphore and
the poll of the wake semaphore act on the state left by the complete block, so neither is
made while `internal_mutex` is held.  The record of events of a call that returns, and of
every thread of every reachable state, has the same order. -/
theorem first_iteration_order :
    (∀ (s : basic_condition_variable) (f : do_wait_frame),
      s.enroll f = ((enroll_snapshot s f 8).cv, (enroll_snapshot s f 8).frame)) ∧
    (∀ (s : basic_condition_variable) (f : do_wait_frame), f.first_loop = true →
      ((enroll_snapshot s f 0).internal_lock = false ∧
       (enroll_snapshot s f 1).internal_lock = true ∧
       (enroll_snapshot s f 1).cv = s ∧
       (enroll_snapshot s f 1).frame.lock_held = f.lock_held ∧
       (enroll_snapshot s f 1).frame.trace = f.trace ++ [event.internal_mutex_lock]) ∧
      ((enroll_snapshot s f 2).cv.total_count = s.total_count + 1 ∧
       (enroll_snapshot s f 2).cv.generations = s.generations ∧
       (enroll_snapshot s f 2).frame.lock_held = f.lock_held ∧
       (enroll_snapshot s f 2).internal_lock = true ∧
       (enroll_snapshot s f 2).frame.trace =
         f.trace ++ [event.internal_mutex_lock, event.total_count_increment]) ∧
      ((enroll_snapshot s f 3).frame.lock_held = false ∧
       (enroll_snapshot s f 3).frame.unlocked = true ∧
       (enroll_snapshot s f 3).cv = (enroll_snapshot s f 2).cv ∧
       (enroll_snapshot s f 3).internal_lock = true ∧
       (enroll_snapshot s f 3).frame.trace =
         f.trace ++ [event.internal_mutex_lock, event.total_count_increment,
                     event.external_unlock]) ∧
      ((enroll_snapshot s f 5).frame.lock_held = false ∧
       (enroll_snapshot s f 5).internal_lock = true ∧
       (enroll_snapshot s f 5).frame.trace = (enroll_snapshot s f 3).frame.trace) ∧
      (((enroll_snapshot s f 6).cv.generations 0).count =
         ((enroll_snapshot s f 5).cv.generations 0).count + 1 ∧
       (enroll_snapshot s f 6).cv.generations 1 = (enroll_snapshot s f 5).cv.generations 1 ∧
       (enroll_snapshot s f 6).cv.generations 2 = (enroll_snapshot s f 5).cv.generations 2 ∧
       (enroll_snapshot s f 6).cv.total_count = (enroll_snapshot s f 5).cv.total_count ∧
       (enroll_snapshot s f 6).frame.lock_held = false ∧
       (enroll_snapshot s f 6).internal_lock = true ∧
       (enroll_snapshot s f 6).frame.trace =
         f.trace ++ [event.internal_mutex_lock, event.total_count_increment,
                     event.external_unlock, event.bucket_count_increment]) ∧
      ((enroll_snapshot s f 8).internal_lock = false ∧
       (enroll_snapshot s f 8).cv = (enroll_snapshot s f 6).cv ∧
       (enroll_snapshot s f 8).frame.lock_held = false ∧
       (enroll_snapshot s f 8).frame.sem = ((enroll_snapshot s f 6).cv.generations 0).semaphore ∧
       (enroll_snapshot s f 8).frame.trace =
         f.trace ++ [event.internal_mutex_lock, event.total_count_increment,
                     event.external_unlock, event.bucket_count_increment,
                     event.internal_mutex_unlock])) ∧
    (∀ (s : basic_condition_variable) (f : do_wait_frame),
      (∀ k, 1 ≤ k → k ≤ 7 → (enroll_snapshot s f k).internal_lock = true) ∧
      (enroll_snapshot s f 8).internal_lock = false ∧
      ((enroll_snapshot s f 6).cv.generations 0).count =
        ((enroll_snapshot s f 5).cv.generations 0).count + 1 ∧
      (enroll_snapshot s f 2).cv.total_count = s.total_count + 1) ∧
    (∀ (r : interference) (rest : List interference) (s : basic_condition_variable)
        (f : do_wait_frame), f.woken = false →
      basic_condition_variable.do_wait_loop (r :: rest) s f =
        (let c := enroll_snapshot (r.entering s) f 8
         let w := basic_condition_variable.bucket_wait (r.blocked c.cv) c.frame
         if w.1 = false then some w.2
         else
           let p := basic_condition_variable.wake_poll (r.polling w.2.1) w.2.2
           basic_condition_variable.do_wait_loop rest p.1 p.2)) ∧
    (∀ (rounds : List interference) (s : basic_condition_variable) (r : do_wait_result),
      s.do_wait rounds true = some r →
      (∃ b, r.frame.trace.take 6 =
        [event.internal_mutex_lock, event.total_count_increment, event.external_unlock,
         event.bucket_count_increment, event.internal_mutex_unlock, event.bucket_wait b]) ∧
      waits_without_internal_mutex false r.frame.trace = true) ∧
    (∀ y : system, y.reachable → ∀ t, t ∈ y.threads →
      t.frame.trace.take 5 =
        [event.internal_mutex_lock, event.total_count_increment, event.external_unlock,
         event.bucket_count_increment, event.internal_mutex_unlock] ∧
      ((t.frame.trace.length = 5 ∧ t.position = location.blocked) ∨
        ∃ b, t.frame.trace[5]? = some (event.bucket_wait b)) ∧
      waits_without_internal_mutex false t.frame.trace = true ∧
      internal_mutex_held_after false t.frame.trace = false) := by
  refine ⟨enroll_snapshot_eq, ?_, ?_, ?_, ?_, ?_⟩
  · intro s f hf
    rw [enroll_snapshot_last]
    refine ⟨⟨?_, ?_, ?_, ?_, ?_⟩, ⟨?_, ?_, ?_, ?_, ?_⟩, ⟨?_, ?_, ?_, ?_, ?_⟩,
      ⟨?_, ?_, ?_⟩, ⟨?_, ?_, ?_, ?_, ?_, ?_, ?_⟩, ⟨?_, ?_, ?_, ?_, ?_⟩⟩
    all_goals
      simp only [enroll_snapshot, enroll_statements, List.take, List.foldl,
        enrollment.lock_internal_mutex, enrollment.increment_total_count,
        enrollment.unlock_external, enrollment.first_loop_rest,
        enrollment.create_bucket_semaphore, enrollment.increment_bucket_count,
        enrollment.duplicate_bucket_semaphore,
        do_wait_frame.log, do_wait_frame.relocker_unlock, hf, if_true] <;>
      first
        | rfl
        | (simp; done)
        | (split_ifs <;> rfl)
        | (split_ifs <;> simp)
  · intro s f
    refine ⟨enroll_snapshot_internal_lock s f, ?_, ?_, ?_⟩
    · rw [enroll_snapshot_last]
    · simp only [enroll_snapshot, enroll_statements, List.take, List.foldl,
        enrollment.increment_bucket_count]
      rfl
    · rfl
  · intro r rest s f hw
    simp only [basic_condition_variable.do_wait_loop, hw, Bool.false_eq_true, if_false]
    rw [enroll_snapshot_eq]
  · intro rounds s r h
    obtain ⟨_, _, _, stale, h4⟩ := basic_condition_variable.do_wait_spec rounds s true r h
    rw [h4]
    constructor
    · obtain ⟨b, rest, hb⟩ := iteration_events_start true stale r.woken
      refine ⟨b, ?_⟩
      simp only [do_wait_events, hb]
      rfl
    · simp only [do_wait_events]
      rw [waits_without_internal_mutex_append, (iteration_events_balanced stale true r.woken).1,
        (iteration_events_balanced stale true r.woken).2]
      rfl
  · intro y hy t ht
    exact reachable_thread_ok y hy t ht

/-- C18, witness: the first enrollment on the freshly constructed condition variable, entered
with the lock held: after the second statement `total_count` is 1 and the lock is still held,
after the third the lock is released, the count of bucket 0 goes from 0 to 1 at the sixth, and
`internal_mutex` is free after the last; `enroll` leaves `total_count` and the count of
bucket 0 at 1 and the lock released; and a call with a stale and then a woken iteration makes
no wait while `internal_mutex` is held. -/
theorem first_iteration_order_witness :
    ((enroll_snapshot basic_condition_variable.construct (do_wait_frame.enter true)
        2).cv.total_count = 1 ∧
     (enroll_snapshot basic_condition_variable.construct (do_wait_frame.enter true)
        2).frame.lock_held = true ∧
     (enroll_snapshot basic_condition_variable.construct (do_wait_frame.enter true)
        3).frame.lock_held = false ∧
     ((enroll_snapshot basic_condition_variable.construct (do_wait_frame.enter true)
        5).cv.generations 0).count = 0 ∧
     ((enroll_snapshot basic_condition_variable.construct (do_wait_frame.enter true)
        6).cv.generations 0).count = 1 ∧
     (enroll_snapshot basic_condition_variable.construct (do_wait_frame.enter true)
        8).internal_lock = false) ∧
    ((basic_condition_variable.construct.enroll (do_wait_frame.enter true)).1.total_count = 1 ∧
     ((basic_condition_variable.construct.enroll (do_wait_frame.enter true)).1.generations
        0).count = 1 ∧
     (basic_condition_variable.construct.enroll (do_wait_frame.enter true)).2.lock_held =
        false) ∧
    (∃ r, basic_condition_variable.construct.do_wait
        [interference.stale, interference.waking] true = some r ∧
      waits_without_internal_mutex false r.frame.trace = true) :=
  ⟨⟨(first_iteration_order.2.1 basic_condition_variable.construct (do_wait_frame.enter true)
        rfl).2.1.1,
    (first_iteration_order.2.1 basic_condition_variable.construct (do_wait_frame.enter true)
        rfl).2.1.2.2.1,
    (first_iteration_order.2.1 basic_condition_variable.construct (do_wait_frame.enter true)
        rfl).2.2.1.1,
    by decide,
    (first_iteration_order.2.1 basic_condition_variable.construct (do_wait_frame.enter true)
        rfl).2.2.2.2.1.1,
    (first_iteration_order.2.1 basic_condition_variable.construct (do_wait_frame.enter true)
        rfl).2.2.2.2.2.1⟩,
   ⟨by decide, by decide, by decide⟩,
   ⟨_, rfl, (first_iteration_order.2.2.2.2.1 [interference.stale, interference.waking]
      basic_condition_variable.construct _ rfl).2⟩⟩

namespace basic_condition_variable

theorem bucket_wait_permits (s : basic_condition_variable) (f : do_wait_frame) :
    (bucket_wait s f).1 = decide (0 < permits_of s f.sem) ∧
    (∀ j, (bucket_wait s f).2.1.permits j =
      s.permits j - (if f.sem = some j then 1 else 0)) ∧
    (bucket_wait s f).2.1.total_count = s.total_count ∧
    (bucket_wait s f).2.1.generations = s.generations ∧
    (bucket_wait s f).2.1.active_generation_count = s.active_generation_count ∧
    (bucket_wait s f).2.1.wake_sem = s.wake_sem ∧
    (bucket_wait s f).2.2 = f.log (event.bucket_wait (decide (0 < permits_of s f.sem))) := by
  simp only [bucket_wait, WaitForSingleObject, permits_of]
  cases hs : f.sem with
  | none => simp
  | some i =>
    by_cases hp : 0 < s.permits i
    · refine ⟨?_, ?_, ?_, ?_, ?_, ?_, ?_⟩
      · simp [hp]
      · intro j
        by_cases hj : j = i
        · subst hj
          simp [hp]
        · have hj2 : ¬ i = j := fun h => hj h.symm
          simp [hp, hj, hj2]
      all_goals first | rfl | (simp only [hp, if_true]; rfl) | simp [hp]
    · refine ⟨?_, ?_, ?_, ?_, ?_, ?_, ?_⟩
      · simp [hp]
      · intro j
        by_cases hj : i = j
        · subst hj
          simp only [hp, if_false, if_true]
          omega
        · simp [hp, hj]
      all_goals simp [hp]

theorem wake_poll_permits (s : basic_condition_variable) (f : do_wait_frame) :
    (wake_poll s f).2.woken = decide (0 < permits_of s f.local_wake_sem) ∧
    (∀ j, (wake_poll s f).1.permits j =
      s.permits j - (if f.local_wake_sem = some j then 1 else 0)) ∧
    (wake_poll s f).1.total_count = s.total_count ∧
    (wake_poll s f).1.generations = s.generations ∧
    (wake_poll s f).1.active_generation_count = s.active_generation_count ∧
    (wake_poll s f).1.wake_sem = s.wake_sem ∧
    (wake_poll s f).2 =
      { f.log (event.wake_poll (decide (0 < permits_of s f.local_wake_sem))) with
        woken := decide (0 < permits_of s f.local_wake_sem) } := by
  simp only [wake_poll, WaitForSingleObject, permits_of]
  cases hs : f.local_wake_sem with
  | none => simp
  | some i =>
    by_cases hp : 0 < s.permits i
    · refine ⟨?_, ?_, ?_, ?_, ?_, ?_, ?_⟩
      · simp [hp]
      · intro j
        by_cases hj : j = i
        · subst hj
          simp [hp]
        · have hj2 : ¬ i = j := fun h => hj h.symm
          simp [hp, hj, hj2]
      all_goals first | rfl | (simp only [hp, if_true]; rfl) | simp [hp]
    · refine ⟨?_, ?_, ?_, ?_, ?_, ?_, ?_⟩
      · simp [hp]
      · intro j
        by_cases hj : i = j
        · subst hj
          simp only [hp, if_false, if_true]
          omega
        · simp [hp, hj]
      all_goals simp [hp]

theorem wake_poll_failed (s : basic_condition_variable) (f : do_wait_frame)
    (h : permits_of s f.local_wake_sem = 0) :
    wake_poll s f = (s, { f.log (event.wake_poll false) with woken := false }) := by
  have hd : decide (0 < permits_of s f.local_wake_sem) = false := by simp [h]
  refine Prod.ext ?_ ?_
  · simp only [wake_poll, WaitForSingleObject]
    cases hs : f.local_wake_sem with
    | none => rfl
    | some i =>
      have : ¬ 0 < s.permits i := by
        simp only [permits_of, hs] at h
        omega
      simp [this]
  · rw [(wake_poll_permits s f).2.2.2.2.2.2, hd]

theorem do_wait_loop_iteration (r : interference) (rest : List interference)
    (s : basic_condition_variable) (f : do_wait_frame) (hw : f.woken = false) :
    (permits_of (iteration_blocked r s f).1 (iteration_blocked r s f).2.sem = 0 →
      do_wait_loop (r :: rest) s f =
        some ((iteration_blocked r s f).1,
              (iteration_blocked r s f).2.log (event.bucket_wait false))) ∧
    (0 < permits_of (iteration_blocked r s f).1 (iteration_blocked r s f).2.sem →
      0 < permits_of (iteration_polling r s f).1 (iteration_polling r s f).2.local_wake_sem →
      ∃ sf, do_wait_loop (r :: rest) s f = some sf ∧ sf.2.woken = true ∧
        sf.2.trace =
          (iteration_blocked r s f).2.trace ++
            [event.bucket_wait true, event.wake_poll true] ∧
        ∀ j, sf.1.permits j =
          (iteration_polling r s f).1.permits j -
            (if (iteration_polling r s f).2.local_wake_sem = some j then 1 else 0)) ∧
    (0 < permits_of (iteration_blocked r s f).1 (iteration_blocked r s f).2.sem →
      permits_of (iteration_polling r s f).1 (iteration_polling r s f).2.local_wake_sem = 0 →
      do_wait_loop (r :: rest) s f =
        do_wait_loop rest (iteration_polling r s f).1
          { (iteration_polling r s f).2.log (event.wake_poll false) with woken := false }) := by
  have hb := bucket_wait_permits (iteration_blocked r s f).1 (iteration_blocked r s f).2
  have hloop : do_wait_loop (r :: rest) s f =
      if (bucket_wait (iteration_blocked r s f).1 (iteration_blocked r s f).2).1 = false then
        some (bucket_wait (iteration_blocked r s f).1 (iteration_blocked r s f).2).2
      else
        do_wait_loop rest
          (wake_poll (iteration_polling r s f).1 (iteration_polling r s f).2).1
          (wake_poll (iteration_polling r s f).1 (iteration_polling r s f).2).2 := by
    simp only [do_wait_loop, hw, Bool.false_eq_true, if_false, iteration_blocked,
      iteration_polling]
  refine ⟨?_, ?_, ?_⟩
  · intro h0
    have hd : decide (0 < permits_of (iteration_blocked r s f).1
        (iteration_blocked r s f).2.sem) = false := by simp [h0]
    have h1 : (bucket_wait (iteration_blocked r s f).1 (iteration_blocked r s f).2).1 = false := by
      rw [hb.1, hd]
    rw [hloop, if_pos h1]
    have h2 := (bucket_wait_timed_out _ _ h1)
    exact congrArg some (Prod.ext h2.1 h2.2)
  · intro hp hq
    have hd : decide (0 < permits_of (iteration_blocked r s f).1
        (iteration_blocked r s f).2.sem) = true := by simp [hp]
    have h1 : ¬ (bucket_wait (iteration_blocked r s f).1 (iteration_blocked r s f).2).1 = false := by
      rw [hb.1, hd]
      simp
    have hwp := wake_poll_permits (iteration_polling r s f).1 (iteration_polling r s f).2
    have hdq : decide (0 < permits_of (iteration_polling r s f).1
        (iteration_polling r s f).2.local_wake_sem) = true := by simp [hq]
    have hwoken : (wake_poll (iteration_polling r s f).1 (iteration_polling r s f).2).2.woken
        = true := by rw [hwp.1, hdq]
    refine ⟨wake_poll (iteration_polling r s f).1 (iteration_polling r s f).2, ?_, hwoken, ?_,
      hwp.2.1⟩
    · rw [hloop, if_neg h1]
      cases rest with
      | nil => simp only [do_wait_loop, hwoken, if_true]
      | cons r2 rest2 => simp only [do_wait_loop, hwoken, if_true]
    · rw [hwp.2.2.2.2.2.2, hdq]
      have : (iteration_polling r s f).2 =
          (iteration_blocked r s f).2.log (event.bucket_wait true) := by
        simp only [iteration_polling]
        rw [hb.2.2.2.2.2.2, hd]
      rw [this]
      simp [do_wait_frame.log]
  · intro hp hq
    have hd : decide (0 < permits_of (iteration_blocked r s f).1
        (iteration_blocked r s f).2.sem) = true := by simp [hp]
    have h1 : ¬ (bucket_wait (iteration_blocked r s f).1 (iteration_blocked r s f).2).1 = false := by
      rw [hb.1, hd]
      simp
    rw [hloop, if_neg h1, wake_poll_failed _ _ hq]

theorem stale_iterations_loop (pre : List interference) :
    ∀ (s : basic_condition_variable) (f : do_wait_frame)
      (x : basic_condition_variable × do_wait_frame),
      f.woken = false → stale_iterations pre s f = some x →
      x.2.woken = false ∧
      ∀ tail, do_wait_loop (pre ++ tail) s f = do_wait_loop tail x.1 x.2 := by
  induction pre with
  | nil =>
    intro s f x hw h
    simp only [stale_iterations, Option.some.injEq] at h
    subst h
    exact ⟨hw, fun tail => rfl⟩
  | cons r rest ih =>
    intro s f x hw h
    simp only [stale_iterations] at h
    split_ifs at h with hc
    obtain ⟨h1, h2⟩ := ih _ _ x rfl h
    refine ⟨h1, ?_⟩
    intro tail
    rw [List.cons_append, (do_wait_loop_iteration r (rest ++ tail) s f hw).2.2 hc.1 hc.2]
    exact h2 tail

theorem do_wait_loop_last (rounds : List interference) :
    ∀ (s : basic_condition_variable) (f : do_wait_frame)
      (sf : basic_condition_variable × do_wait_frame),
      f.woken = false → do_wait_loop rounds s f = some sf →
      ∃ pre r post x, rounds = pre ++ r :: post ∧ stale_iterations pre s f = some x ∧
        (sf.2.woken = true ↔
          0 < permits_of (iteration_blocked r x.1 x.2).1 (iteration_blocked r x.1 x.2).2.sem ∧
          0 < permits_of (iteration_polling r x.1 x.2).1
            (iteration_polling r x.1 x.2).2.local_wake_sem) ∧
        (sf.2.woken = false ↔
          permits_of (iteration_blocked r x.1 x.2).1 (iteration_blocked r x.1 x.2).2.sem = 0) := by
  induction rounds with
  | nil =>
    intro s f sf hw h
    simp [do_wait_loop, hw] at h
  | cons r rest ih =>
    intro s f sf hw h
    obtain ⟨c1, c2, c3⟩ := do_wait_loop_iteration r rest s f hw
    by_cases hp : permits_of (iteration_blocked r s f).1 (iteration_blocked r s f).2.sem = 0
    · refine ⟨[], r, rest, (s, f), rfl, rfl, ?_⟩
      rw [c1 hp, Option.some.injEq] at h
      have hwk : sf.2.woken = false := by
        rw [← h]
        simp only [do_wait_frame.log, iteration_blocked]
        rw [enroll_woken, hw]
      rw [hwk]
      simp [hp]
    · have hp1 : 0 < permits_of (iteration_blocked r s f).1 (iteration_blocked r s f).2.sem :=
        Nat.pos_of_ne_zero hp
      by_cases hq : permits_of (iteration_polling r s f).1
          (iteration_polling r s f).2.local_wake_sem = 0
      · rw [c3 hp1 hq] at h
        obtain ⟨pre, r2, post, x, e1, e2, e3⟩ := ih _ _ sf rfl h
        refine ⟨r :: pre, r2, post, x, by rw [e1]; rfl, ?_, e3⟩
        simp only [stale_iterations]
        rw [if_pos ⟨hp1, hq⟩]
        exact e2
      · have hq1 := Nat.pos_of_ne_zero hq
        obtain ⟨sf2, k1, k2, _⟩ := c2 hp1 hq1
        rw [k1, Option.some.injEq] at h
        refine ⟨[], r, rest, (s, f), rfl, rfl, ?_⟩
        rw [← h, k2]
        simp only [true_iff, Bool.true_eq_false, false_iff]
        exact ⟨⟨hp1, hq1⟩, hp⟩

theorem do_wait_woken (rounds : List interference) (s : basic_condition_variable)
    (lock_held : Bool) :
    s.do_wait rounds lock_held =
      (do_wait_loop rounds s (do_wait_frame.enter lock_held)).map
        (fun sf => { woken := sf.2.woken, cv := sf.1, frame := sf.2.relocker_destroy }) := by
  unfold do_wait
  cases do_wait_loop rounds s (do_wait_frame.enter lock_held) with
  | none => rfl
  | some sf =>
    simp only [Option.map_some']
    congr 2
    simp only [do_wait_frame.relocker_destroy]
    split_ifs <;> rfl

end basic_condition_variable

/-- C5: a call of `do_wait` that returns goes through some number of iterations in which the
bucket semaphore has a permit at the bucket wait and the wake semaphore has none at the poll
(`stale_iterations`), and ends in the iteration after them: it returns `true` exactly when in
that iteration the bucket semaphore has a permit at the bucket wait and the wake semaphore has
a permit at the poll, and `false` exactly when the bucket semaphore has no permit at the
bucket wait (the wait times out).  Both waits are decided by the permits: each is signalled
exactly when its semaphore has a permit, takes one permit then and none otherwise, and changes
nothing else.  An iteration whose bucket wait is signalled and whose poll fails does not end
the call: the loop goes on with the next enrollment, and with no iteration left the call has
not returned.  Conversely the call does return, with that value, once an iteration times out
or is woken.  The record of events of the call says the same. -/
theorem do_wait_return_value (rounds : List interference) (s : basic_condition_variable)
    (lock_held : Bool) :
    ((∀ r, s.do_wait rounds lock_held = some r →
      (∃ stale, r.frame.trace = do_wait_events stale r.woken) ∧
      (r.woken = true ↔
        [event.bucket_wait true, event.wake_poll true, event.external_lock] <:+
          r.frame.trace) ∧
      (r.woken = false ↔ [event.bucket_wait false, event.external_lock] <:+ r.frame.trace) ∧
      (∀ pre post, r.frame.trace = pre ++ event.wake_poll false :: post →
        ∃ b rest, post = enroll_events false ++ event.bucket_wait b :: rest)) ∧
     (s.do_wait (rounds ++ [interference.timing_out]) lock_held).isSome = true ∧
     (s.do_wait (rounds ++ [interference.waking]) lock_held).isSome = true) ∧
    (∀ r, s.do_wait rounds lock_held = some r →
      ∃ pre last post x, rounds = pre ++ last :: post ∧
        basic_condition_variable.stale_iterations pre s (do_wait_frame.enter lock_held) =
          some x ∧
        (r.woken = true ↔
          0 < basic_condition_variable.permits_of
                (basic_condition_variable.iteration_blocked last x.1 x.2).1
                (basic_condition_variable.iteration_blocked last x.1 x.2).2.sem ∧
          0 < basic_condition_variable.permits_of
                (basic_condition_variable.iteration_polling last x.1 x.2).1
                (basic_condition_variable.iteration_polling last x.1 x.2).2.local_wake_sem) ∧
        (r.woken = false ↔
          basic_condition_variable.permits_of
            (basic_condition_variable.iteration_blocked last x.1 x.2).1
            (basic_condition_variable.iteration_blocked last x.1 x.2).2.sem = 0)) ∧
    (∀ (q : basic_condition_variable) (f : do_wait_frame),
      (q.bucket_wait f).1 = decide (0 < q.permits_of f.sem) ∧
      (∀ j, (q.bucket_wait f).2.1.permits j = q.permits j - (if f.sem = some j then 1 else 0)) ∧
      (q.bucket_wait f).2.1.total_count = q.total_count ∧
      (q.bucket_wait f).2.1.generations = q.generations ∧
      (q.bucket_wait f).2.1.active_generation_count = q.active_generation_count ∧
      (q.bucket_wait f).2.1.wake_sem = q.wake_sem ∧
      (q.bucket_wait f).2.2 = f.log (event.bucket_wait (decide (0 < q.permits_of f.sem)))) ∧
    (∀ (q : basic_condition_variable) (f : do_wait_frame),
      (q.wake_poll f).2.woken = decide (0 < q.permits_of f.local_wake_sem) ∧
      (∀ j, (q.wake_poll f).1.permits j =
        q.permits j - (if f.local_wake_sem = some j then 1 else 0)) ∧
      (q.wake_poll f).1.total_count = q.total_count ∧
      (q.wake_poll f).1.generations = q.generations ∧
      (q.wake_poll f).1.active_generation_count = q.active_generation_count ∧
      (q.wake_poll f).1.wake_sem = q.wake_sem ∧
      (q.wake_poll f).2 =
        { f.log (event.wake_poll (decide (0 < q.permits_of f.local_wake_sem))) with
          woken := decide (0 < q.permits_of f.local_wake_sem) }) ∧
    (∀ (r : interference) (rest : List interference) (q : basic_condition_variable)
        (f : do_wait_frame), f.woken = false →
      (basic_condition_variable.permits_of (basic_condition_variable.iteration_blocked r q f).1
          (basic_condition_variable.iteration_blocked r q f).2.sem = 0 →
        basic_condition_variable.do_wait_loop (r :: rest) q f =
          some ((basic_condition_variable.iteration_blocked r q f).1,
                (basic_condition_variable.iteration_blocked r q f).2.log
                  (event.bucket_wait false))) ∧
      (0 < basic_condition_variable.permits_of
            (basic_condition_variable.iteration_blocked r q f).1
            (basic_condition_variable.iteration_blocked r q f).2.sem →
        0 < basic_condition_variable.permits_of
              (basic_condition_variable.iteration_polling r q f).1
              (basic_condition_variable.iteration_polling r q f).2.local_wake_sem →
        ∃ sf, basic_condition_variable.do_wait_loop (r :: rest) q f = some sf ∧
          sf.2.woken = true ∧
          sf.2.trace =
            (basic_condition_variable.iteration_blocked r q f).2.trace ++
              [event.bucket_wait true, event.wake_poll true] ∧
          ∀ j, sf.1.permits j =
            (basic_condition_variable.iteration_polling r q f).1.permits j -
              (if (basic_condition_variable.iteration_polling r q f).2.local_wake_sem = some j
               then 1 else 0)) ∧
      (0 < basic_condition_variable.permits_of
            (basic_condition_variable.iteration_blocked r q f).1
            (basic_condition_variable.iteration_blocked r q f).2.sem →
        basic_condition_variable.permits_of
            (basic_condition_variable.iteration_polling r q f).1
            (basic_condition_variable.iteration_polling r q f).2.local_wake_sem = 0 →
        basic_condition_variable.do_wait_loop (r :: rest) q f =
          basic_condition_variable.do_wait_loop rest
            (basic_condition_variable.iteration_polling r q f).1
            { (basic_condition_variable.iteration_polling r q f).2.log
                (event.wake_poll false) with woken := false } ∧
        basic_condition_variable.do_wait_loop [] (basic_condition_variable.iteration_polling r q f).1
            { (basic_condition_variable.iteration_polling r q f).2.log
                (event.wake_poll false) with woken := false } = none)) ∧
    (∀ x, basic_condition_variable.stale_iterations rounds s (do_wait_frame.enter lock_held) =
        some x →
      ∀ (last : interference) (post : List interference),
        (basic_condition_variable.permits_of
            (basic_condition_variable.iteration_blocked last x.1 x.2).1
            (basic_condition_variable.iteration_blocked last x.1 x.2).2.sem = 0 →
          ∃ res, s.do_wait (rounds ++ last :: post) lock_held = some res ∧
            res.woken = false ∧
            res.cv = (basic_condition_variable.iteration_blocked last x.1 x.2).1) ∧
        (0 < basic_condition_variable.permits_of
              (basic_condition_variable.iteration_blocked last x.1 x.2).1
              (basic_condition_variable.iteration_blocked last x.1 x.2).2.sem →
          0 < basic_condition_variable.permits_of
                (basic_condition_variable.iteration_polling last x.1 x.2).1
                (basic_condition_variable.iteration_polling last x.1 x.2).2.local_wake_sem →
          ∃ res, s.do_wait (rounds ++ last :: post) lock_held = some res ∧
            res.woken = true) ∧
        (0 < basic_condition_variable.permits_of
              (basic_condition_variable.iteration_blocked last x.1 x.2).1
              (basic_condition_variable.iteration_blocked last x.1 x.2).2.sem →
          basic_condition_variable.permits_of
              (basic_condition_variable.iteration_polling last x.1 x.2).1
              (basic_condition_variable.iteration_polling last x.1 x.2).2.local_wake_sem = 0 →
          s.do_wait (rounds ++ [last]) lock_held = none)) := by
  refine ⟨⟨?_, basic_condition_variable.do_wait_returns rounds s lock_held⟩, ?_,
    basic_condition_variable.bucket_wait_permits, basic_condition_variable.wake_poll_permits,
    ?_, ?_⟩
  · intro r h
    obtain ⟨_, _, _, stale, h4⟩ := basic_condition_variable.do_wait_spec rounds s lock_held r h
    have hs := iteration_events_suffix true stale r.woken
    have hlast : ∀ a b : event, ∀ l : List event,
        [a, event.external_lock] <:+ l → [b, event.external_lock] <:+ l → a = b := by
      intro a b l ⟨p, hp⟩ ⟨q, hq⟩
      have h1 : (p ++ [a]) ++ [event.external_lock] = (q ++ [b]) ++ [event.external_lock] := by
        simp only [List.append_assoc, List.singleton_append]
        rw [hp, hq]
      have h2 := List.append_inj_left' h1 rfl
      have h3 := List.append_inj_right' h2 rfl
      simpa using h3
    have hdrop : [event.wake_poll true, event.external_lock] <:+
        [event.bucket_wait true, event.wake_poll true, event.external_lock] :=
      ⟨[event.bucket_wait true], rfl⟩
    refine ⟨⟨stale, h4⟩, ?_, ?_, ?_⟩
    · constructor
      · intro hw
        rw [h4]
        simpa [hw, do_wait_events] using hs
      · intro hsuf
        cases hw : r.woken
        · exfalso
          rw [h4, hw] at hsuf
          rw [hw] at hs
          have := hlast _ _ _ (hdrop.trans hsuf) (by simpa [do_wait_events] using hs)
          exact absurd this (by decide)
        · rfl
    · constructor
      · intro hw
        rw [h4]
        simpa [hw, do_wait_events] using hs
      · intro hsuf
        cases hw : r.woken
        · rfl
        · exfalso
          rw [h4, hw] at hsuf
          rw [hw] at hs
          have := hlast _ _ _ hsuf (hdrop.trans (by simpa [do_wait_events] using hs))
          exact absurd this (by decide)
    · intro pre post hp
      rw [h4] at hp
      exact iteration_events_stale stale true r.woken pre post hp
  · intro r h
    rw [basic_condition_variable.do_wait_woken, Option.map_eq_some'] at h
    obtain ⟨sf, h1, h2⟩ := h
    obtain ⟨pre, last, post, x, e1, e2, e3⟩ :=
      basic_condition_variable.do_wait_loop_last rounds s _ sf rfl h1
    refine ⟨pre, last, post, x, e1, e2, ?_⟩
    rw [← h2]
    exact e3
  · intro r rest q f hw
    obtain ⟨c1, c2, c3⟩ := basic_condition_variable.do_wait_loop_iteration r rest q f hw
    refine ⟨c1, c2, fun hp hq => ⟨c3 hp hq, ?_⟩⟩
    simp [basic_condition_variable.do_wait_loop]
  · intro x hx last post
    obtain ⟨hxw, hl⟩ :=
      basic_condition_variable.stale_iterations_loop rounds s _ x rfl hx
    refine ⟨?_, ?_, ?_⟩
    · intro h0
      obtain ⟨c1, _, _⟩ :=
        basic_condition_variable.do_wait_loop_iteration last post x.1 x.2 hxw
      have hd : s.do_wait (rounds ++ last :: post) lock_held =
          some { woken := ((basic_condition_variable.iteration_blocked last x.1 x.2).2.log
                   (event.bucket_wait false)).woken,
                 cv := (basic_condition_variable.iteration_blocked last x.1 x.2).1,
                 frame := ((basic_condition_variable.iteration_blocked last x.1 x.2).2.log
                   (event.bucket_wait false)).relocker_destroy } := by
        rw [basic_condition_variable.do_wait_woken, hl, c1 h0]
        rfl
      refine ⟨_, hd, ?_, rfl⟩
      simp only [do_wait_frame.log, basic_condition_variable.iteration_blocked]
      rw [basic_condition_variable.enroll_woken, hxw]
    · intro hp hq
      obtain ⟨_, c2, _⟩ :=
        basic_condition_variable.do_wait_loop_iteration last post x.1 x.2 hxw
      obtain ⟨sf, k1, k2, _⟩ := c2 hp hq
      have hd : s.do_wait (rounds ++ last :: post) lock_held =
          some { woken := sf.2.woken, cv := sf.1, frame := sf.2.relocker_destroy } := by
        rw [basic_condition_variable.do_wait_woken, hl, k1]
        rfl
      exact ⟨_, hd, k2⟩
    · intro hp hq
      obtain ⟨_, _, c3⟩ :=
        basic_condition_variable.do_wait_loop_iteration last [] x.1 x.2 hxw
      rw [basic_condition_variable.do_wait_woken, hl, c3 hp hq]
      simp [basic_condition_variable.do_wait_loop]

/-- C5, witness: on the freshly constructed condition variable, a stale iteration followed
by an iteration that finds a permit on both semaphores returns `true` after two enrollments,
and a first iteration that finds no permit on the bucket semaphore returns `false` after
one. -/
theorem do_wait_return_value_witness :
    (∃ r, basic_condition_variable.construct.do_wait
        [interference.stale, interference.waking] true = some r ∧
      r.woken = true ∧ r.cv.total_count = 2 ∧
      [event.bucket_wait true, event.wake_poll true, event.external_lock] <:+ r.frame.trace) ∧
    (∃ res, basic_condition_variable.construct.do_wait
        ([interference.stale] ++ interference.waking :: []) true = some res ∧
      res.woken = true) ∧
    (∃ res, basic_condition_variable.construct.do_wait
        ([] ++ interference.timing_out :: []) true = some res ∧
      res.woken = false ∧ res.cv.total_count = 1) :=
  ⟨⟨_, rfl, by decide, by decide,
    ((do_wait_return_value [interference.stale, interference.waking]
      basic_condition_variable.construct true).1.1 _ rfl).2.1.mp (by decide)⟩,
   ((do_wait_return_value [interference.stale] basic_condition_variable.construct
      true).2.2.2.2.2 _ rfl interference.waking []).2.1 (by decide) (by decide),
   (((do_wait_return_value [] basic_condition_variable.construct
      true).2.2.2.2.2 _ rfl interference.timing_out []).1 (by decide)).imp
      (fun res h => ⟨h.1, h.2.1, by rw [h.2.2]; decide⟩)⟩

theorem wait_pred_any_eq :
    condition_variable_any.wait_pred = condition_variable.wait_pred := by
  funext script
  induction script with
  | nil => rfl
  | cons c rest ih =>
    funext s lock_held
    obtain ⟨p, rounds⟩ := c
    simp only [condition_variable_any.wait_pred, condition_variable.wait_pred,
      condition_variable_any.wait, condition_variable.wait, ih]

theorem timed_wait_pred_any_eq :
    condition_variable_any.timed_wait_pred = condition_variable.timed_wait_pred := by
  funext script
  induction script with
  | nil => rfl
  | cons c rest ih =>
    funext s lock_held
    obtain ⟨p, rounds⟩ := c
    simp only [condition_variable_any.timed_wait_pred, condition_variable.timed_wait_pred,
      condition_variable_any.timed_wait, condition_variable.timed_wait, ih]

namespace condition_variable

theorem wait_pred_returns (falses : List (List interference)) :
    ∀ (rounds : List interference) (rest : List (Bool × List interference))
      (s : basic_condition_variable) (lock_held : Bool)
      (x : basic_condition_variable × Bool),
      basic_condition_variable.waits falses s lock_held = some x →
      wait_pred (pred_false falses ++ (true, rounds) :: rest) s lock_held =
        some { value := true, cv := x.1, lock_held := x.2,
               calls := wait_pred_calls falses.length } := by
  induction falses with
  | nil =>
    intro rounds rest s lock_held x h
    simp only [basic_condition_variable.waits, Option.some.injEq] at h
    subst h
    simp [wait_pred, pred_false, wait_pred_calls]
  | cons r more ih =>
    intro rounds rest s lock_held x h
    simp only [basic_condition_variable.waits] at h
    cases hd : s.do_wait r lock_held with
    | none => simp [hd] at h
    | some d =>
      simp only [hd] at h
      have := ih rounds rest d.cv d.frame.lock_held x h
      simp only [pred_false, List.map_cons, List.cons_append, wait_pred, wait, hd,
        Bool.not_false, if_true, List.append_eq]
      simp only [pred_false] at this
      rw [this]
      simp [wait_result.after, wait_pred_calls]

theorem wait_pred_script (script : List (Bool × List interference)) :
    ∀ (s : basic_condition_variable) (lock_held : Bool) (w : wait_result),
      wait_pred script s lock_held = some w →
      ∃ falses rounds rest x, script = pred_false falses ++ (true, rounds) :: rest ∧
        basic_condition_variable.waits falses s lock_held = some x ∧
        w = { value := true, cv := x.1, lock_held := x.2,
              calls := wait_pred_calls falses.length } := by
  induction script with
  | nil =>
    intro s lock_held w h
    simp [wait_pred] at h
  | cons c rest ih =>
    intro s lock_held w h
    obtain ⟨p, rounds⟩ := c
    cases p with
    | true =>
      simp only [wait_pred, Bool.not_true, Bool.false_eq_true, if_false,
        Option.some.injEq] at h
      exact ⟨[], rounds, rest, (s, lock_held), rfl, rfl, h.symm⟩
    | false =>
      simp only [wait_pred, Bool.not_false, if_true, wait] at h
      cases hd : s.do_wait rounds lock_held with
      | none => simp [hd] at h
      | some d =>
        simp only [hd, Option.map_eq_some'] at h
        obtain ⟨w1, h1, h2⟩ := h
        obtain ⟨falses, r2, rest2, x, e1, e2, e3⟩ := ih d.cv d.frame.lock_held w1 h1
        refine ⟨rounds :: falses, r2, rest2, x, ?_, ?_, ?_⟩
        · rw [e1]
          rfl
        · simp only [basic_condition_variable.waits, hd]
          exact e2
        · rw [← h2, e3]
          simp [wait_result.after, wait_pred_calls]

theorem timed_wait_pred_returns (falses : List (List interference)) :
    ∀ (rounds : List interference) (rest : List (Bool × List interference))
      (s : basic_condition_variable) (lock_held : Bool)
      (x : basic_condition_variable × Bool),
      basic_condition_variable.timed_waits falses s lock_held = some x →
      timed_wait_pred (pred_false falses ++ (true, rounds) :: rest) s lock_held =
        some { value := true, cv := x.1, lock_held := x.2,
               calls := timed_wait_pred_calls falses.length true } ∧
      ∀ d, timed_wait rounds x.1 x.2 = some d → d.woken = false →
        timed_wait_pred (pred_false falses ++ (false, rounds) :: rest) s lock_held =
          some { value := false, cv := d.cv, lock_held := d.frame.lock_held,
                 calls := timed_wait_pred_calls falses.length false } := by
  induction falses with
  | nil =>
    intro rounds rest s lock_held x h
    simp only [basic_condition_variable.timed_waits, Option.some.injEq] at h
    subst h
    refine ⟨by simp [timed_wait_pred, pred_false, timed_wait_pred_calls], ?_⟩
    intro d hd hw
    simp [timed_wait_pred, pred_false, timed_wait_pred_calls, hd, hw]
  | cons r more ih =>
    intro rounds rest s lock_held x h
    simp only [basic_condition_variable.timed_waits] at h
    cases hd : s.do_wait r lock_held with
    | none => simp [hd] at h
    | some d =>
      simp only [hd] at h
      cases hw : d.woken with
      | false => simp [hw] at h
      | true =>
        simp only [hw, if_true] at h
        obtain ⟨i1, i2⟩ := ih rounds rest d.cv d.frame.lock_held x h
        simp only [pred_false] at i1 i2
        constructor
        · simp only [pred_false, List.map_cons, List.cons_append, timed_wait_pred, timed_wait,
            hd, hw, Bool.not_false, Bool.not_true, Bool.false_eq_true, if_true, if_false,
            List.append_eq]
          rw [i1]
          simp [wait_result.after, timed_wait_pred_calls]
        · intro d2 hd2 hw2
          simp only [pred_false, List.map_cons, List.cons_append, timed_wait_pred, timed_wait,
            hd, hw, Bool.not_false, Bool.not_true, Bool.false_eq_true, if_true, if_false,
            List.append_eq]
          rw [i2 d2 hd2 hw2]
          simp [wait_result.after, timed_wait_pred_calls]

theorem timed_wait_pred_script (script : List (Bool × List interference)) :
    ∀ (s : basic_condition_variable) (lock_held : Bool) (w : wait_result),
      timed_wait_pred script s lock_held = some w →
      (∃ falses rounds rest x, script = pred_false falses ++ (true, rounds) :: rest ∧
        basic_condition_variable.timed_waits falses s lock_held = some x ∧
        w = { value := true, cv := x.1, lock_held := x.2,
              calls := timed_wait_pred_calls falses.length true }) ∨
      (∃ falses rounds rest x d, script = pred_false falses ++ (false, rounds) :: rest ∧
        basic_condition_variable.timed_waits falses s lock_held = some x ∧
        timed_wait rounds x.1 x.2 = some d ∧ d.woken = false ∧
        w = { value := false, cv := d.cv, lock_held := d.frame.lock_held,
              calls := timed_wait_pred_calls falses.length false }) := by
  induction script with
  | nil =>
    intro s lock_held w h
    simp [timed_wait_pred] at h
  | cons c rest ih =>
    intro s lock_held w h
    obtain ⟨p, rounds⟩ := c
    cases p with
    | true =>
      simp only [timed_wait_pred, Bool.not_true, Bool.false_eq_true, if_false,
        Option.some.injEq] at h
      exact Or.inl ⟨[], rounds, rest, (s, lock_held), rfl, rfl, h.symm⟩
    | false =>
      simp only [timed_wait_pred, Bool.not_false, if_true] at h
      cases hd : timed_wait rounds s lock_held with
      | none => simp [hd] at h
      | some d =>
        simp only [hd] at h
        cases hw : d.woken with
        | false =>
          simp only [hw, Bool.not_false, if_true, Option.some.injEq] at h
          exact Or.inr ⟨[], rounds, rest, (s, lock_held), d, rfl, rfl, hd, hw, by
            rw [← h]; rfl⟩
        | true =>
          simp only [hw, Bool.not_true, Bool.false_eq_true, if_false,
            Option.map_eq_some'] at h
          obtain ⟨w1, h1, h2⟩ := h
          have hd2 : s.do_wait rounds lock_held = some d := hd
          rcases ih d.cv d.frame.lock_held w1 h1 with
            ⟨falses, r2, rest2, x, e1, e2, e3⟩ | ⟨falses, r2, rest2, x, d3, e1, e2, e3, e4, e5⟩
          · refine Or.inl ⟨rounds :: falses, r2, rest2, x, ?_, ?_, ?_⟩
            · rw [e1]
              rfl
            · simp only [basic_condition_variable.timed_waits, hd2, hw, if_true]
              exact e2
            · rw [← h2, e3]
              simp [wait_result.after, timed_wait_pred_calls]
          · refine Or.inr ⟨rounds :: falses, r2, rest2, x, d3, ?_, ?_, e3, e4, ?_⟩
            · rw [e1]
              rfl
            · simp only [basic_condition_variable.timed_waits, hd2, hw, if_true]
              exact e2
            · rw [← h2, e5]
              simp [wait_result.after, timed_wait_pred_calls]

end condition_variable

theorem pred_false_no_true (falses : List (List interference)) (pre : List (List interference))
    (rounds : List interference) (rest : List (Bool × List interference)) :
    pred_false falses ≠ pred_false pre ++ (true, rounds) :: rest := by
  intro h
  have hm : (true, rounds) ∈ pred_false falses := by
    rw [h]
    simp
  simp [pred_false] at hm

/-- C6: for every script of values of `pred()` and of outcomes of the waits in between, and
for both `condition_variable` and `condition_variable_any`.
`wait(m,pred)` returns only when the script is some calls of `pred()` that give `false`, each
followed by a `wait(m)` that returns, and then a call of `pred()` that gives `true`; it then
returns at once, with the condition variable and the lock as the last `wait(m)` left them, so
when the first call gives `true` it makes no wait and changes nothing; it does return on every
such script, and does not return while `pred()` gives `false`.
`timed_wait(m,wait_until,pred)` returns `true` only in the same way, right after a call of
`pred()` that gave `true`, every `timed_wait(m,wait_until)` before it having returned `true`,
and returns `false` exactly when, after such calls, `pred()` gives `false` and the
`timed_wait(m,wait_until)` after it returns `false`.  The record of the calls made says the
same. -/
theorem predicate_waits (script : List (Bool × List interference))
    (s : basic_condition_variable) (lock_held : Bool) :
    (((∀ w, condition_variable.wait_pred script s lock_held = some w →
        w.calls.getLast? = some (call_event.pred true) ∧
        ∃ k, w.calls = wait_pred_calls k) ∧
     (∀ rounds rest, (condition_variable.wait_pred ((true, rounds) :: rest) s lock_held).map
        (fun w => w.calls) = some [call_event.pred true]) ∧
     (∀ w, condition_variable.timed_wait_pred script s lock_held = some w →
        (w.value = true ↔ w.calls.getLast? = some (call_event.pred true)) ∧
        (w.value = false ↔
          [call_event.pred false, call_event.timed_wait false] <:+ w.calls) ∧
        ∃ k, w.calls = timed_wait_pred_calls k w.value)) ∧
    ((∀ w, condition_variable_any.wait_pred script s lock_held = some w →
        w.calls.getLast? = some (call_event.pred true) ∧
        ∃ k, w.calls = wait_pred_calls k) ∧
     (∀ rounds rest, (condition_variable_any.wait_pred ((true, rounds) :: rest) s lock_held).map
        (fun w => w.calls) = some [call_event.pred true]) ∧
     (∀ w, condition_variable_any.timed_wait_pred script s lock_held = some w →
        (w.value = true ↔ w.calls.getLast? = some (call_event.pred true)) ∧
        (w.value = false ↔
          [call_event.pred false, call_event.timed_wait false] <:+ w.calls) ∧
        ∃ k, w.calls = timed_wait_pred_calls k w.value))) ∧
    (∀ wp : List (Bool × List interference) → basic_condition_variable → Bool →
        Option wait_result,
      wp = condition_variable.wait_pred ∨ wp = condition_variable_any.wait_pred →
      (∀ w, wp script s lock_held = some w →
        ∃ falses rounds rest x, script = pred_false falses ++ (true, rounds) :: rest ∧
          basic_condition_variable.waits falses s lock_held = some x ∧
          w = { value := true, cv := x.1, lock_held := x.2,
                calls := wait_pred_calls falses.length }) ∧
      (∀ rounds rest, wp ((true, rounds) :: rest) s lock_held =
        some { value := true, cv := s, lock_held := lock_held,
               calls := [call_event.pred true] }) ∧
      (∀ falses rounds rest x, basic_condition_variable.waits falses s lock_held = some x →
        wp (pred_false falses ++ (true, rounds) :: rest) s lock_held =
          some { value := true, cv := x.1, lock_held := x.2,
                 calls := wait_pred_calls falses.length }) ∧
      (∀ falses, wp (pred_false falses) s lock_held = none)) ∧
    (∀ (twp : List (Bool × List interference) → basic_condition_variable → Bool →
          Option wait_result)
        (tw : List interference → basic_condition_variable → Bool → Option do_wait_result),
      (twp = condition_variable.timed_wait_pred ∧ tw = condition_variable.timed_wait) ∨
        (twp = condition_variable_any.timed_wait_pred ∧
          tw = condition_variable_any.timed_wait) →
      (∀ w, twp script s lock_held = some w →
        (∃ falses rounds rest x, script = pred_false falses ++ (true, rounds) :: rest ∧
          basic_condition_variable.timed_waits falses s lock_held = some x ∧
          w = { value := true, cv := x.1, lock_held := x.2,
                calls := timed_wait_pred_calls falses.length true }) ∨
        (∃ falses rounds rest x d, script = pred_false falses ++ (false, rounds) :: rest ∧
          basic_condition_variable.timed_waits falses s lock_held = some x ∧
          tw rounds x.1 x.2 = some d ∧ d.woken = false ∧
          w = { value := false, cv := d.cv, lock_held := d.frame.lock_held,
                calls := timed_wait_pred_calls falses.length false })) ∧
      (∀ falses rounds rest x, basic_condition_variable.timed_waits falses s lock_held = some x →
        twp (pred_false falses ++ (true, rounds) :: rest) s lock_held =
          some { value := true, cv := x.1, lock_held := x.2,
                 calls := timed_wait_pred_calls falses.length true } ∧
        ∀ d, tw rounds x.1 x.2 = some d → d.woken = false →
          twp (pred_false falses ++ (false, rounds) :: rest) s lock_held =
            some { value := false, cv := d.cv, lock_held := d.frame.lock_held,
                   calls := timed_wait_pred_calls falses.length false })) := by
  have timed : ∀ w : wait_result, (∃ k, w.calls = timed_wait_pred_calls k w.value) →
      (w.value = true ↔ w.calls.getLast? = some (call_event.pred true)) ∧
      (w.value = false ↔
        [call_event.pred false, call_event.timed_wait false] <:+ w.calls) ∧
      ∃ k, w.calls = timed_wait_pred_calls k w.value := by
    intro w hk
    obtain ⟨k, hk⟩ := hk
    have hl := timed_wait_pred_calls_last k w.value
    rw [← hk] at hl
    refine ⟨?_, ?_, k, hk⟩
    · constructor
      · intro hv
        simpa [hv] using hl
      · intro hp
        cases hv : w.value
        · rw [hp, hv] at hl
          simp at hl
        · rfl
    · constructor
      · intro hv
        rw [hk, hv]
        exact timed_wait_pred_calls_suffix k
      · intro hsuf
        have h2 := suffix_last _ _ _ hsuf
        cases hv : w.value
        · rfl
        · rw [h2, hv] at hl
          simp at hl
  have plain : ∀ wp : List (Bool × List interference) → basic_condition_variable → Bool →
        Option wait_result, wp = condition_variable.wait_pred →
      (∀ w, wp script s lock_held = some w →
        ∃ falses rounds rest x, script = pred_false falses ++ (true, rounds) :: rest ∧
          basic_condition_variable.waits falses s lock_held = some x ∧
          w = { value := true, cv := x.1, lock_held := x.2,
                calls := wait_pred_calls falses.length }) ∧
      (∀ rounds rest, wp ((true, rounds) :: rest) s lock_held =
        some { value := true, cv := s, lock_held := lock_held,
               calls := [call_event.pred true] }) ∧
      (∀ falses rounds rest x, basic_condition_variable.waits falses s lock_held = some x →
        wp (pred_false falses ++ (true, rounds) :: rest) s lock_held =
          some { value := true, cv := x.1, lock_held := x.2,
                 calls := wait_pred_calls falses.length }) ∧
      (∀ falses, wp (pred_false falses) s lock_held = none) := by
    intro wp hwp
    subst hwp
    refine ⟨condition_variable.wait_pred_script script s lock_held, ?_, ?_, ?_⟩
    · intro rounds rest
      simp [condition_variable.wait_pred]
    · intro falses rounds rest x hx
      exact condition_variable.wait_pred_returns falses rounds rest s lock_held x hx
    · intro falses
      cases hw : condition_variable.wait_pred (pred_false falses) s lock_held with
      | none => rfl
      | some w =>
        obtain ⟨pre, rounds, rest, _, e1, _⟩ :=
          condition_variable.wait_pred_script _ s lock_held w hw
        exact absurd e1 (pred_false_no_true falses pre rounds rest)
  have timed2 : ∀ (twp : List (Bool × List interference) → basic_condition_variable → Bool →
          Option wait_result)
        (tw : List interference → basic_condition_variable → Bool → Option do_wait_result),
      twp = condition_variable.timed_wait_pred → tw = condition_variable.timed_wait →
      (∀ w, twp script s lock_held = some w →
        (∃ falses rounds rest x, script = pred_false falses ++ (true, rounds) :: rest ∧
          basic_condition_variable.timed_waits falses s lock_held = some x ∧
          w = { value := true, cv := x.1, lock_held := x.2,
                calls := timed_wait_pred_calls falses.length true }) ∨
        (∃ falses rounds rest x d, script = pred_false falses ++ (false, rounds) :: rest ∧
          basic_condition_variable.timed_waits falses s lock_held = some x ∧
          tw rounds x.1 x.2 = some d ∧ d.woken = false ∧
          w = { value := false, cv := d.cv, lock_held := d.frame.lock_held,
                calls := timed_wait_pred_calls falses.length false })) ∧
      (∀ falses rounds rest x, basic_condition_variable.timed_waits falses s lock_held = some x →
        twp (pred_false falses ++ (true, rounds) :: rest) s lock_held =
          some { value := true, cv := x.1, lock_held := x.2,
                 calls := timed_wait_pred_calls falses.length true } ∧
        ∀ d, tw rounds x.1 x.2 = some d → d.woken = false →
          twp (pred_false falses ++ (false, rounds) :: rest) s lock_held =
            some { value := false, cv := d.cv, lock_held := d.frame.lock_held,
                   calls := timed_wait_pred_calls falses.length false }) := by
    intro twp tw h1 h2
    subst h1
    subst h2
    exact ⟨condition_variable.timed_wait_pred_script script s lock_held,
      fun falses rounds rest x hx =>
        condition_variable.timed_wait_pred_returns falses rounds rest s lock_held x hx⟩
  refine ⟨⟨⟨?_, ?_, ?_⟩, ⟨?_, ?_, ?_⟩⟩, ?_, ?_⟩
  · intro w h
    obtain ⟨k, hk⟩ := condition_variable.wait_pred_spec script s lock_held w h
    exact ⟨by rw [hk]; exact wait_pred_calls_last k, k, hk⟩
  · intro rounds rest
    simp [condition_variable.wait_pred]
  · intro w h
    exact timed w (condition_variable.timed_wait_pred_spec script s lock_held w h)
  · intro w h
    obtain ⟨k, hk⟩ := condition_variable_any.wait_pred_any_spec script s lock_held w h
    exact ⟨by rw [hk]; exact wait_pred_calls_last k, k, hk⟩
  · intro rounds rest
    simp [condition_variable_any.wait_pred]
  · intro w h
    exact timed w (condition_variable_any.timed_wait_pred_any_spec script s lock_held w h)
  · intro wp hwp
    rcases hwp with hwp | hwp
    · exact plain wp hwp
    · exact plain wp (hwp.trans wait_pred_any_eq)
  · intro twp tw h
    rcases h with ⟨h1, h2⟩ | ⟨h1, h2⟩
    · exact timed2 twp tw h1 h2
    · exact timed2 twp tw (h1.trans timed_wait_pred_any_eq) (h2.trans rfl)

/-- C6, witness: on the freshly constructed condition variable, `pred()` is false, the wait
after it meets a stale and then a woken iteration (two enrollments), and `pred()` is then
true: `wait(m,pred)` returns after that call; and when `pred()` is false and the `timed_wait`
after it times out, `timed_wait(m,wait_until,pred)` of `condition_variable_any` returns
`false`. -/
theorem predicate_waits_witness :
    (∃ w, condition_variable.wait_pred
        [(false, [interference.stale, interference.waking]), (true, [])]
        basic_condition_variable.construct true = some w ∧
      w.calls = [call_event.pred false, call_event.wait, call_event.pred true] ∧
      w.cv.total_count = 2 ∧
      w.calls.getLast? = some (call_event.pred true)) ∧
    (∃ w, condition_variable.wait_pred
        (pred_false [[interference.stale, interference.waking]] ++ (true, []) :: [])
        basic_condition_variable.construct true = some w ∧
      w.value = true ∧
      w.calls = [call_event.pred false, call_event.wait, call_event.pred true]) ∧
    (∃ w, condition_variable_any.timed_wait_pred
        (pred_false [] ++ (false, [interference.timing_out]) :: [])
        basic_condition_variable.construct true = some w ∧
      w.value = false ∧
      w.calls = [call_event.pred false, call_event.timed_wait false]) :=
  ⟨⟨_, rfl, by decide, by decide,
    ((predicate_waits [(false, [interference.stale, interference.waking]), (true, [])]
      basic_condition_variable.construct true).1.1.1 _ rfl).1⟩,
   ⟨_, ((predicate_waits [] basic_condition_variable.construct true).2.1
      condition_variable.wait_pred (Or.inl rfl)).2.2.1
        [[interference.stale, interference.waking]] [] [] _ rfl, rfl, rfl⟩,
   ⟨_, (((predicate_waits [] basic_condition_variable.construct true).2.2
      condition_variable_any.timed_wait_pred condition_variable_any.timed_wait
      (Or.inr ⟨rfl, rfl⟩)).2 [] [interference.timing_out] [] _ rfl).2 _ rfl rfl, rfl, rfl⟩⟩
